import Mathlib

/-!
The module `date` of faker-cxx (src/modules/date.cpp).

A shallow embedding of the date module and the properties of its specification.

Conventions of the embedding.

* A `std::chrono::system_clock::time_point` is its tick count since the epoch, an `Int`.
  The clock period is implementation-defined, so the number of ticks per second is a
  parameter `tps` (10^9 with libstdc++); `tps = 1` gives whole-second instants.
  Tick counts and tick arithmetic are signed 64-bit: every sum, difference and unit
  conversion of `std::chrono` is reduced with `wrap64`. Signed overflow is undefined
  behaviour in C++; the embedding gives it the two's-complement result of the compiled
  program. Statements about the program on its own platform take `tps = nanoTicks`.
* `unsigned int` is 32 bits wide: products of `unsigned` values are reduced modulo 2^32.
* `std::chrono::system_clock::now()` is a parameter `clock : Nat → Int`; `clock k` is the
  value of the k-th read of the clock during one call (k = 0 for the first read).
* `number::integer(max)` (declared in faker-cxx/number.h) is a parameter
  `integer : Int → Except ε Int`: the draw for the requested upper bound, or the exception
  the random source raises. Exceptions propagate through the callers as in C++.
* The C library calls (`gmtime`, `mktime`, `strftime` behind `put_time`, and libstdc++
  `get_time`) are modelled after glibc and libstdc++ 12. `gmtime` is UTC; `mktime` is local
  time, for a zone with a fixed offset `tz` (seconds east of Greenwich).
-/

namespace faker.date

/-! ## Types declared in faker-cxx/date.h -/

/-- Modelled from the spec: the enumeration `DateFormat` of faker-cxx/date.h, which is not
part of the source file; the spec names its two values `Timestamp` and `Iso8601`. -/
inductive DateFormat
  | Iso8601
  | Timestamp
deriving DecidableEq, Repr

/-- Modelled from the spec: the error taxonomy of section 7 of the specification
(`MalformedDate`, `InvalidInterval`, `RangeOverflow`). The source file declares no error
type; this one is used to state the claims about failures. -/
inductive DateError
  | MalformedDate
  | InvalidInterval
  | RangeOverflow
deriving DecidableEq, Repr

/-! ## Decimal output (`operator<<` on integers, `std::to_string`) -/

/-- The character of the decimal digit `d` (for `d < 10`). -/
def digitChar (d : Nat) : Char := Char.ofNat (48 + d)

/-- Decimal digits of `n` pushed in front of `acc`, most significant first. The first
argument bounds the number of digits produced. -/
def natDigitsAux : Nat → Nat → List Char → List Char
  | 0, _, acc => acc
  | fuel + 1, n, acc =>
    if n < 10 then digitChar n :: acc
    else natDigitsAux fuel (n / 10) (digitChar (n % 10) :: acc)

/-- Decimal digits of a natural number, most significant first, no leading zero. -/
def natDigits (n : Nat) : List Char := natDigitsAux (n + 1) n []

/-- Decimal rendering of a signed integer as `operator<<` and `std::to_string` produce it:
a minus sign for negative values, no sign otherwise. -/
def decimal : Int → List Char
  | Int.ofNat n => natDigits n
  | Int.negSucc n => '-' :: natDigits (n + 1)

/-- Reads a non-empty run of decimal digits as a natural number. -/
def readNatAux : List Char → Nat → Option Nat
  | [], acc => some acc
  | c :: cs, acc =>
    if 48 ≤ c.toNat ∧ c.toNat ≤ 57 then readNatAux cs (acc * 10 + (c.toNat - 48)) else none

/-- Reads a decimal integer: an optional minus sign followed by at least one digit. -/
def readInt : List Char → Option Int
  | [] => none
  | '-' :: [] => none
  | '-' :: c :: cs => (readNatAux (c :: cs) 0).map (fun n => -(n : Int))
  | c :: cs => (readNatAux (c :: cs) 0).map (fun n => (n : Int))

/-! ## The C library: broken-down time -/

/-- The fields of `struct tm` that the program and the library calls it makes read or write
(`tm_wday` and `tm_yday` are never read and are left out). -/
structure Tm where
  tm_sec : Int
  tm_min : Int
  tm_hour : Int
  tm_mday : Int
  tm_mon : Int
  tm_year : Int
  tm_isdst : Int
deriving DecidableEq, Repr

/-- Value-initialised `std::tm{}`: every field is zero. -/
def Tm.zero : Tm :=
  { tm_sec := 0, tm_min := 0, tm_hour := 0, tm_mday := 0, tm_mon := 0, tm_year := 0,
    tm_isdst := 0 }

/-- Number of days from 1970-01-01 to the day `d` of month `m` (1..12) of year `y` in the
proleptic Gregorian calendar. Linear in `d`, so days outside the month carry over. -/
def daysFromCivil (y m d : Int) : Int :=
  let y1 := if m ≤ 2 then y - 1 else y
  let era := y1 / 400
  let yoe := y1 - era * 400
  let mp := if 2 < m then m - 3 else m + 9
  let doy := (153 * mp + 2) / 5 + d - 1
  let doe := yoe * 365 + yoe / 4 - yoe / 100 + doy
  era * 146097 + doe - 719468

/-- The proleptic Gregorian date (year, month 1..12, day 1..31) of the day that lies `z` days
after 1970-01-01. -/
def civilFromDays (z : Int) : Int × Int × Int :=
  let z1 := z + 719468
  let era := z1 / 146097
  let doe := z1 - era * 146097
  let yoe := (doe - doe / 1460 + doe / 36524 - doe / 146096) / 365
  let y := yoe + era * 400
  let doy := doe - (365 * yoe + yoe / 4 - yoe / 100)
  let mp := (5 * doy + 2) / 153
  let d := doy - (153 * mp + 2) / 5 + 1
  let m := if mp < 10 then mp + 3 else mp - 9
  (if m ≤ 2 then y + 1 else y, m, d)

/-- The call `gmtime`: the UTC broken-down time of `t` seconds since the epoch. -/
def gmtime (t : Int) : Tm :=
  let days := t / 86400
  let rem := t % 86400
  let ymd := civilFromDays days
  { tm_sec := rem % 60, tm_min := rem / 60 % 60, tm_hour := rem / 3600,
    tm_mday := ymd.2.2, tm_mon := ymd.2.1 - 1, tm_year := ymd.1 - 1900, tm_isdst := 0 }

/-- Seconds since the epoch of a broken-down time read as UTC. Fields outside their normal
range are carried over, as `mktime` does. -/
def timegm (tm : Tm) : Int :=
  let y := tm.tm_year + 1900 + tm.tm_mon / 12
  let m := tm.tm_mon % 12 + 1
  (daysFromCivil y m 1 + (tm.tm_mday - 1)) * 86400
    + tm.tm_hour * 3600 + tm.tm_min * 60 + tm.tm_sec

/-- The call `mktime`: seconds since the epoch of a broken-down time read as LOCAL time.
The local zone is `tz` seconds east of Greenwich, with no daylight-saving rule (so
`tm_isdst` has no effect); `tz = 0` is a process running in UTC. -/
def mktime (tz : Int) (tm : Tm) : Int := timegm tm - tz

/-! ## The C library: formatting (`put_time`, which calls `strftime`) -/

/-- A number printed by `strftime` with a minimum width, padded with zeros on the left. -/
def fmtNumber (width : Nat) (v : Int) : List Char :=
  let ds := natDigits v.natAbs
  let padded := List.replicate (width - ds.length) '0' ++ ds
  if v < 0 then '-' :: padded else padded

/-- The call `put_time(&tm, fmt)` for the conversions the program uses: `%Y` is the year
without padding (glibc), `%m %d %H %M %S` are two-digit zero-padded fields, any other
character is copied. -/
def putTime (tm : Tm) : List Char → List Char
  | '%' :: 'Y' :: f => fmtNumber 1 (tm.tm_year + 1900) ++ putTime tm f
  | '%' :: 'm' :: f => fmtNumber 2 (tm.tm_mon + 1) ++ putTime tm f
  | '%' :: 'd' :: f => fmtNumber 2 tm.tm_mday ++ putTime tm f
  | '%' :: 'H' :: f => fmtNumber 2 tm.tm_hour ++ putTime tm f
  | '%' :: 'M' :: f => fmtNumber 2 tm.tm_min ++ putTime tm f
  | '%' :: 'S' :: f => fmtNumber 2 tm.tm_sec ++ putTime tm f
  | c :: f => c :: putTime tm f
  | [] => []

/-! ## libstdc++: parsing (`get_time`) -/

/-- Class `isspace` of the C locale. -/
def isSpace (c : Char) : Bool := c.toNat = 32 || (9 ≤ c.toNat && c.toNat ≤ 13)

/-- Class `isdigit`. -/
def isDigit (c : Char) : Bool := 48 ≤ c.toNat && c.toNat ≤ 57

/-- The loop of `time_get::_M_extract_num`: reads at most `len` digits and stops, without
consuming the digit, as soon as the value exceeds `max`. Returns the rest of the input, the
number of characters consumed and the value. -/
def extractNumLoop (max : Int) : Nat → List Char → Nat → Int → List Char × Nat × Int
  | 0, s, i, value => (s, i, value)
  | _ + 1, [], i, value => ([], i, value)
  | len + 1, c :: s, i, value =>
    if isDigit c then
      let value1 := value * 10 + ((c.toNat : Int) - 48)
      if max < value1 then (c :: s, i, value1)
      else extractNumLoop max len s (i + 1) value1
    else (c :: s, i, value)

/-- The function `time_get::_M_extract_num`: the rest of the input and the number read, or
`none` when the failure flag is raised (no digit, or a value outside `[min, max]`). -/
def extractNum (min max : Int) (len : Nat) (s : List Char) : List Char × Option Int :=
  let r := extractNumLoop max len s 0 0
  if r.2.1 ≠ 0 ∧ min ≤ r.2.2 ∧ r.2.2 ≤ max then (r.1, some r.2.2) else (r.1, none)

/-- Result of `get_time`: the broken-down time as left by the extraction and the failure
flag of the stream. -/
structure GetTimeResult where
  tm : Tm
  failbit : Bool
deriving DecidableEq, Repr

/-- One numeric conversion of `time_get::_M_extract_via_format`: on success the field is
stored with `store` and the loop of `time_get::get` goes on with `k`. On failure the
failure flag is raised and the extraction stops with the fields stored so far. -/
def getField (min max : Int) (len : Nat) (store : Tm → Int → Tm) (tm : Tm) (s : List Char)
    (k : List Char → Tm → GetTimeResult) : GetTimeResult :=
  match extractNum min max len s with
  | (rest, some v) => k rest (store tm v)
  | (_, none) => { tm := tm, failbit := true }

/-- The loop of `time_get::get` over the format, for the conversions `%Y %m %d %H %M %S`
and literal characters (the layout of the program has no white space). The loop stops when
the input is exhausted: with the failure flag if it was exhausted before the step, without
it if a conversion consumed the last character. -/
def getTimeLoop : List Char → List Char → Tm → GetTimeResult
  | [], _, tm => { tm := tm, failbit := false }
  | _ :: _, [], tm => { tm := tm, failbit := true }
  | '%' :: 'Y' :: f, s, tm =>
    getField 0 9999 4 (fun t v => { t with tm_year := v - 1900 }) tm s
      (fun rest t => if rest = [] then { tm := t, failbit := false } else getTimeLoop f rest t)
  | '%' :: 'm' :: f, s, tm =>
    getField 1 12 2 (fun t v => { t with tm_mon := v - 1 }) tm s
      (fun rest t => if rest = [] then { tm := t, failbit := false } else getTimeLoop f rest t)
  | '%' :: 'd' :: f, c :: s, tm =>
    getField 1 31 2 (fun t v => { t with tm_mday := v }) tm (if isSpace c then s else c :: s)
      (fun rest t => if rest = [] then { tm := t, failbit := false } else getTimeLoop f rest t)
  | '%' :: 'H' :: f, s, tm =>
    getField 0 23 2 (fun t v => { t with tm_hour := v }) tm s
      (fun rest t => if rest = [] then { tm := t, failbit := false } else getTimeLoop f rest t)
  | '%' :: 'M' :: f, s, tm =>
    getField 0 59 2 (fun t v => { t with tm_min := v }) tm s
      (fun rest t => if rest = [] then { tm := t, failbit := false } else getTimeLoop f rest t)
  | '%' :: 'S' :: f, s, tm =>
    getField 0 60 2 (fun t v => { t with tm_sec := v }) tm s
      (fun rest t => if rest = [] then { tm := t, failbit := false } else getTimeLoop f rest t)
  | '%' :: _, _ :: _, tm => { tm := tm, failbit := true }
  | c :: f, d :: s, tm =>
    if d.toLower = c.toLower ∨ d.toUpper = c.toUpper then getTimeLoop f s tm
    else { tm := tm, failbit := true }

/-- The extraction `stream >> get_time(&tm, fmt)` on a fresh stream over `s`, the structure
being value-initialised before: leading white space is skipped by the stream sentry, an empty
stream raises the failure flag and leaves the structure untouched. -/
def getTime (fmt : List Char) (s : List Char) : GetTimeResult :=
  match s.dropWhile isSpace with
  | [] => { tm := Tm.zero, failbit := true }
  | c :: cs => getTimeLoop fmt (c :: cs) Tm.zero

/-! ## std::chrono -/

/-- Two's-complement reduction of an integer to the signed 64-bit range: the value of an
`int64_t` computation whose exact result is `x`. -/
def wrap64 (x : Int) : Int :=
  (x + 9223372036854775808) % 18446744073709551616 - 9223372036854775808

/-- The values of `int64_t`: what a tick count, a `time_t` or a duration count can hold. -/
def InInt64 (x : Int) : Prop := -9223372036854775808 ≤ x ∧ x < 9223372036854775808

instance InInt64.decidable (x : Int) : Decidable (InInt64 x) :=
  inferInstanceAs (Decidable (-9223372036854775808 ≤ x ∧ x < 9223372036854775808))

/-- Ticks per second of `system_clock` with libstdc++: the clock counts nanoseconds. -/
def nanoTicks : Int := 1000000000

/-- The conversion `duration_cast<seconds>` of a tick count: truncation toward zero. -/
def durationCastSeconds (tps : Int) (d : Int) : Int := Int.tdiv d tps

/-- The call `system_clock::to_time_t`. -/
def to_time_t (tps : Int) (timePoint : Int) : Int := durationCastSeconds tps timePoint

/-- The call `system_clock::from_time_t`: the seconds converted to 64-bit ticks. -/
def from_time_t (tps : Int) (t : Int) : Int := wrap64 (t * tps)

/-- The tick count of `std::chrono::seconds{s}` converted to the period of the clock. -/
def seconds (tps : Int) (s : Int) : Int := wrap64 (s * tps)

/-- The tick count of `std::chrono::hours{h}` converted to the period of the clock. -/
def hours (tps : Int) (h : Int) : Int := wrap64 (h * 3600 * tps)

/-- The sum `time_point + duration` in 64-bit ticks. -/
def addTicks (a b : Int) : Int := wrap64 (a + b)

/-- The differences `time_point - duration` and `time_point - time_point` in 64-bit ticks. -/
def subTicks (a b : Int) : Int := wrap64 (a - b)

/-- Reduction of an `unsigned int` result modulo 2^32. -/
def uint32 (n : Int) : Int := n % 4294967296

/-- The conversion `static_cast<int>` of an `unsigned int` value (two's complement). -/
def toInt32 (n : Int) : Int :=
  if uint32 n < 2147483648 then uint32 n else uint32 n - 4294967296

/-! ## The random source -/

/-- The interface of `number::integer(max)` stated by the specification: for a
non-negative upper bound the call returns an integer of `[0, max]`, both bounds included.
Nothing is said about a negative bound. -/
def InclusiveBounds {ε : Type} (integer : Int → Except ε Int) : Prop :=
  ∀ m : Int, 0 ≤ m → ∃ r : Int, integer m = Except.ok r ∧ 0 ≤ r ∧ r ≤ m

/-- The interface of `number::integer<unsigned>(min, max)` stated by the specification: for
`min <= max` the call returns an integer of `[min, max]`, both bounds included. -/
def InclusiveRange {ε : Type} (integerRange : Int → Int → Except ε Int) : Prop :=
  ∀ lo hi : Int, lo ≤ hi → ∃ r : Int, integerRange lo hi = Except.ok r ∧ lo ≤ r ∧ r ≤ hi

/-- The contract of `std::uniform_int_distribution<int64_t>(a, b)` applied to the generator:
for `a <= b` the value drawn lies in `[a, b]`, both bounds included. -/
def UniformInRange (dis : Int → Int → Int) : Prop :=
  ∀ a b : Int, a ≤ b → a ≤ dis a b ∧ dis a b ≤ b

/-! ## date.cpp -/

/-- The layout string of the source, used for both `put_time` and `get_time`. -/
def isoLayout : List Char := "%Y-%m-%dT%H:%M:%SZ".data

/-- Source: `serializeTimePoint`. -/
def serializeTimePoint (tps : Int) (timePoint : Int) (dateFormat : DateFormat) : String :=
  let timePointTimeT := to_time_t tps timePoint
  let utcTime := gmtime timePointTimeT
  if dateFormat = DateFormat.Timestamp then
    String.mk (decimal (durationCastSeconds tps timePoint))
  else
    String.mk (putTime utcTime isoLayout)

/-- The local `randomDateWithinRange` of `betweenDate`: the sampled instant. -/
def randomDateWithinRange {ε : Type} (tps : Int) (integer : Int → Except ε Int)
    (frm til : Int) : Except ε Int :=
  let size := durationCastSeconds tps (subTicks til frm)
  (integer (size - 1)).map (fun r => addTicks frm (seconds tps r))

/-- Source: `betweenDate`. -/
def betweenDate {ε : Type} (tps : Int) (integer : Int → Except ε Int)
    (frm til : Int) (dateFormat : DateFormat) : Except ε String :=
  (randomDateWithinRange tps integer frm til).map
    (fun randomDate => serializeTimePoint tps randomDate dateFormat)

/-- The `time_t` that `between(const std::string&, ...)` computes for one of its bounds:
`get_time` into a value-initialised `tm`, then `mktime` (local time). -/
def parseSeconds (tz : Int) (s : String) : Int :=
  mktime tz (getTime isoLayout s.data).tm

/-- The instant that `between(const std::string&, ...)` computes for one of its bounds:
`get_time` into a value-initialised `tm`, then `mktime`, then `from_time_t`. The failure
flag of the stream is not consulted. -/
def parseBound (tps tz : Int) (s : String) : Int :=
  from_time_t tps (mktime tz (getTime isoLayout s.data).tm)

/-- Source: `between(const std::string&, const std::string&, DateFormat)`. -/
def between_string {ε : Type} (tps tz : Int) (integer : Int → Except ε Int)
    (frm til : String) (dateFormat : DateFormat) : Except ε String :=
  let fromTimePoint := parseBound tps tz frm
  let toTimePoint := parseBound tps tz til
  betweenDate tps integer fromTimePoint toTimePoint dateFormat

/-- Source: `between(int64_t, int64_t, DateFormat)`. -/
def between_int64 {ε : Type} (tps : Int) (integer : Int → Except ε Int)
    (frm til : Int) (dateFormat : DateFormat) : Except ε String :=
  let fromTimePoint := from_time_t tps frm
  let toTimePoint := from_time_t tps til
  betweenDate tps integer fromTimePoint toTimePoint dateFormat

/-- Source: `numberOfHoursInDay`. -/
def numberOfHoursInDay : Int := 24

/-- Source: `numberOfDaysInYear`. -/
def numberOfDaysInYear : Int := 365

/-- The pair `(startDate, endDate)` computed by `futureDate`: one read of the clock. -/
def futureDateBounds (tps : Int) (clock : Nat → Int) (years : Nat) : Int × Int :=
  let startDate := addTicks (clock 0) (hours tps 1)
  let endDate :=
    addTicks startDate (hours tps (uint32 (numberOfHoursInDay * numberOfDaysInYear * years)))
  (startDate, endDate)

/-- Source: `futureDate`. -/
def futureDate {ε : Type} (tps : Int) (integer : Int → Except ε Int) (clock : Nat → Int)
    (years : Nat) (dateFormat : DateFormat) : Except ε String :=
  betweenDate tps integer (futureDateBounds tps clock years).1
    (futureDateBounds tps clock years).2 dateFormat

/-- The pair `(startDate, endDate)` computed by `pastDate`: two reads of the clock. -/
def pastDateBounds (tps : Int) (clock : Nat → Int) (years : Nat) : Int × Int :=
  let startDate :=
    subTicks (clock 0) (hours tps (uint32 (numberOfHoursInDay * numberOfDaysInYear * years)))
  let endDate := subTicks (clock 1) (hours tps 1)
  (startDate, endDate)

/-- Source: `pastDate`. -/
def pastDate {ε : Type} (tps : Int) (integer : Int → Except ε Int) (clock : Nat → Int)
    (years : Nat) (dateFormat : DateFormat) : Except ε String :=
  betweenDate tps integer (pastDateBounds tps clock years).1
    (pastDateBounds tps clock years).2 dateFormat

/-- The pair `(startDate, endDate)` computed by `soonDate`: one read of the clock. -/
def soonDateBounds (tps : Int) (clock : Nat → Int) (days : Nat) : Int × Int :=
  let startDate := addTicks (clock 0) (hours tps 1)
  let endDate := addTicks startDate (hours tps (uint32 (numberOfHoursInDay * days)))
  (startDate, endDate)

/-- Source: `soonDate`. -/
def soonDate {ε : Type} (tps : Int) (integer : Int → Except ε Int) (clock : Nat → Int)
    (days : Nat) (dateFormat : DateFormat) : Except ε String :=
  betweenDate tps integer (soonDateBounds tps clock days).1
    (soonDateBounds tps clock days).2 dateFormat

/-- The pair `(startDate, endDate)` computed by `recentDate`: two reads of the clock. -/
def recentDateBounds (tps : Int) (clock : Nat → Int) (days : Nat) : Int × Int :=
  let startDate := subTicks (clock 0) (hours tps (uint32 (numberOfHoursInDay * days)))
  let endDate := subTicks (clock 1) (hours tps 1)
  (startDate, endDate)

/-- Source: `recentDate`. -/
def recentDate {ε : Type} (tps : Int) (integer : Int → Except ε Int) (clock : Nat → Int)
    (days : Nat) (dateFormat : DateFormat) : Except ε String :=
  betweenDate tps integer (recentDateBounds tps clock days).1
    (recentDateBounds tps clock days).2 dateFormat

/-- The pair `(startDate, endDate)` computed by `birthdateByAge`: two reads of the clock. -/
def birthdateByAgeBounds (tps : Int) (clock : Nat → Int) (minAge maxAge : Nat) : Int × Int :=
  let startDate :=
    subTicks (clock 0) (hours tps (uint32 (numberOfHoursInDay * numberOfDaysInYear * maxAge)))
  let endDate :=
    subTicks (clock 1) (hours tps (uint32 (numberOfHoursInDay * numberOfDaysInYear * minAge)))
  (startDate, endDate)

/-- Source: `birthdateByAge`. -/
def birthdateByAge {ε : Type} (tps : Int) (integer : Int → Except ε Int) (clock : Nat → Int)
    (minAge maxAge : Nat) (dateFormat : DateFormat) : Except ε String :=
  betweenDate tps integer (birthdateByAgeBounds tps clock minAge maxAge).1
    (birthdateByAgeBounds tps clock minAge maxAge).2 dateFormat

/-- The pair `(startDate, endDate)` computed by `birthdateByYear`: `mktime` (local time) of
January 1st 00:00:00 of `minYear` and of December 31st 23:59:59 of `maxYear`. -/
def birthdateByYearBounds (tps tz : Int) (minYear maxYear : Nat) : Int × Int :=
  let startDateTime : Tm :=
    { tm_year := toInt32 (uint32 ((minYear : Int) - 1900)), tm_mon := 0, tm_mday := 1,
      tm_hour := 0, tm_min := 0, tm_sec := 0, tm_isdst := -1 }
  let startDate := from_time_t tps (mktime tz startDateTime)
  let endDateTime : Tm :=
    { tm_year := toInt32 (uint32 ((maxYear : Int) - 1900)), tm_mon := 11, tm_mday := 31,
      tm_hour := 23, tm_min := 59, tm_sec := 59, tm_isdst := -1 }
  let endDate := from_time_t tps (mktime tz endDateTime)
  (startDate, endDate)

/-- Source: `birthdateByYear`. -/
def birthdateByYear {ε : Type} (tps tz : Int) (integer : Int → Except ε Int)
    (minYear maxYear : Nat) (dateFormat : DateFormat) : Except ε String :=
  betweenDate tps integer (birthdateByYearBounds tps tz minYear maxYear).1
    (birthdateByYearBounds tps tz minYear maxYear).2 dateFormat

/-- Source: `anytime`. The parameter `dis` is the draw of the 64-bit generator through
`std::uniform_int_distribution<int64_t>(0, max_seconds)`. The sum
`now_seconds + total_seconds` of two `int64_t` second counts is exact: it cannot overflow
for a reading of a clock that counts nanoseconds. -/
def anytime (tps : Int) (dis : Int → Int → Int) (clock : Nat → Int)
    (dateFormat : DateFormat) : String :=
  let total_seconds : Int := 3600 * 24 * 365 * 200
  let now_seconds := durationCastSeconds tps (clock 0)
  let max_seconds := now_seconds + total_seconds
  let random_seconds := dis 0 max_seconds
  let timePoint := seconds tps random_seconds
  if dateFormat = DateFormat.Timestamp then
    String.mk (decimal random_seconds)
  else
    String.mk (putTime (gmtime (to_time_t tps timePoint)) isoLayout)

/-- Source: `year`. -/
def year {ε : Type} (integerRange : Int → Int → Except ε Int) : Except ε Int :=
  let minYear : Int := 1950
  let maxYear : Int := 2050
  integerRange minYear maxYear

/-- Source: `month`. -/
def month {ε : Type} (integerRange : Int → Int → Except ε Int) : Except ε Int :=
  integerRange 1 12

/-- Source: `hour`. -/
def hour {ε : Type} (integerRange : Int → Int → Except ε Int) : Except ε Int :=
  integerRange 0 23

/-- Source: `minute`. -/
def minute {ε : Type} (integerRange : Int → Int → Except ε Int) : Except ε Int :=
  integerRange 0 59

/-- Source: `second`. -/
def second {ε : Type} (integerRange : Int → Int → Except ε Int) : Except ε Int :=
  integerRange 0 59

/-- Modelled from the spec: the helper `common::format` of common/format_helper.h, which is
not part of the source file, applied to the pattern of `time`: two numeric fields of minimum
width 2, padded with zeros on the left, separated by a colon. -/
def formatTime (h m : Int) : String :=
  String.mk (fmtNumber 2 h ++ ':' :: fmtNumber 2 m)

/-- Source: `time`. The two draws are independent calls of the random source; the order in
which C++ evaluates the two arguments is unspecified and only decides which exception
propagates when both calls fail. -/
def time {ε : Type} (integerRange : Int → Int → Except ε Int) : Except ε String :=
  (hour integerRange).bind (fun h => (minute integerRange).map (fun m => formatTime h m))

/-- Source: `dayOfMonth`. -/
def dayOfMonth {ε : Type} (integerRange : Int → Int → Except ε Int) : Except ε Int :=
  integerRange 1 31

/-- Source: `dayOfWeek`. -/
def dayOfWeek {ε : Type} (integerRange : Int → Int → Except ε Int) : Except ε Int :=
  integerRange 1 7

/-! ## Sample random sources, used to instantiate the statements -/

/-- A two-bound random source that always draws its lower bound. -/
def rangeMin {ε : Type} : Int → Int → Except ε Int := fun lo _ => Except.ok lo

/-- A two-bound random source that always draws its upper bound. -/
def rangeMax {ε : Type} : Int → Int → Except ε Int := fun _ hi => Except.ok hi

/-- A distribution that always draws its lower bound. -/
def disMin : Int → Int → Int := fun a _ => a

/-- A distribution that always draws its upper bound. -/
def disMax : Int → Int → Int := fun _ b => b

/-- A random source that always draws 0, the lower bound. -/
def drawZero {ε : Type} : Int → Except ε Int := fun _ => Except.ok 0

/-- A random source that always draws its upper bound. -/
def drawMax {ε : Type} : Int → Except ε Int := fun m => Except.ok m

/-- A random source that rejects a negative upper bound and draws 0 otherwise. -/
def drawGuarded : Int → Except Unit Int := fun m => if m < 0 then Except.error () else Except.ok 0

/-- A random source that fails with `InvalidInterval` on a negative upper bound and draws 0
otherwise. -/
def drawStrict : Int → Except DateError Int :=
  fun m => if m < 0 then Except.error DateError.InvalidInterval else Except.ok 0

/-- A clock whose first read returns `t0` and whose later reads return `t1`. -/
def clockTwo (t0 t1 : Int) : Nat → Int := fun k => if k = 0 then t0 else t1

/-! ## Basic facts -/

theorem inclusiveBounds_drawZero {ε : Type} : InclusiveBounds (drawZero : Int → Except ε Int) := by
  intro m hm
  exact ⟨0, rfl, le_refl 0, hm⟩

theorem inclusiveBounds_drawMax {ε : Type} : InclusiveBounds (drawMax : Int → Except ε Int) := by
  intro m hm
  exact ⟨m, rfl, hm, le_refl m⟩

theorem inclusiveBounds_drawGuarded : InclusiveBounds drawGuarded := by
  intro m hm
  refine ⟨0, ?_, le_refl 0, hm⟩
  have h : ¬ m < 0 := by omega
  simp [drawGuarded, h]

theorem inclusiveBounds_drawStrict : InclusiveBounds drawStrict := by
  intro m hm
  refine ⟨0, ?_, le_refl 0, hm⟩
  have h : ¬ m < 0 := by omega
  simp [drawStrict, h]

/-- A value of the 64-bit range is not changed by the reduction. -/
theorem wrap64_eq (x : Int) (h : InInt64 x) : wrap64 x = x := by
  unfold InInt64 at h
  unfold wrap64
  omega

/-- The reduction lands in the 64-bit range. -/
theorem inInt64_wrap64 (x : Int) : InInt64 (wrap64 x) := by
  unfold InInt64 wrap64
  omega

theorem tdiv_mul_le_of_pos (d tps : Int) (htps : 0 < tps) (h : 1 ≤ Int.tdiv d tps) :
    Int.tdiv d tps * tps ≤ d := by
  rcases lt_or_le d 0 with hd | hd
  · exfalso
    have hneg : Int.tdiv d tps ≤ 0 := by
      have h1 : d = -(-d) := by omega
      rw [h1, Int.neg_tdiv]
      have h2 : 0 ≤ Int.tdiv (-d) tps := Int.tdiv_nonneg (by omega) (by omega)
      omega
    omega
  · rw [Int.tdiv_eq_ediv hd (by omega)]
    exact Int.ediv_mul_le d (by omega)

theorem durationCastSeconds_mul (tps : Int) (htps : 0 < tps) (s : Int) :
    durationCastSeconds tps (s * tps) = s := by
  unfold durationCastSeconds
  exact Int.mul_tdiv_cancel s (by omega)

/-- The whole second of an instant at or after the epoch is its floor. -/
theorem to_time_t_floor (tps x : Int) (htps : 0 < tps) (hx : 0 ≤ x) :
    to_time_t tps x * tps ≤ x ∧ x < to_time_t tps x * tps + tps := by
  unfold to_time_t durationCastSeconds
  rw [Int.tdiv_eq_ediv hx (by omega)]
  have h1 := Int.ediv_mul_le x (show tps ≠ 0 by omega)
  have h2 := Int.lt_ediv_add_one_mul_self x htps
  constructor
  · exact h1
  · have h3 : (x / tps + 1) * tps = x / tps * tps + tps := by ring
    omega

/-- The whole second of an instant is less than one second away from it: the cast
truncates toward zero. -/
theorem to_time_t_near (tps x : Int) (htps : 0 < tps) :
    x - tps < to_time_t tps x * tps ∧ to_time_t tps x * tps < x + tps := by
  rcases lt_or_le x 0 with hx | hx
  · have h := to_time_t_floor tps (-x) htps (by omega)
    have e : to_time_t tps x = -to_time_t tps (-x) := by
      unfold to_time_t durationCastSeconds
      have h1 : x = -(-x) := by omega
      conv_lhs => rw [h1, Int.neg_tdiv]
    rw [e]
    have e2 : -to_time_t tps (-x) * tps = -(to_time_t tps (-x) * tps) := by ring
    rw [e2]
    omega
  · have h := to_time_t_floor tps x htps hx
    omega

/-- The whole second of an instant at or after the epoch, moved by whole seconds. -/
theorem to_time_t_add (tps x k : Int) (htps : 0 < tps) (hx : 0 ≤ x) (hk : 0 ≤ k) :
    to_time_t tps (x + k * tps) = to_time_t tps x + k := by
  unfold to_time_t durationCastSeconds
  have hk2 : 0 ≤ k * tps := Int.mul_nonneg hk (by omega)
  rw [Int.tdiv_eq_ediv (by omega) (by omega), Int.tdiv_eq_ediv hx (by omega)]
  exact Int.add_mul_ediv_right x k (by omega)

/-- The cast to whole seconds is monotone on instants at or after the epoch. -/
theorem to_time_t_mono (tps a b : Int) (htps : 0 < tps) (ha : 0 ≤ a) (hab : a ≤ b) :
    to_time_t tps a ≤ to_time_t tps b := by
  unfold to_time_t durationCastSeconds
  rw [Int.tdiv_eq_ediv ha (by omega), Int.tdiv_eq_ediv (by omega) (by omega)]
  exact Int.ediv_le_ediv htps hab

theorem uint32_of_lt (n : Int) (h0 : 0 ≤ n) (h1 : n < 4294967296) : uint32 n = n := by
  unfold uint32
  exact Int.emod_eq_of_lt h0 h1

/-- The sampler hands the random source the bound `size - 1` and returns what it draws:
with `r` the draw, the sampled instant is `frm` plus `r` seconds, in 64-bit ticks, and
`betweenDate` serializes it. -/
theorem betweenDate_eq {ε : Type} (tps : Int) (integer : Int → Except ε Int)
    (frm til : Int) (fmt : DateFormat) :
    betweenDate tps integer frm til fmt
      = (integer (durationCastSeconds tps (subTicks til frm) - 1)).map
          (fun r => serializeTimePoint tps (addTicks frm (seconds tps r)) fmt) := by
  unfold betweenDate randomDateWithinRange
  simp only []
  generalize integer (durationCastSeconds tps (subTicks til frm) - 1) = d
  cases d <;> rfl

/-- The sampler on two instants whose difference fits 64 bits: the bound handed to the
random source is the whole number of seconds between them, minus one. -/
theorem betweenDate_eq_of_fit {ε : Type} (tps : Int) (integer : Int → Except ε Int)
    (frm til : Int) (fmt : DateFormat) (hd : InInt64 (til - frm)) :
    betweenDate tps integer frm til fmt
      = (integer (durationCastSeconds tps (til - frm) - 1)).map
          (fun r => serializeTimePoint tps (addTicks frm (seconds tps r)) fmt) := by
  rw [betweenDate_eq]
  unfold subTicks
  rw [wrap64_eq _ hd]

/-- The sampler on an interval of at least one whole second that fits 64-bit ticks, with a
random source that respects its bounds: an instant of the half-open interval is returned,
at least one second before the upper bound. -/
theorem betweenDate_spec {ε : Type} (tps : Int) (htps : 0 < tps)
    (integer : Int → Except ε Int) (hint : InclusiveBounds integer)
    (frm til : Int) (fmt : DateFormat) (hf : InInt64 frm) (ht : InInt64 til)
    (hd : til - frm < 9223372036854775808)
    (hL : 1 ≤ durationCastSeconds tps (til - frm)) :
    ∃ r : Int, 0 ≤ r ∧ r ≤ durationCastSeconds tps (til - frm) - 1 ∧
      randomDateWithinRange tps integer frm til = Except.ok (frm + r * tps) ∧
      betweenDate tps integer frm til fmt
        = Except.ok (serializeTimePoint tps (frm + r * tps) fmt) ∧
      frm ≤ frm + r * tps ∧ frm + r * tps + tps ≤ til := by
  have hmul : Int.tdiv (til - frm) tps * tps ≤ til - frm :=
    tdiv_mul_le_of_pos (til - frm) tps htps hL
  have hLt : 1 * tps ≤ Int.tdiv (til - frm) tps * tps :=
    Int.mul_le_mul_of_nonneg_right hL (by omega)
  have hdd : InInt64 (til - frm) := by
    unfold InInt64
    omega
  have hsub : subTicks til frm = til - frm := wrap64_eq _ hdd
  obtain ⟨r, hr, hr0, hr1⟩ := hint (durationCastSeconds tps (til - frm) - 1) (by omega)
  have hrt : 0 ≤ r * tps := Int.mul_nonneg hr0 (by omega)
  have hlt : (r + 1) * tps ≤ Int.tdiv (til - frm) tps * tps := by
    apply Int.mul_le_mul_of_nonneg_right _ (by omega)
    unfold durationCastSeconds at hr1
    omega
  have hexp : (r + 1) * tps = r * tps + tps := by ring
  have hsec : seconds tps r = r * tps := by
    unfold seconds
    apply wrap64_eq
    unfold InInt64 at *
    omega
  have hadd : addTicks frm (seconds tps r) = frm + r * tps := by
    rw [hsec]
    unfold addTicks
    apply wrap64_eq
    unfold InInt64 at *
    omega
  have h1 : randomDateWithinRange tps integer frm til = Except.ok (frm + r * tps) := by
    unfold randomDateWithinRange
    simp only [hsub, hr, Except.map, hadd]
  refine ⟨r, hr0, hr1, h1, ?_, by omega, by omega⟩
  unfold betweenDate
  rw [h1]
  rfl

/-- The sampler's result together with the whole second that is printed: the sampled
instant lies in `[frm, til - 1s]` and the printed second, which truncates it toward zero, is
less than a second below `frm` at worst and strictly below `til`. -/
theorem sample_window {ε : Type} (tps : Int) (htps : 0 < tps)
    (integer : Int → Except ε Int) (hint : InclusiveBounds integer)
    (frm til : Int) (fmt : DateFormat) (hf : InInt64 frm) (ht : InInt64 til)
    (hd : til - frm < 9223372036854775808)
    (hL : 1 ≤ durationCastSeconds tps (til - frm)) :
    ∃ x : Int, randomDateWithinRange tps integer frm til = Except.ok x ∧
      betweenDate tps integer frm til fmt = Except.ok (serializeTimePoint tps x fmt) ∧
      frm ≤ x ∧ x + tps ≤ til ∧
      frm - tps < to_time_t tps x * tps ∧ to_time_t tps x * tps < til := by
  obtain ⟨r, _, _, h1, h2, h3, h4⟩ :=
    betweenDate_spec tps htps integer hint frm til fmt hf ht hd hL
  obtain ⟨h5, h6⟩ := to_time_t_near tps (frm + r * tps) htps
  exact ⟨frm + r * tps, h1, h2, h3, h4, by omega, by omega⟩

/-- The sampler between two whole-second bounds `a < b` (as `from_time_t` builds them) that
fit the 64-bit tick count together with their difference, for a draw `r` of `[0, b - a - 1]`:
the random source is called with the bound `b - a - 1` and the result is the whole-second
instant `a + r`, which is the second that is printed. -/
theorem sample_seconds_of_draw {ε : Type} (tps : Int) (htps : 0 < tps)
    (integer : Int → Except ε Int) (a b r : Int)
    (fmt : DateFormat) (hab : a < b) (ha : InInt64 (a * tps)) (hb : InInt64 (b * tps))
    (hd : (b - a) * tps < 9223372036854775808)
    (hr : integer (b - a - 1) = Except.ok r) (hr0 : 0 ≤ r) (hr1 : r ≤ b - a - 1) :
    from_time_t tps a = a * tps ∧ from_time_t tps b = b * tps ∧
    randomDateWithinRange tps integer (from_time_t tps a) (from_time_t tps b)
      = Except.ok ((a + r) * tps) ∧
    betweenDate tps integer (from_time_t tps a) (from_time_t tps b) fmt
      = Except.ok (serializeTimePoint tps ((a + r) * tps) fmt) ∧
    to_time_t tps ((a + r) * tps) = a + r := by
  have e1 : from_time_t tps a = a * tps := wrap64_eq _ ha
  have e2 : from_time_t tps b = b * tps := wrap64_eq _ hb
  have e3 : b * tps - a * tps = (b - a) * tps := by ring
  have hsize : durationCastSeconds tps (b * tps - a * tps) = b - a := by
    rw [e3]
    exact durationCastSeconds_mul tps htps (b - a)
  have hdd : InInt64 (b * tps - a * tps) := by
    rw [e3]
    have h0 : 0 ≤ (b - a) * tps := Int.mul_nonneg (by omega) (by omega)
    unfold InInt64
    omega
  have hsub : subTicks (b * tps) (a * tps) = b * tps - a * tps := wrap64_eq _ hdd
  have hsec : seconds tps r = r * tps := by
    unfold seconds
    apply wrap64_eq
    have h0 : 0 ≤ r * tps := Int.mul_nonneg hr0 (by omega)
    have h1 : r * tps ≤ (b - a) * tps := Int.mul_le_mul_of_nonneg_right (by omega) (by omega)
    unfold InInt64
    omega
  have hadd : addTicks (a * tps) (r * tps) = (a + r) * tps := by
    have h0 : 0 ≤ r * tps := Int.mul_nonneg hr0 (by omega)
    have h1 : (a + r) * tps ≤ b * tps := Int.mul_le_mul_of_nonneg_right (by omega) (by omega)
    have h2 : (a + r) * tps = a * tps + r * tps := by ring
    unfold addTicks
    rw [← h2]
    apply wrap64_eq
    unfold InInt64 at *
    omega
  have h1 : randomDateWithinRange tps integer (from_time_t tps a) (from_time_t tps b)
      = Except.ok ((a + r) * tps) := by
    unfold randomDateWithinRange
    simp only [e1, e2, hsub, hsize, hr, Except.map, hsec, hadd]
  refine ⟨e1, e2, h1, ?_, durationCastSeconds_mul tps htps (a + r)⟩
  unfold betweenDate
  rw [h1]
  rfl

/-- The sampler between two whole-second bounds `a < b` that fit the 64-bit tick count
together with their difference, with a random source that respects its bounds: the result
is a whole-second instant `a + r` with `0 <= r <= b - a - 1`. -/
theorem sample_seconds {ε : Type} (tps : Int) (htps : 0 < tps)
    (integer : Int → Except ε Int) (hint : InclusiveBounds integer) (a b : Int)
    (fmt : DateFormat) (hab : a < b) (ha : InInt64 (a * tps)) (hb : InInt64 (b * tps))
    (hd : (b - a) * tps < 9223372036854775808) :
    from_time_t tps a = a * tps ∧ from_time_t tps b = b * tps ∧
    ∃ r : Int, 0 ≤ r ∧ r ≤ b - a - 1 ∧
      integer (b - a - 1) = Except.ok r ∧
      randomDateWithinRange tps integer (from_time_t tps a) (from_time_t tps b)
        = Except.ok ((a + r) * tps) ∧
      betweenDate tps integer (from_time_t tps a) (from_time_t tps b) fmt
        = Except.ok (serializeTimePoint tps ((a + r) * tps) fmt) ∧
      to_time_t tps ((a + r) * tps) = a + r := by
  obtain ⟨r, hr, hr0, hr1⟩ := hint (b - a - 1) (by omega)
  obtain ⟨e1, e2, h1, h2, h3⟩ :=
    sample_seconds_of_draw tps htps integer a b r fmt hab ha hb hd hr hr0 hr1
  exact ⟨e1, e2, r, hr0, hr1, hr, h1, h2, h3⟩

/-! ## Properties of the specification -/

/-- C1 (as amended): for every pair of instants that fit the 64-bit tick count, whose
difference fits it too and is at least one whole second (L = to - from >= 1), and every
random source that respects its inclusive bounds, the instant `betweenDate` samples is an
instant `x` with `from <= x < to`, `betweenDate` returns its serialization, and the whole
second that is printed is less than a second below `from` and strictly below `to`. Hence
`between(int64 from, int64 to, format)` with `from < to`, when both bounds converted to ticks
and their difference fit 64 bits, returns the serialization of a whole-second instant `s`
with `from <= s < to`. The upper bound is never produced. -/
theorem C1_sample_in_half_open_interval {ε : Type} (tps : Int) (htps : 0 < tps)
    (integer : Int → Except ε Int) (hint : InclusiveBounds integer) (fmt : DateFormat) :
    (∀ frm til : Int, InInt64 frm → InInt64 til → til - frm < 9223372036854775808 →
      1 ≤ durationCastSeconds tps (til - frm) →
      ∃ x : Int, randomDateWithinRange tps integer frm til = Except.ok x ∧
        betweenDate tps integer frm til fmt = Except.ok (serializeTimePoint tps x fmt) ∧
        frm ≤ x ∧ x < til ∧
        frm - tps < to_time_t tps x * tps ∧ to_time_t tps x * tps < til) ∧
    (∀ frm til : Int, frm < til → InInt64 (frm * tps) → InInt64 (til * tps) →
      (til - frm) * tps < 9223372036854775808 →
      ∃ s : Int, randomDateWithinRange tps integer (from_time_t tps frm) (from_time_t tps til)
          = Except.ok (s * tps) ∧
        between_int64 tps integer frm til fmt
          = Except.ok (serializeTimePoint tps (s * tps) fmt) ∧
        to_time_t tps (s * tps) = s ∧ frm ≤ s ∧ s < til) := by
  constructor
  · intro frm til hf ht hd hL
    obtain ⟨x, h1, h2, h3, h4, h5, h6⟩ :=
      sample_window tps htps integer hint frm til fmt hf ht hd hL
    exact ⟨x, h1, h2, h3, by omega, h5, h6⟩
  · intro frm til hlt hf ht hd
    obtain ⟨_, _, r, hr0, hr1, _, h1, h2, h3⟩ :=
      sample_seconds tps htps integer hint frm til fmt hlt hf ht hd
    exact ⟨frm + r, h1, h2, h3, by omega, by omega⟩

/-- Witness of C1 (as amended): nanosecond ticks, the source that draws its upper bound, the
interval from 1700000000 to 1700000010 seconds. -/
theorem C1_sample_in_half_open_interval_witness :
    (0 : Int) < nanoTicks ∧ InclusiveBounds (drawMax : Int → Except Unit Int) ∧
    (1700000000 : Int) < 1700000010 ∧ InInt64 (1700000000 * nanoTicks) ∧
    InInt64 (1700000010 * nanoTicks) ∧
    (1700000010 - 1700000000) * nanoTicks < 9223372036854775808 ∧
    (∃ s : Int, randomDateWithinRange nanoTicks (drawMax : Int → Except Unit Int)
          (from_time_t nanoTicks 1700000000) (from_time_t nanoTicks 1700000010)
          = Except.ok (s * nanoTicks) ∧
        between_int64 nanoTicks (drawMax : Int → Except Unit Int) 1700000000 1700000010
            DateFormat.Timestamp
          = Except.ok (serializeTimePoint nanoTicks (s * nanoTicks) DateFormat.Timestamp) ∧
        to_time_t nanoTicks (s * nanoTicks) = s ∧ 1700000000 ≤ s ∧ s < 1700000010) ∧
    between_int64 nanoTicks (drawMax : Int → Except Unit Int) 1700000000 1700000010
      DateFormat.Timestamp = Except.ok "1700000009" :=
  ⟨by decide, inclusiveBounds_drawMax, by decide, by decide, by decide, by decide,
    (C1_sample_in_half_open_interval nanoTicks (by decide) drawMax inclusiveBounds_drawMax
      DateFormat.Timestamp).2 1700000000 1700000010 (by decide) (by decide) (by decide)
      (by decide), rfl⟩

/-- C1, counterexample to the claim as stated: `between(9223372036, 9223372046)` with
nanosecond ticks. Both arguments are values of `int64_t` with `from < to`, but the upper
one does not fit the tick count once converted to nanoseconds: `from_time_t` wraps it to an
instant of the year 1677. The interval handed to the sampler is still 10 seconds long, the
random source is asked for a value of `[0, 9]` and answers 9, the sum wraps, and the result
is the second -9223372028, which is not in `[from, to)`. The second part: two instants of the 64-bit range that are more than
2^63 ticks apart, -5 * 10^18 and 5 * 10^18; the difference wraps and the random source is
called with the negative bound -8446744074, whatever the source is. -/
theorem C1_counterexample :
    InclusiveBounds (drawMax : Int → Except Unit Int) ∧
    (9223372036 : Int) < 9223372046 ∧ InInt64 9223372036 ∧ InInt64 9223372046 ∧
    from_time_t nanoTicks 9223372036 = 9223372036000000000 ∧
    from_time_t nanoTicks 9223372046 = -9223372027709551616 ∧
    durationCastSeconds nanoTicks
      (subTicks (from_time_t nanoTicks 9223372046) (from_time_t nanoTicks 9223372036)) - 1
      = 9 ∧
    between_int64 nanoTicks (drawMax : Int → Except Unit Int) 9223372036 9223372046
      DateFormat.Timestamp = Except.ok "-9223372028" ∧
    ¬ ((9223372036 : Int) ≤ -9223372028) ∧
    InInt64 (-5000000000000000000) ∧ InInt64 5000000000000000000 ∧
    (∀ integer : Int → Except Unit Int,
      betweenDate nanoTicks integer (-5000000000000000000) 5000000000000000000
          DateFormat.Timestamp
        = (integer (-8446744074)).map
            (fun r => serializeTimePoint nanoTicks
              (addTicks (-5000000000000000000) (seconds nanoTicks r))
              DateFormat.Timestamp)) := by
  refine ⟨inclusiveBounds_drawMax, by decide, by decide, by decide, by decide, by decide,
    by decide, rfl, by decide, by decide, by decide, ?_⟩
  intro integer
  exact betweenDate_eq nanoTicks integer (-5000000000000000000) 5000000000000000000
    DateFormat.Timestamp

/-! ### Interval builders -/

theorem yearHours_eq (n : Nat) (hw : 8760 * (n : Int) < 4294967296) :
    uint32 (numberOfHoursInDay * numberOfDaysInYear * (n : Int)) = 8760 * (n : Int) := by
  have h : numberOfHoursInDay * numberOfDaysInYear * (n : Int) = 8760 * (n : Int) := by
    simp [numberOfHoursInDay, numberOfDaysInYear]
  rw [h]
  exact uint32_of_lt _ (by omega) hw

/-- The forward interval `[now + 1h, now + 1h + h hours]` in 64-bit ticks, when its upper end
fits the tick count: no sum and no conversion wraps. -/
theorem forward_bounds (tps c h : Int) (htps : 0 < tps) (hc : 0 ≤ c) (hh : 0 ≤ h)
    (hfit : c + (h + 1) * 3600 * tps < 9223372036854775808) :
    addTicks c (hours tps 1) = c + 3600 * tps ∧
    addTicks (addTicks c (hours tps 1)) (hours tps h) = c + 3600 * tps + h * 3600 * tps ∧
    InInt64 (c + 3600 * tps) ∧ InInt64 (c + 3600 * tps + h * 3600 * tps) ∧
    0 ≤ h * 3600 * tps := by
  have hX : 0 ≤ h * 3600 * tps := Int.mul_nonneg (by omega) (by omega)
  have e : (h + 1) * 3600 * tps = h * 3600 * tps + 3600 * tps := by ring
  rw [e] at hfit
  have e1 : hours tps 1 = 3600 * tps := by
    unfold hours
    rw [wrap64_eq]
    · ring
    · unfold InInt64
      omega
  have e2 : hours tps h = h * 3600 * tps := by
    unfold hours
    apply wrap64_eq
    unfold InInt64
    omega
  have e3 : addTicks c (3600 * tps) = c + 3600 * tps := by
    unfold addTicks
    apply wrap64_eq
    unfold InInt64
    omega
  have e4 : addTicks (c + 3600 * tps) (h * 3600 * tps) = c + 3600 * tps + h * 3600 * tps := by
    unfold addTicks
    apply wrap64_eq
    unfold InInt64
    omega
  rw [e1, e2, e3, e4]
  refine ⟨rfl, rfl, ?_, ?_, hX⟩
  · unfold InInt64
    omega
  · unfold InInt64
    omega

/-- The backward bound `now - h hours` in 64-bit ticks, for a clock at or after the epoch
and an offset that fits the tick count. -/
theorem backward_bound (tps c h : Int) (htps : 0 < tps) (hc : 0 ≤ c)
    (hc1 : c < 9223372036854775808) (hh : 0 ≤ h)
    (hfit : h * 3600 * tps < 9223372036854775808) :
    subTicks c (hours tps h) = c - h * 3600 * tps ∧ InInt64 (c - h * 3600 * tps) := by
  have hX : 0 ≤ h * 3600 * tps := Int.mul_nonneg (by omega) (by omega)
  have e2 : hours tps h = h * 3600 * tps := by
    unfold hours
    apply wrap64_eq
    unfold InInt64
    omega
  have hin : InInt64 (c - h * 3600 * tps) := by
    unfold InInt64
    omega
  rw [e2]
  exact ⟨wrap64_eq _ hin, hin⟩

/-- The sampler on the forward interval of `futureDate` and `soonDate`, for a clock at or
after the epoch, an offset of `h >= 1` hours and an upper end that fits the tick count. The
sampled instant lies in `[now + 1h, now + 1h + h hours)`; the second that is printed is at
least the second of `now` plus 3600, and it is strictly after `now`. -/
theorem sample_forward {ε : Type} (tps : Int) (htps : 0 < tps)
    (integer : Int → Except ε Int) (hint : InclusiveBounds integer) (c h : Int)
    (fmt : DateFormat) (hc : 0 ≤ c) (hh : 1 ≤ h)
    (hfit : c + (h + 1) * 3600 * tps < 9223372036854775808) :
    ∃ x : Int,
      randomDateWithinRange tps integer (addTicks c (hours tps 1))
        (addTicks (addTicks c (hours tps 1)) (hours tps h)) = Except.ok x ∧
      betweenDate tps integer (addTicks c (hours tps 1))
        (addTicks (addTicks c (hours tps 1)) (hours tps h)) fmt
        = Except.ok (serializeTimePoint tps x fmt) ∧
      c + 3600 * tps ≤ x ∧ x + tps ≤ c + 3600 * tps + h * 3600 * tps ∧
      to_time_t tps c + 3600 ≤ to_time_t tps x ∧ c < to_time_t tps x * tps ∧
      to_time_t tps x * tps ≤ x := by
  obtain ⟨e1, e2, i1, i2, hX⟩ := forward_bounds tps c h htps hc (by omega) hfit
  rw [e2, e1]
  have hd : c + 3600 * tps + h * 3600 * tps - (c + 3600 * tps) = (h * 3600) * tps := by ring
  have hL : 1 ≤ durationCastSeconds tps
      (c + 3600 * tps + h * 3600 * tps - (c + 3600 * tps)) := by
    rw [hd, durationCastSeconds_mul tps htps]
    omega
  have hdd : c + 3600 * tps + h * 3600 * tps - (c + 3600 * tps) < 9223372036854775808 := by
    unfold InInt64 at i2
    omega
  obtain ⟨x, h1, h2, h3, h4, _, _⟩ := sample_window tps htps integer hint
    (c + 3600 * tps) (c + 3600 * tps + h * 3600 * tps) fmt i1 i2 hdd hL
  have hm := to_time_t_mono tps (c + 3600 * tps) x htps (by omega) h3
  rw [to_time_t_add tps c 3600 htps hc (by omega)] at hm
  obtain ⟨f1, f2⟩ := to_time_t_floor tps c htps hc
  obtain ⟨f3, _⟩ := to_time_t_floor tps x htps (by omega)
  have hmul : (to_time_t tps c + 3600) * tps ≤ to_time_t tps x * tps :=
    Int.mul_le_mul_of_nonneg_right hm (by omega)
  have hexp : (to_time_t tps c + 3600) * tps = to_time_t tps c * tps + 3600 * tps := by ring
  exact ⟨x, h1, h2, h3, h4, hm, by omega, f3⟩

/-- Supporting fact for C8: `futureDate` and `soonDate` read the clock once, so their result
only depends on the first reading. -/
theorem futureDate_soonDate_single_read {ε : Type} (tps : Int) (integer : Int → Except ε Int)
    (clock1 clock2 : Nat → Int) (n : Nat) (fmt : DateFormat) (h : clock1 0 = clock2 0) :
    futureDate tps integer clock1 n fmt = futureDate tps integer clock2 n fmt ∧
    soonDate tps integer clock1 n fmt = soonDate tps integer clock2 n fmt := by
  simp [futureDate, soonDate, futureDateBounds, soonDateBounds, h]

/-- C6 (as amended): for every `years >= 1` below the 32-bit wrap (8760 * years < 2^32),
every clock reading `now` at or after the epoch such that `now + 1h + years * 365d` fits the
64-bit tick count, and every random source that respects its bounds, `futureDate` returns
the serialization of an instant `x` with `now + 1h <= x < now + 1h + years * 365d`. The
instant is at or after `now + 1h` (equality when the draw is 0) and strictly after `now`.
The second that is printed is the whole second of `x`: it is at least the whole second of
`now` plus 3600 and strictly after `now`, and it can be below `now + 1h` by the sub-second
part of `now`. -/
theorem C6_futureDate_at_or_after_start {ε : Type} (tps : Int) (htps : 0 < tps)
    (integer : Int → Except ε Int) (hint : InclusiveBounds integer) (clock : Nat → Int)
    (years : Nat) (fmt : DateFormat) (hy : 1 ≤ years)
    (hw : 8760 * (years : Int) < 4294967296) (h0 : 0 ≤ clock 0)
    (hfit : clock 0 + (8760 * (years : Int) + 1) * 3600 * tps < 9223372036854775808) :
    ∃ x : Int,
      randomDateWithinRange tps integer (futureDateBounds tps clock years).1
        (futureDateBounds tps clock years).2 = Except.ok x ∧
      futureDate tps integer clock years fmt = Except.ok (serializeTimePoint tps x fmt) ∧
      clock 0 + 3600 * tps ≤ x ∧
      x < clock 0 + 3600 * tps + (years : Int) * (365 * 86400 * tps) ∧
      clock 0 < x ∧
      to_time_t tps (clock 0) + 3600 ≤ to_time_t tps x ∧
      clock 0 < to_time_t tps x * tps ∧ to_time_t tps x * tps ≤ x := by
  have hy2 : (1 : Int) ≤ (years : Int) := by exact_mod_cast hy
  have hb : futureDateBounds tps clock years
      = (addTicks (clock 0) (hours tps 1),
         addTicks (addTicks (clock 0) (hours tps 1)) (hours tps (8760 * (years : Int)))) := by
    simp only [futureDateBounds, yearHours_eq years hw]
  obtain ⟨x, h1, h2, h3, h4, h5, h6, h7⟩ := sample_forward tps htps integer hint (clock 0)
    (8760 * (years : Int)) fmt h0 (by omega) hfit
  have e : 8760 * (years : Int) * 3600 * tps = (years : Int) * (365 * 86400 * tps) := by ring
  rw [e] at h4
  refine ⟨x, ?_, ?_, h3, by omega, by omega, h5, h6, h7⟩
  · rw [hb]
    exact h1
  · unfold futureDate
    rw [hb]
    exact h2

/-- Witness of C6 (as amended): one year, nanosecond ticks, the clock at
1700000000.123456789 s, draw 0. The result is the second 1700003600. -/
theorem C6_futureDate_at_or_after_start_witness :
    (0 : Int) < nanoTicks ∧ InclusiveBounds (drawZero : Int → Except Unit Int) ∧ 1 ≤ 1 ∧
    8760 * ((1 : Nat) : Int) < 4294967296 ∧ 0 ≤ clockTwo 1700000000123456789 0 0 ∧
    clockTwo 1700000000123456789 0 0 + (8760 * ((1 : Nat) : Int) + 1) * 3600 * nanoTicks
      < 9223372036854775808 ∧
    (∃ x : Int,
      randomDateWithinRange nanoTicks (drawZero : Int → Except Unit Int)
        (futureDateBounds nanoTicks (clockTwo 1700000000123456789 0) 1).1
        (futureDateBounds nanoTicks (clockTwo 1700000000123456789 0) 1).2 = Except.ok x ∧
      futureDate nanoTicks (drawZero : Int → Except Unit Int) (clockTwo 1700000000123456789 0)
          1 DateFormat.Timestamp
        = Except.ok (serializeTimePoint nanoTicks x DateFormat.Timestamp) ∧
      clockTwo 1700000000123456789 0 0 + 3600 * nanoTicks ≤ x ∧
      x < clockTwo 1700000000123456789 0 0 + 3600 * nanoTicks
          + ((1 : Nat) : Int) * (365 * 86400 * nanoTicks) ∧
      clockTwo 1700000000123456789 0 0 < x ∧
      to_time_t nanoTicks (clockTwo 1700000000123456789 0 0) + 3600 ≤ to_time_t nanoTicks x ∧
      clockTwo 1700000000123456789 0 0 < to_time_t nanoTicks x * nanoTicks ∧
      to_time_t nanoTicks x * nanoTicks ≤ x) ∧
    futureDate nanoTicks (drawZero : Int → Except Unit Int) (clockTwo 1700000000123456789 0)
      1 DateFormat.Timestamp = Except.ok "1700003600" :=
  ⟨by decide, inclusiveBounds_drawZero, by decide, by decide, by decide, by decide,
    C6_futureDate_at_or_after_start nanoTicks (by decide) drawZero inclusiveBounds_drawZero
      (clockTwo 1700000000123456789 0) 1 DateFormat.Timestamp (by decide) (by decide)
      (by decide) (by decide), rfl⟩

/-- C6, counterexample to the claim as stated (strictly after `now + 1h`, for every
`years >= 1`). With one year, the clock at 0 and the draw 0, `futureDate` returns
`now + 1h` itself (3600). With `years = 2^29` the hour offset `8760 * years` wraps to 0
modulo 2^32, the interval is empty and a source that rejects the bound -1 makes the call
fail. With nanosecond ticks and the clock at 1700000000 s the draw 0 returns 1700003600,
which is `now + 1h`; with millisecond ticks and the clock at 0.5 s it prints the second
3600, which is before `now + 1h`; and with `years = 293` the offset does not fit the 64-bit
nanosecond count, the upper end wraps below the lower one and the random source is called
with the bound -9206696074. -/
theorem C6_counterexample :
    InclusiveBounds (drawZero : Int → Except Unit Int) ∧
    randomDateWithinRange 1 (drawZero : Int → Except Unit Int)
      (futureDateBounds 1 (clockTwo 0 0) 1).1 (futureDateBounds 1 (clockTwo 0 0) 1).2
      = Except.ok (0 + hours 1 1) ∧
    futureDate 1 (drawZero : Int → Except Unit Int) (clockTwo 0 0) 1 DateFormat.Timestamp
      = Except.ok "3600" ∧
    ¬ (∀ (integer : Int → Except Unit Int), InclusiveBounds integer →
        ∀ (now : Int) (years : Nat), 1 ≤ years →
          ∃ x : Int,
            randomDateWithinRange 1 integer (futureDateBounds 1 (clockTwo now now) years).1
              (futureDateBounds 1 (clockTwo now now) years).2 = Except.ok x ∧
            now + hours 1 1 < x) ∧
    InclusiveBounds drawGuarded ∧
    futureDateBounds 1 (clockTwo 0 0) 536870912 = (3600, 3600) ∧
    futureDate 1 drawGuarded (clockTwo 0 0) 536870912 DateFormat.Timestamp
      = Except.error () ∧
    futureDate nanoTicks (drawZero : Int → Except Unit Int) (clockTwo 1700000000000000000 0)
      1 DateFormat.Timestamp = Except.ok "1700003600" ∧
    futureDate 1000 (drawZero : Int → Except Unit Int) (clockTwo 500 0) 1
      DateFormat.Timestamp = Except.ok "3600" ∧
    futureDateBounds nanoTicks (clockTwo 0 0) 293
      = (3600000000000, -9206692473709551616) ∧
    (∀ integer : Int → Except Unit Int,
      futureDate nanoTicks integer (clockTwo 0 0) 293 DateFormat.Timestamp
        = (integer (-9206696074)).map
            (fun r => serializeTimePoint nanoTicks
              (addTicks 3600000000000 (seconds nanoTicks r)) DateFormat.Timestamp)) := by
  refine ⟨inclusiveBounds_drawZero, rfl, rfl, ?_, inclusiveBounds_drawGuarded, rfl, rfl, rfl,
    rfl, by decide, ?_⟩
  · intro h
    obtain ⟨x, hx, hlt⟩ := h drawZero inclusiveBounds_drawZero 0 1 (le_refl 1)
    have hx2 : randomDateWithinRange 1 (drawZero : Int → Except Unit Int)
        (futureDateBounds 1 (clockTwo 0 0) 1).1 (futureDateBounds 1 (clockTwo 0 0) 1).2
        = Except.ok (0 + hours 1 1) := rfl
    rw [hx2] at hx
    injection hx with hx
    rw [← hx] at hlt
    exact lt_irrefl _ hlt
  · intro integer
    have hb : futureDateBounds nanoTicks (clockTwo 0 0) 293
        = (3600000000000, -9206692473709551616) := by decide
    have hs : durationCastSeconds nanoTicks
        (subTicks (-9206692473709551616) 3600000000000) - 1 = -9206696074 := by decide
    unfold futureDate
    rw [hb, betweenDate_eq, hs]

/-- C8, evaluation at the failing input: `pastDate`, `recentDate` and `birthdateByAge` read
the clock a second time for the upper bound. Two runs with the same first reading (0), the
same arguments and the same random source (the one that draws its upper bound) return
different instants when the second readings differ (0 and 10 seconds): the intervals handed
to the sampler differ, and so do the results. -/
theorem C8_second_clock_read_changes_result :
    InclusiveBounds (drawMax : Int → Except Unit Int) ∧
    clockTwo 0 0 0 = clockTwo 0 10 0 ∧
    pastDateBounds 1 (clockTwo 0 0) 1 = (-31536000, -3600) ∧
    pastDateBounds 1 (clockTwo 0 10) 1 = (-31536000, -3590) ∧
    pastDate 1 (drawMax : Int → Except Unit Int) (clockTwo 0 0) 1 DateFormat.Timestamp
      = Except.ok "-3601" ∧
    pastDate 1 (drawMax : Int → Except Unit Int) (clockTwo 0 10) 1 DateFormat.Timestamp
      = Except.ok "-3591" ∧
    recentDate 1 (drawMax : Int → Except Unit Int) (clockTwo 0 0) 2 DateFormat.Timestamp
      = Except.ok "-3601" ∧
    recentDate 1 (drawMax : Int → Except Unit Int) (clockTwo 0 10) 2 DateFormat.Timestamp
      = Except.ok "-3591" ∧
    birthdateByAge 1 (drawMax : Int → Except Unit Int) (clockTwo 0 0) 1 2 DateFormat.Timestamp
      = Except.ok "-31536001" ∧
    birthdateByAge 1 (drawMax : Int → Except Unit Int) (clockTwo 0 10) 1 2 DateFormat.Timestamp
      = Except.ok "-31535991" :=
  ⟨inclusiveBounds_drawMax, rfl, rfl, rfl, rfl, rfl, rfl, rfl, rfl, rfl⟩

/-- A tick difference below one second has no whole second in it. -/
theorem durationCastSeconds_nonpos (tps d : Int) (htps : 0 < tps) (h : d < tps) :
    durationCastSeconds tps d ≤ 0 := by
  unfold durationCastSeconds
  rcases lt_or_le d 0 with hd | hd
  · have h1 : d = -(-d) := by omega
    rw [h1, Int.neg_tdiv]
    have h2 : 0 ≤ Int.tdiv (-d) tps := Int.tdiv_nonneg (by omega) (by omega)
    omega
  · rw [Int.tdiv_eq_ediv hd (by omega), Int.ediv_eq_zero_of_lt hd h]

/-- C3 (as amended): `birthdateByAge` makes no check of its interval. For every
`minAge >= maxAge` below the 32-bit wrap whose offset of `minAge * 365d` fits the 64-bit tick
count, and every pair of clock readings `t0 <= t1` at or after the epoch and less than a
second apart, it calls the random source with a negative bound, which is
`-(minAge - maxAge) * 31536000 - 1` when the two readings are equal; its outcome is the
outcome of that call: the error of the random source if the call fails, and otherwise the
serialization of `t0 - maxAge * 365d` plus the drawn number of seconds, in 64-bit ticks. -/
theorem C3_birthdateByAge_no_interval_check {ε : Type} (tps : Int) (htps : 0 < tps)
    (integer : Int → Except ε Int) (clock : Nat → Int) (minAge maxAge : Nat)
    (fmt : DateFormat) (hge : maxAge ≤ minAge) (hw : 8760 * (minAge : Int) < 4294967296)
    (h0 : 0 ≤ clock 0) (h01 : clock 0 ≤ clock 1) (hsec : clock 1 - clock 0 < tps)
    (h1 : clock 1 < 9223372036854775808)
    (hfit : 8760 * (minAge : Int) * 3600 * tps < 9223372036854775808) :
    durationCastSeconds tps
      (clock 1 - clock 0 - ((minAge : Int) - (maxAge : Int)) * 31536000 * tps) - 1 < 0 ∧
    (clock 1 = clock 0 →
      durationCastSeconds tps
        (clock 1 - clock 0 - ((minAge : Int) - (maxAge : Int)) * 31536000 * tps) - 1
        = -((minAge : Int) - (maxAge : Int)) * 31536000 - 1) ∧
    birthdateByAge tps integer clock minAge maxAge fmt
      = (integer (durationCastSeconds tps
          (clock 1 - clock 0 - ((minAge : Int) - (maxAge : Int)) * 31536000 * tps) - 1)).map
          (fun r => serializeTimePoint tps
            (addTicks (clock 0 - (maxAge : Int) * (365 * 86400 * tps)) (seconds tps r))
            fmt) := by
  have hge2 : (maxAge : Int) ≤ (minAge : Int) := by exact_mod_cast hge
  have hb : birthdateByAgeBounds tps clock minAge maxAge
      = (subTicks (clock 0) (hours tps (8760 * (maxAge : Int))),
         subTicks (clock 1) (hours tps (8760 * (minAge : Int)))) := by
    simp only [birthdateByAgeBounds, yearHours_eq maxAge (by omega), yearHours_eq minAge hw]
  have hmono : 8760 * (maxAge : Int) * 3600 * tps ≤ 8760 * (minAge : Int) * 3600 * tps :=
    Int.mul_le_mul_of_nonneg_right (by omega) (by omega)
  have hA : 0 ≤ 8760 * (maxAge : Int) * 3600 * tps := Int.mul_nonneg (by omega) (by omega)
  obtain ⟨e1, i1⟩ := backward_bound tps (clock 0) (8760 * (maxAge : Int)) htps h0 (by omega)
    (by omega) (by omega)
  obtain ⟨e2, i2⟩ := backward_bound tps (clock 1) (8760 * (minAge : Int)) htps (by omega) h1
    (by omega) hfit
  have ed : clock 1 - 8760 * (minAge : Int) * 3600 * tps
        - (clock 0 - 8760 * (maxAge : Int) * 3600 * tps)
      = clock 1 - clock 0 - ((minAge : Int) - (maxAge : Int)) * 31536000 * tps := by ring
  have em : 8760 * (maxAge : Int) * 3600 * tps = (maxAge : Int) * (365 * 86400 * tps) := by
    ring
  have hD : 0 ≤ ((minAge : Int) - (maxAge : Int)) * 31536000 * tps :=
    Int.mul_nonneg (by omega) (by omega)
  have hdd : InInt64 (clock 1 - 8760 * (minAge : Int) * 3600 * tps
      - (clock 0 - 8760 * (maxAge : Int) * 3600 * tps)) := by
    unfold InInt64
    omega
  refine ⟨?_, ?_, ?_⟩
  · have := durationCastSeconds_nonpos tps
      (clock 1 - clock 0 - ((minAge : Int) - (maxAge : Int)) * 31536000 * tps) htps (by omega)
    omega
  · intro heq
    have e3 : clock 1 - clock 0 - ((minAge : Int) - (maxAge : Int)) * 31536000 * tps
        = (-((minAge : Int) - (maxAge : Int)) * 31536000) * tps := by
      rw [heq]
      ring
    rw [e3, durationCastSeconds_mul tps htps]
  · unfold birthdateByAge
    rw [hb, e1, e2, betweenDate_eq_of_fit tps integer _ _ fmt hdd, ed, em]

/-- Witness of C3 (as amended): ages 2 and 1 swapped, nanosecond ticks, both reads of the
clock at 1700000000.123456789 s, the source that rejects a negative bound: the call fails
with the error of the source. -/
theorem C3_birthdateByAge_no_interval_check_witness :
    (0 : Int) < nanoTicks ∧ 1 ≤ 2 ∧ 8760 * ((2 : Nat) : Int) < 4294967296 ∧
    0 ≤ clockTwo 1700000000123456789 1700000000123456789 0 ∧
    clockTwo 1700000000123456789 1700000000123456789 0
      ≤ clockTwo 1700000000123456789 1700000000123456789 1 ∧
    clockTwo 1700000000123456789 1700000000123456789 1
      - clockTwo 1700000000123456789 1700000000123456789 0 < nanoTicks ∧
    clockTwo 1700000000123456789 1700000000123456789 1 < 9223372036854775808 ∧
    8760 * ((2 : Nat) : Int) * 3600 * nanoTicks < 9223372036854775808 ∧
    birthdateByAge nanoTicks drawGuarded (clockTwo 1700000000123456789 1700000000123456789)
        2 1 DateFormat.Timestamp
      = (drawGuarded (durationCastSeconds nanoTicks
          (clockTwo 1700000000123456789 1700000000123456789 1
            - clockTwo 1700000000123456789 1700000000123456789 0
            - (((2 : Nat) : Int) - ((1 : Nat) : Int)) * 31536000 * nanoTicks) - 1)).map
          (fun r => serializeTimePoint nanoTicks
            (addTicks (clockTwo 1700000000123456789 1700000000123456789 0
                - ((1 : Nat) : Int) * (365 * 86400 * nanoTicks)) (seconds nanoTicks r))
            DateFormat.Timestamp) ∧
    birthdateByAge nanoTicks drawGuarded (clockTwo 1700000000123456789 1700000000123456789)
      2 1 DateFormat.Timestamp = Except.error () :=
  ⟨by decide, by decide, by decide, by decide, by decide, by decide, by decide, by decide,
    (C3_birthdateByAge_no_interval_check nanoTicks (by decide) drawGuarded
      (clockTwo 1700000000123456789 1700000000123456789) 2 1 DateFormat.Timestamp
      (by decide) (by decide) (by decide) (by decide) (by decide) (by decide)
      (by decide)).2.2, rfl⟩

/-- C3, counterexample to the claim as stated: `birthdateByAge(293, 0)` with nanosecond
ticks and the clock at 1700000000.123456789 s. Here `minAge > maxAge`, and 293 is below the
32-bit wrap, but `293 * 365d` does not fit the 64-bit nanosecond count: the difference of
the two bounds wraps to a positive value and the random source is asked for a value of
`[0, 9206696072]`. No interval check exists, so even a source that fails with
`InvalidInterval` on a negative bound is content: the call returns a date, the second
1700000000 with the draw 0 and, the sum wrapping once more, the second -7540048001 with
the largest draw. -/
theorem C3_counterexample :
    InclusiveBounds drawStrict ∧
    InclusiveBounds (drawMax : Int → Except DateError Int) ∧
    (0 : Nat) < 293 ∧ 8760 * ((293 : Nat) : Int) < 4294967296 ∧
    birthdateByAgeBounds nanoTicks (clockTwo 1700000000123456789 1700000000123456789) 293 0
      = (1700000000123456789, -7540047999876543211) ∧
    durationCastSeconds nanoTicks
      (subTicks
        (birthdateByAgeBounds nanoTicks
          (clockTwo 1700000000123456789 1700000000123456789) 293 0).2
        (birthdateByAgeBounds nanoTicks
          (clockTwo 1700000000123456789 1700000000123456789) 293 0).1) - 1
      = 9206696072 ∧
    birthdateByAge nanoTicks drawStrict (clockTwo 1700000000123456789 1700000000123456789)
      293 0 DateFormat.Timestamp = Except.ok "1700000000" ∧
    birthdateByAge nanoTicks drawStrict (clockTwo 1700000000123456789 1700000000123456789)
      293 0 DateFormat.Timestamp ≠ Except.error DateError.InvalidInterval ∧
    birthdateByAge nanoTicks (drawMax : Int → Except DateError Int)
      (clockTwo 1700000000123456789 1700000000123456789) 293 0 DateFormat.Timestamp
      = Except.ok "-7540048001" := by
  refine ⟨inclusiveBounds_drawStrict, inclusiveBounds_drawMax, by decide, by decide,
    by decide, by decide, rfl, ?_, rfl⟩
  intro h
  have h2 : birthdateByAge nanoTicks drawStrict
      (clockTwo 1700000000123456789 1700000000123456789) 293 0 DateFormat.Timestamp
      = Except.ok "1700000000" := rfl
  rw [h2] at h
  cases h

/-! ### Decimal output -/

theorem digitChar_toNat (d : Nat) (h : d < 10) : (digitChar d).toNat = 48 + d := by
  interval_cases d <;> rfl

theorem natDigitsAux_eq (n : Nat) :
    ∀ (fuel : Nat) (acc : List Char), n < fuel → natDigitsAux fuel n acc = natDigits n ++ acc := by
  induction n using Nat.strong_induction_on with
  | _ n ih =>
    intro fuel acc hf
    cases fuel with
    | zero => omega
    | succ f =>
      by_cases h : n < 10
      · simp [natDigitsAux, natDigits, h]
      · have h1 : natDigitsAux (f + 1) n acc
            = natDigitsAux f (n / 10) (digitChar (n % 10) :: acc) := by
          simp [natDigitsAux, h]
        have h2 : natDigits n = natDigitsAux n (n / 10) [digitChar (n % 10)] := by
          simp [natDigits, natDigitsAux, h]
        rw [h1, h2, ih (n / 10) (by omega) f _ (by omega), ih (n / 10) (by omega) n _ (by omega)]
        simp

theorem natDigits_of_lt (n : Nat) (h : n < 10) : natDigits n = [digitChar n] := by
  simp [natDigits, natDigitsAux, h]

theorem natDigits_of_ge (n : Nat) (h : 10 ≤ n) :
    natDigits n = natDigits (n / 10) ++ [digitChar (n % 10)] := by
  have h1 : ¬ n < 10 := by omega
  have h2 : natDigits n = natDigitsAux n (n / 10) [digitChar (n % 10)] := by
    simp [natDigits, natDigitsAux, h1]
  rw [h2, natDigitsAux_eq (n / 10) n _ (by omega)]

theorem natDigits_isDigit (n : Nat) : ∀ c ∈ natDigits n, isDigit c = true := by
  induction n using Nat.strong_induction_on with
  | _ n ih =>
    intro c hc
    by_cases h : n < 10
    · rw [natDigits_of_lt n h] at hc
      simp only [List.mem_singleton] at hc
      subst hc
      simp [isDigit, digitChar_toNat n h]
      omega
    · rw [natDigits_of_ge n (by omega)] at hc
      rcases List.mem_append.mp hc with hc | hc
      · exact ih (n / 10) (by omega) c hc
      · simp only [List.mem_singleton] at hc
        subst hc
        have hm : n % 10 < 10 := Nat.mod_lt n (by omega)
        simp [isDigit, digitChar_toNat (n % 10) hm]
        omega

theorem natDigits_ne_nil (n : Nat) : natDigits n ≠ [] := by
  by_cases h : n < 10
  · rw [natDigits_of_lt n h]
    simp
  · rw [natDigits_of_ge n (by omega)]
    simp

theorem readNatAux_digit (d : Nat) (h : d < 10) (rest : List Char) (acc : Nat) :
    readNatAux (digitChar d :: rest) acc = readNatAux rest (acc * 10 + d) := by
  have h1 := digitChar_toNat d h
  have h2 : 48 ≤ (digitChar d).toNat ∧ (digitChar d).toNat ≤ 57 := by omega
  have h3 : readNatAux (digitChar d :: rest) acc
      = readNatAux rest (acc * 10 + ((digitChar d).toNat - 48)) := by
    simp only [readNatAux, h2, and_self, if_true]
  rw [h3, h1]
  simp

theorem readNatAux_natDigits (n : Nat) :
    ∀ (rest : List Char) (acc : Nat),
      readNatAux (natDigits n ++ rest) acc
        = readNatAux rest (acc * 10 ^ (natDigits n).length + n) := by
  induction n using Nat.strong_induction_on with
  | _ n ih =>
    intro rest acc
    by_cases h : n < 10
    · rw [natDigits_of_lt n h]
      simp [readNatAux_digit n h]
    · have hm : n % 10 < 10 := Nat.mod_lt n (by omega)
      rw [natDigits_of_ge n (by omega), List.append_assoc, ih (n / 10) (by omega)]
      simp only [List.singleton_append, List.length_append, List.length_singleton]
      rw [readNatAux_digit (n % 10) hm]
      congr 1
      have hdm := Nat.div_add_mod n 10
      rw [pow_succ]
      nlinarith [hdm]

theorem readNatAux_natDigits_zero (n : Nat) : readNatAux (natDigits n) 0 = some n := by
  have h := readNatAux_natDigits n [] 0
  simp only [List.append_nil, Nat.zero_mul, Nat.zero_add] at h
  rw [h]
  rfl

theorem readInt_natDigits (n : Nat) : readInt (natDigits n) = some (n : Int) := by
  have hne := natDigits_ne_nil n
  have hdig := natDigits_isDigit n
  have hread := readNatAux_natDigits_zero n
  cases hl : natDigits n with
  | nil => exact absurd hl hne
  | cons c cs =>
    rw [hl] at hdig hread
    have hc : isDigit c = true := hdig c (by simp)
    have hc2 : c ≠ '-' := by
      intro he
      subst he
      simp [isDigit] at hc
    simp [readInt, hc2, hread]

theorem readInt_decimal (z : Int) : readInt (decimal z) = some z := by
  cases z with
  | ofNat n => exact readInt_natDigits n
  | negSucc n =>
    have hne := natDigits_ne_nil (n + 1)
    have hread := readNatAux_natDigits_zero (n + 1)
    simp only [decimal]
    cases hl : natDigits (n + 1) with
    | nil => exact absurd hl hne
    | cons c cs =>
      rw [hl] at hread
      simp [readInt, hread]
      rw [Int.negSucc_eq]
      omega

/-- C10: for every instant `x`, `serializeTimePoint(x, Timestamp)` is the decimal string of
the number of whole seconds since the epoch of `x` (the tick count cast to seconds): reading
the string back as an integer gives that number, and for an instant at or after the epoch
the string consists of decimal digits only, with no sign. For a whole-second instant built
from `s` seconds the number read back is `s`. -/
theorem C10_timestamp_is_decimal_seconds (tps x : Int) :
    serializeTimePoint tps x DateFormat.Timestamp
      = String.mk (decimal (durationCastSeconds tps x)) ∧
    readInt (serializeTimePoint tps x DateFormat.Timestamp).data
      = some (durationCastSeconds tps x) ∧
    (0 ≤ durationCastSeconds tps x →
      ∀ c ∈ (serializeTimePoint tps x DateFormat.Timestamp).data, isDigit c = true) ∧
    (0 < tps → ∀ s : Int,
      readInt (serializeTimePoint tps (s * tps) DateFormat.Timestamp).data
        = some s) := by
  have h1 : ∀ y : Int, serializeTimePoint tps y DateFormat.Timestamp
      = String.mk (decimal (durationCastSeconds tps y)) := by
    intro y
    simp [serializeTimePoint]
  refine ⟨h1 x, ?_, ?_, ?_⟩
  · rw [h1]
    exact readInt_decimal _
  · intro h0 c hc
    rw [h1] at hc
    obtain ⟨n, hn⟩ := Int.eq_ofNat_of_zero_le h0
    rw [hn] at hc
    exact natDigits_isDigit n c hc
  · intro htps s
    rw [h1]
    have h2 : durationCastSeconds tps (s * tps) = s :=
      durationCastSeconds_mul tps htps s
    rw [h2]
    exact readInt_decimal s

/-- Witness of C10: the instant 1700000000 seconds after the epoch, with millisecond
ticks. -/
theorem C10_timestamp_is_decimal_seconds_witness :
    serializeTimePoint 1000 1700000000123 DateFormat.Timestamp = "1700000000" ∧
    0 ≤ durationCastSeconds 1000 1700000000123 ∧ (0 : Int) < 1000 ∧
    (∀ c ∈ (serializeTimePoint 1000 1700000000123 DateFormat.Timestamp).data,
      isDigit c = true) ∧
    readInt (serializeTimePoint 1000 (-5 * 1000) DateFormat.Timestamp).data
      = some (-5) :=
  ⟨rfl, by decide, by decide,
    (C10_timestamp_is_decimal_seconds 1000 1700000000123).2.2.1 (by decide),
    (C10_timestamp_is_decimal_seconds 1000 1700000000123).2.2.2 (by decide) (-5)⟩

/-! ### String bounds and calendar years -/

/-- C2, evaluation at the failing input: the serializer writes UTC (`gmtime`) but the bounds
of `between` are read back as local time (`mktime`). In a process whose local zone is one
hour east of Greenwich, the epoch (instant 0) is written "1970-01-01T00:00:00Z", the string
is parsed without failure, and the instant read back is -3600, not 0. In a zone with offset
0 the same string reads back as 0. -/
theorem C2_roundtrip_shifted_by_local_zone :
    serializeTimePoint 1 0 DateFormat.Iso8601 = "1970-01-01T00:00:00Z" ∧
    (getTime isoLayout "1970-01-01T00:00:00Z".data).failbit = false ∧
    (getTime isoLayout "1970-01-01T00:00:00Z".data).tm = gmtime 0 ∧
    parseBound 1 3600 (serializeTimePoint 1 0 DateFormat.Iso8601) = -3600 ∧
    parseBound 1 3600 (serializeTimePoint 1 0 DateFormat.Iso8601) ≠ 0 ∧
    parseBound 1 0 (serializeTimePoint 1 0 DateFormat.Iso8601) = 0 := by
  refine ⟨rfl, rfl, rfl, rfl, ?_, rfl⟩
  decide

/-- C4 (as amended): `between(from, to, format)` never rejects a bound. The failure flag that
`get_time` raises is not consulted: whatever the two strings are, the bounds are the seconds
`mktime` computes from the fields stored before the extraction stopped. When the second
bound is after the first, both fit the 64-bit tick count together with their difference,
and the random source respects its bounds, a date of `[from, to)` is returned. For
"2024-13-01T00:00:00Z" the flag is raised at the month, only the year 2024 is stored, and
the bound is 2023-12-31T00:00:00 local time. -/
theorem C4_between_string_never_rejects {ε : Type} (tps : Int) (htps : 0 < tps) (tz : Int)
    (integer : Int → Except ε Int) (hint : InclusiveBounds integer) (frm til : String)
    (fmt : DateFormat) (hL : parseSeconds tz frm < parseSeconds tz til)
    (hf : InInt64 (parseSeconds tz frm * tps)) (ht : InInt64 (parseSeconds tz til * tps))
    (hd : (parseSeconds tz til - parseSeconds tz frm) * tps < 9223372036854775808) :
    (∃ s : Int, between_string tps tz integer frm til fmt
        = Except.ok (serializeTimePoint tps (s * tps) fmt) ∧
      to_time_t tps (s * tps) = s ∧
      parseSeconds tz frm ≤ s ∧ s < parseSeconds tz til) ∧
    parseBound tps tz frm = parseSeconds tz frm * tps ∧
    parseBound tps tz til = parseSeconds tz til * tps ∧
    (getTime isoLayout "2024-13-01T00:00:00Z".data).failbit = true ∧
    (getTime isoLayout "2024-13-01T00:00:00Z".data).tm
      = { tm_sec := 0, tm_min := 0, tm_hour := 0, tm_mday := 0, tm_mon := 0, tm_year := 124,
          tm_isdst := 0 } ∧
    parseSeconds tz "2024-13-01T00:00:00Z" = 1703980800 - tz := by
  obtain ⟨e1, e2, r, hr0, hr1, _, _, h2, h3⟩ := sample_seconds tps htps integer hint
    (parseSeconds tz frm) (parseSeconds tz til) fmt hL hf ht hd
  exact ⟨⟨parseSeconds tz frm + r, h2, h3, by omega, by omega⟩, e1, e2, rfl, rfl, rfl⟩

/-- Witness of C4 (as amended): the month-13 bound of the specification as lower bound, in a
UTC process with nanosecond ticks. -/
theorem C4_between_string_never_rejects_witness :
    (0 : Int) < nanoTicks ∧ InclusiveBounds (drawZero : Int → Except DateError Int) ∧
    parseSeconds 0 "2024-13-01T00:00:00Z" < parseSeconds 0 "2024-12-31T00:00:00Z" ∧
    InInt64 (parseSeconds 0 "2024-13-01T00:00:00Z" * nanoTicks) ∧
    InInt64 (parseSeconds 0 "2024-12-31T00:00:00Z" * nanoTicks) ∧
    (parseSeconds 0 "2024-12-31T00:00:00Z" - parseSeconds 0 "2024-13-01T00:00:00Z")
      * nanoTicks < 9223372036854775808 ∧
    (∃ s : Int, between_string nanoTicks 0 (drawZero : Int → Except DateError Int)
        "2024-13-01T00:00:00Z" "2024-12-31T00:00:00Z" DateFormat.Iso8601
        = Except.ok (serializeTimePoint nanoTicks (s * nanoTicks) DateFormat.Iso8601) ∧
      to_time_t nanoTicks (s * nanoTicks) = s ∧
      parseSeconds 0 "2024-13-01T00:00:00Z" ≤ s ∧ s < parseSeconds 0 "2024-12-31T00:00:00Z") :=
  ⟨by decide, inclusiveBounds_drawZero, by decide, by decide, by decide, by decide,
    (C4_between_string_never_rejects nanoTicks (by decide) 0 drawZero inclusiveBounds_drawZero
      "2024-13-01T00:00:00Z" "2024-12-31T00:00:00Z" DateFormat.Iso8601 (by decide)
      (by decide) (by decide) (by decide)).1⟩

/-- C4, counterexample to the claim as stated: for the bound "2024-13-01T00:00:00Z" (month
13) `get_time` raises the failure flag, yet `between` does not fail with `MalformedDate`: it
returns a date computed from that bound, 2023-12-31T00:00:00Z in a UTC process with the
draw 0. A bound that is no date at all ("yesterday") gives 1899-12-31T00:00:00Z. The
same date is returned with nanosecond ticks. -/
theorem C4_counterexample :
    (getTime isoLayout "2024-13-01T00:00:00Z".data).failbit = true ∧
    InclusiveBounds (drawZero : Int → Except DateError Int) ∧
    between_string 1 0 (drawZero : Int → Except DateError Int)
      "2024-13-01T00:00:00Z" "2024-12-31T00:00:00Z" DateFormat.Iso8601
      = Except.ok "2023-12-31T00:00:00Z" ∧
    between_string 1 0 (drawZero : Int → Except DateError Int)
      "2024-13-01T00:00:00Z" "2024-12-31T00:00:00Z" DateFormat.Iso8601
      ≠ Except.error DateError.MalformedDate ∧
    (getTime isoLayout "yesterday".data).failbit = true ∧
    between_string 1 0 (drawZero : Int → Except DateError Int)
      "yesterday" "2024-12-31T00:00:00Z" DateFormat.Iso8601
      = Except.ok "1899-12-31T00:00:00Z" ∧
    between_string nanoTicks 0 (drawZero : Int → Except DateError Int)
      "2024-13-01T00:00:00Z" "2024-12-31T00:00:00Z" DateFormat.Iso8601
      = Except.ok "2023-12-31T00:00:00Z" := by
  refine ⟨rfl, inclusiveBounds_drawZero, rfl, ?_, rfl, rfl, rfl⟩
  intro h
  have h2 : between_string 1 0 (drawZero : Int → Except DateError Int)
      "2024-13-01T00:00:00Z" "2024-12-31T00:00:00Z" DateFormat.Iso8601
      = Except.ok "2023-12-31T00:00:00Z" := rfl
  rw [h2] at h
  cases h

/-- C5, evaluation at the failing input: the bounds of `birthdateByYear` are computed with
`mktime`, in local time, while the result is written in UTC. In a process whose local zone
is one hour east of Greenwich, `birthdateByYear(2000, 2000)` with the draw 0 returns
1999-12-31T23:00:00Z, whose UTC year is 1999; in a zone five hours west, with the largest
draw, it returns 2001-01-01T04:59:58Z, whose UTC year is 2001. -/
theorem C5_birthdateByYear_year_outside_range :
    InclusiveBounds (drawZero : Int → Except Unit Int) ∧
    InclusiveBounds (drawMax : Int → Except Unit Int) ∧
    birthdateByYearBounds 1 3600 2000 2000 = (946684800 - 3600, 978307199 - 3600) ∧
    birthdateByYear 1 3600 (drawZero : Int → Except Unit Int) 2000 2000 DateFormat.Iso8601
      = Except.ok "1999-12-31T23:00:00Z" ∧
    (gmtime (946684800 - 3600)).tm_year + 1900 = 1999 ∧
    birthdateByYear 1 (-18000) (drawMax : Int → Except Unit Int) 2000 2000 DateFormat.Iso8601
      = Except.ok "2001-01-01T04:59:58Z" ∧
    birthdateByYear 1 0 (drawZero : Int → Except Unit Int) 2000 2000 DateFormat.Iso8601
      = Except.ok "2000-01-01T00:00:00Z" :=
  ⟨inclusiveBounds_drawZero, inclusiveBounds_drawMax, rfl, rfl, rfl, rfl, rfl⟩

/-! ### The calendar -/

/-- Day-of-era arithmetic of `civilFromDays`: the year of the era computed from the day of
the era leaves a day of the year between 0 and 365. -/
theorem civil_doy_range (doe yoe : Int) (h0 : 0 ≤ doe) (h1 : doe ≤ 146096)
    (hy : yoe = (doe - doe / 1460 + doe / 36524 - doe / 146096) / 365) :
    0 ≤ doe - (365 * yoe + yoe / 4 - yoe / 100) ∧
    doe - (365 * yoe + yoe / 4 - yoe / 100) ≤ 365 := by
  rcases eq_or_lt_of_le h1 with he | hlt
  · subst he
    have hy2 : yoe = 399 := by
      rw [hy]
      decide
    subst hy2
    decide
  · have hd : doe / 36524 = 0 ∨ doe / 36524 = 1 ∨ doe / 36524 = 2 ∨ doe / 36524 = 3 := by
      omega
    rcases hd with hd | hd | hd | hd
    all_goals
      have hc : doe / 1460 = 25 * (doe / 36524) + (doe % 36524) / 1461
          ∨ doe / 1460 = 25 * (doe / 36524) + (doe % 36524) / 1461 + 1 := by
        omega
      rcases hc with hc | hc
      all_goals
        have hj : yoe = 100 * (doe / 36524) + 4 * ((doe % 36524) / 1461)
            ∨ yoe = 100 * (doe / 36524) + 4 * ((doe % 36524) / 1461) + 1
            ∨ yoe = 100 * (doe / 36524) + 4 * ((doe % 36524) / 1461) + 2
            ∨ yoe = 100 * (doe / 36524) + 4 * ((doe % 36524) / 1461) + 3 := by
          omega
        rcases hj with hj | hj | hj | hj <;> omega

/-- The day number of a date given by its era, year of the era (0..399), shifted month
`mp` (0..11, March is 0) and day: what `daysFromCivil` computes for the corresponding civil
year and month. -/
theorem daysFromCivil_of_parts (era yoe mp d : Int) (hy0 : 0 ≤ yoe) (hy1 : yoe ≤ 399)
    (hm0 : 0 ≤ mp) (hm1 : mp ≤ 11) :
    daysFromCivil
        (if (if mp < 10 then mp + 3 else mp - 9) ≤ 2 then yoe + era * 400 + 1
          else yoe + era * 400)
        (if mp < 10 then mp + 3 else mp - 9) d
      = era * 146097 + (yoe * 365 + yoe / 4 - yoe / 100 + ((153 * mp + 2) / 5 + d - 1))
          - 719468 := by
  have he : (yoe + era * 400) / 400 = era := by omega
  by_cases h : mp < 10
  · have h2 : ¬ (mp + 3 ≤ 2) := by omega
    have h3 : 2 < mp + 3 := by omega
    have h4 : mp + 3 - 3 = mp := by omega
    simp only [daysFromCivil, h, if_true, h2, if_false, h3, he, h4]
    have h5 : yoe + era * 400 - era * 400 = yoe := by omega
    rw [h5]
  · have h2 : mp - 9 ≤ 2 := by omega
    have h3 : ¬ (2 < mp - 9) := by omega
    have h4 : mp - 9 + 9 = mp := by omega
    have h6 : yoe + era * 400 + 1 - 1 = yoe + era * 400 := by omega
    simp only [daysFromCivil, h, if_false, h2, if_true, h3, h4, h6, he]
    have h5 : yoe + era * 400 - era * 400 = yoe := by omega
    rw [h5]

/-- The date computed by `civilFromDays` has a month in 1..12 and a day in 1..31, and
`daysFromCivil` maps it back to the day number. -/
theorem civilFromDays_spec (z : Int) :
    1 ≤ (civilFromDays z).2.1 ∧ (civilFromDays z).2.1 ≤ 12 ∧
    1 ≤ (civilFromDays z).2.2 ∧ (civilFromDays z).2.2 ≤ 31 ∧
    daysFromCivil (civilFromDays z).1 (civilFromDays z).2.1 (civilFromDays z).2.2 = z := by
  have hdoe0 : 0 ≤ z + 719468 - (z + 719468) / 146097 * 146097 := by omega
  have hdoe1 : z + 719468 - (z + 719468) / 146097 * 146097 ≤ 146096 := by omega
  have hz : z = (z + 719468) / 146097 * 146097
      + (z + 719468 - (z + 719468) / 146097 * 146097) - 719468 := by omega
  generalize hera : (z + 719468) / 146097 = era at hdoe0 hdoe1 hz
  generalize hdoe : z + 719468 - era * 146097 = doe at hdoe0 hdoe1 hz
  have hyoe : 0 ≤ (doe - doe / 1460 + doe / 36524 - doe / 146096) / 365 ∧
      (doe - doe / 1460 + doe / 36524 - doe / 146096) / 365 ≤ 399 := by omega
  have hdoy := civil_doy_range doe _ hdoe0 hdoe1 rfl
  generalize hyoe2 : (doe - doe / 1460 + doe / 36524 - doe / 146096) / 365 = yoe at hyoe hdoy
  have hdoe3 : doe = yoe * 365 + yoe / 4 - yoe / 100
      + (doe - (365 * yoe + yoe / 4 - yoe / 100)) := by omega
  generalize hdoy2 : doe - (365 * yoe + yoe / 4 - yoe / 100) = doy at hdoy hdoe3
  have hmp0 : 0 ≤ (5 * doy + 2) / 153 := by omega
  have hmp1 : (5 * doy + 2) / 153 ≤ 11 := by omega
  have hd0 : 1 ≤ doy - (153 * ((5 * doy + 2) / 153) + 2) / 5 + 1 := by omega
  have hd1 : doy - (153 * ((5 * doy + 2) / 153) + 2) / 5 + 1 ≤ 31 := by omega
  simp only [civilFromDays, hera, hdoe, hyoe2, hdoy2]
  generalize hmp : (5 * doy + 2) / 153 = mp at hmp0 hmp1 hd0 hd1
  refine ⟨?_, ?_, hd0, hd1, ?_⟩
  · split_ifs <;> omega
  · split_ifs <;> omega
  · rw [daysFromCivil_of_parts era yoe mp _ hyoe.1 hyoe.2 hmp0 hmp1]
    omega

/-- The fields of the broken-down time computed by `gmtime` are in their calendar ranges. -/
theorem gmtime_ranges (t : Int) :
    0 ≤ (gmtime t).tm_sec ∧ (gmtime t).tm_sec ≤ 59 ∧
    0 ≤ (gmtime t).tm_min ∧ (gmtime t).tm_min ≤ 59 ∧
    0 ≤ (gmtime t).tm_hour ∧ (gmtime t).tm_hour ≤ 23 ∧
    1 ≤ (gmtime t).tm_mday ∧ (gmtime t).tm_mday ≤ 31 ∧
    0 ≤ (gmtime t).tm_mon ∧ (gmtime t).tm_mon ≤ 11 ∧
    (gmtime t).tm_isdst = 0 := by
  obtain ⟨hm0, hm1, hd0, hd1, _⟩ := civilFromDays_spec (t / 86400)
  simp only [gmtime]
  refine ⟨by omega, by omega, by omega, by omega, by omega, by omega, hd0, hd1, by omega,
    by omega, trivial⟩

/-- The conversion `daysFromCivil` is linear in the day of the month. -/
theorem daysFromCivil_day (y m d : Int) :
    daysFromCivil y m 1 + (d - 1) = daysFromCivil y m d := by
  simp only [daysFromCivil]
  omega

/-- Reading the UTC broken-down time of `t` back as UTC gives `t`. -/
theorem timegm_gmtime (t : Int) : timegm (gmtime t) = t := by
  obtain ⟨hm0, hm1, _, _, hrt⟩ := civilFromDays_spec (t / 86400)
  have h1 : ((civilFromDays (t / 86400)).2.1 - 1) / 12 = 0 := by omega
  have h2 : ((civilFromDays (t / 86400)).2.1 - 1) % 12 + 1 = (civilFromDays (t / 86400)).2.1 := by
    omega
  have h3 : (civilFromDays (t / 86400)).1 - 1900 + 1900 + 0 = (civilFromDays (t / 86400)).1 := by
    omega
  simp only [timegm, gmtime, h1, h2, h3, daysFromCivil_day, hrt]
  omega

/-- The call `mktime` on the UTC broken-down time of `t`: `t` shifted by the zone offset. -/
theorem mktime_gmtime (tz t : Int) : mktime tz (gmtime t) = t - tz := by
  simp only [mktime, timegm_gmtime]

/-! ### Formatting and parsing of the layout -/

theorem isDigit_digitChar (k : Nat) (h : k < 10) : isDigit (digitChar k) = true := by
  simp [isDigit, digitChar_toNat k h]
  omega

theorem isSpace_digitChar (k : Nat) (h : k < 10) : isSpace (digitChar k) = false := by
  simp [isSpace, digitChar_toNat k h]
  omega

theorem extractNumLoop_digit (max : Int) (len k : Nat) (hk : k < 10) (s : List Char) (i : Nat)
    (v : Int) (hv : v * 10 + (k : Int) ≤ max) :
    extractNumLoop max (len + 1) (digitChar k :: s) i v
      = extractNumLoop max len s (i + 1) (v * 10 + (k : Int)) := by
  have h1 : ((digitChar k).toNat : Int) - 48 = (k : Int) := by
    rw [digitChar_toNat k hk]
    push_cast
    omega
  have h2 : ¬ (max < v * 10 + (k : Int)) := by omega
  simp only [extractNumLoop, isDigit_digitChar k hk, if_true, h1, h2, if_false]

theorem extractNumLoop_stop (max : Int) (len : Nat) (c : Char) (hc : isDigit c = false)
    (s : List Char) (i : Nat) (v : Int) :
    extractNumLoop max (len + 1) (c :: s) i v = (c :: s, i, v) := by
  simp [extractNumLoop, hc]

theorem fmtNumber_two (n : Nat) (h : n < 100) :
    fmtNumber 2 (n : Int) = [digitChar (n / 10), digitChar (n % 10)] := by
  have hneg : ¬ ((n : Int) < 0) := by omega
  by_cases h10 : n < 10
  · have e1 : n / 10 = 0 := by omega
    have e2 : n % 10 = n := by omega
    simp [fmtNumber, natDigits_of_lt n h10, e1, e2]
    rfl
  · have e1 : n / 10 < 10 := by omega
    simp [fmtNumber, natDigits_of_ge n (by omega), natDigits_of_lt (n / 10) e1]

theorem fmtNumber_one (n : Nat) : fmtNumber 1 (n : Int) = natDigits n := by
  have hneg : ¬ ((n : Int) < 0) := by omega
  have hlen : 1 - (natDigits n).length = 0 := by
    have := natDigits_ne_nil n
    cases hl : natDigits n with
    | nil => exact absurd hl this
    | cons c cs => simp
  simp [fmtNumber, hlen]

theorem extractNum_two (min max : Int) (n : Nat) (h : n < 100) (hmin : min ≤ (n : Int))
    (hmax : (n : Int) ≤ max) (rest : List Char) :
    extractNum min max 2 (fmtNumber 2 (n : Int) ++ rest) = (rest, some (n : Int)) := by
  have h1 : n / 10 < 10 := by omega
  have h2 : n % 10 < 10 := Nat.mod_lt n (by omega)
  have hv1 : (0 : Int) * 10 + ((n / 10 : Nat) : Int) ≤ max := by omega
  have hv2 : ((0 : Int) * 10 + ((n / 10 : Nat) : Int)) * 10 + ((n % 10 : Nat) : Int) ≤ max := by
    omega
  have hval : ((0 : Int) * 10 + ((n / 10 : Nat) : Int)) * 10 + ((n % 10 : Nat) : Int)
      = (n : Int) := by omega
  rw [fmtNumber_two n h]
  simp only [extractNum, List.cons_append, List.nil_append]
  rw [extractNumLoop_digit max 1 (n / 10) h1 _ 0 0 hv1,
    extractNumLoop_digit max 0 (n % 10) h2 _ (0 + 1) _ hv2, hval]
  simp [extractNumLoop, hmin, hmax]

theorem natDigits_cases (n : Nat) (h : n ≤ 9999) :
    natDigits n = [digitChar n] ∧ n < 10 ∨
    natDigits n = [digitChar (n / 10), digitChar (n % 10)] ∧ 10 ≤ n ∧ n < 100 ∨
    natDigits n = [digitChar (n / 100), digitChar (n / 10 % 10), digitChar (n % 10)]
      ∧ 100 ≤ n ∧ n < 1000 ∨
    natDigits n = [digitChar (n / 1000), digitChar (n / 100 % 10), digitChar (n / 10 % 10),
      digitChar (n % 10)] ∧ 1000 ≤ n := by
  by_cases h1 : n < 10
  · exact Or.inl ⟨natDigits_of_lt n h1, h1⟩
  · by_cases h2 : n < 100
    · refine Or.inr (Or.inl ⟨?_, by omega, h2⟩)
      rw [natDigits_of_ge n (by omega), natDigits_of_lt (n / 10) (by omega)]
      rfl
    · by_cases h3 : n < 1000
      · refine Or.inr (Or.inr (Or.inl ⟨?_, by omega, h3⟩))
        have e : n / 10 / 10 = n / 100 := by omega
        rw [natDigits_of_ge n (by omega), natDigits_of_ge (n / 10) (by omega),
          natDigits_of_lt (n / 10 / 10) (by omega), e]
        rfl
      · refine Or.inr (Or.inr (Or.inr ⟨?_, by omega⟩))
        have e1 : n / 10 / 10 = n / 100 := by omega
        have e2 : n / 100 / 10 = n / 1000 := by omega
        rw [natDigits_of_ge n (by omega), natDigits_of_ge (n / 10) (by omega), e1,
          natDigits_of_ge (n / 100) (by omega), e2, natDigits_of_lt (n / 1000) (by omega)]
        rfl

theorem extractNum_year (n : Nat) (h : n ≤ 9999) (c : Char) (hc : isDigit c = false)
    (rest : List Char) :
    extractNum 0 9999 4 (fmtNumber 1 (n : Int) ++ c :: rest) = (c :: rest, some (n : Int)) := by
  rw [fmtNumber_one]
  rcases natDigits_cases n h with ⟨e, h1⟩ | ⟨e, h1, h2⟩ | ⟨e, h1, h2⟩ | ⟨e, h1⟩
  · rw [e]
    simp only [extractNum, List.cons_append, List.nil_append]
    rw [extractNumLoop_digit 9999 3 n h1 _ 0 0 (by omega), extractNumLoop_stop 9999 2 c hc]
    have hn : (0 : Int) ≤ (n : Int) := by omega
    have hn2 : (n : Int) ≤ 9999 := by omega
    simp [hn, hn2]
  · rw [e]
    simp only [extractNum, List.cons_append, List.nil_append]
    rw [extractNumLoop_digit 9999 3 (n / 10) (by omega) _ 0 0 (by omega),
      extractNumLoop_digit 9999 2 (n % 10) (by omega) _ _ _ (by omega),
      extractNumLoop_stop 9999 1 c hc]
    have hval : ((0 : Int) * 10 + ((n / 10 : Nat) : Int)) * 10 + ((n % 10 : Nat) : Int)
        = (n : Int) := by omega
    have hn : (0 : Int) ≤ (n : Int) := by omega
    have hn2 : (n : Int) ≤ 9999 := by omega
    simp only [hval]
    simp [hn, hn2]
  · rw [e]
    simp only [extractNum, List.cons_append, List.nil_append]
    rw [extractNumLoop_digit 9999 3 (n / 100) (by omega) _ 0 0 (by omega),
      extractNumLoop_digit 9999 2 (n / 10 % 10) (by omega) _ _ _ (by omega),
      extractNumLoop_digit 9999 1 (n % 10) (by omega) _ _ _ (by omega),
      extractNumLoop_stop 9999 0 c hc]
    have hval : (((0 : Int) * 10 + ((n / 100 : Nat) : Int)) * 10 + ((n / 10 % 10 : Nat) : Int))
        * 10 + ((n % 10 : Nat) : Int) = (n : Int) := by omega
    have hn : (0 : Int) ≤ (n : Int) := by omega
    have hn2 : (n : Int) ≤ 9999 := by omega
    simp only [hval]
    simp [hn, hn2]
  · rw [e]
    simp only [extractNum, List.cons_append, List.nil_append]
    rw [extractNumLoop_digit 9999 3 (n / 1000) (by omega) _ 0 0 (by omega),
      extractNumLoop_digit 9999 2 (n / 100 % 10) (by omega) _ _ _ (by omega),
      extractNumLoop_digit 9999 1 (n / 10 % 10) (by omega) _ _ _ (by omega),
      extractNumLoop_digit 9999 0 (n % 10) (by omega) _ _ _ (by omega)]
    have hval : ((((0 : Int) * 10 + ((n / 1000 : Nat) : Int)) * 10
        + ((n / 100 % 10 : Nat) : Int)) * 10 + ((n / 10 % 10 : Nat) : Int)) * 10
        + ((n % 10 : Nat) : Int) = (n : Int) := by omega
    have hn : (0 : Int) ≤ (n : Int) := by omega
    have hn2 : (n : Int) ≤ 9999 := by omega
    simp only [hval]
    simp [extractNumLoop, hn, hn2]

theorem putTime_isoLayout (tm : Tm) :
    putTime tm isoLayout
      = fmtNumber 1 (tm.tm_year + 1900) ++ '-' :: (fmtNumber 2 (tm.tm_mon + 1) ++ '-' ::
          (fmtNumber 2 tm.tm_mday ++ 'T' :: (fmtNumber 2 tm.tm_hour ++ ':' ::
            (fmtNumber 2 tm.tm_min ++ ':' :: (fmtNumber 2 tm.tm_sec ++ ['Z']))))) := rfl

theorem getTimeLoop_year (f : List Char) (n : Nat) (h : n ≤ 9999) (c : Char)
    (hc : isDigit c = false) (rest : List Char) (tm : Tm) :
    getTimeLoop ('%' :: 'Y' :: f) (fmtNumber 1 (n : Int) ++ c :: rest) tm
      = getTimeLoop f (c :: rest) { tm with tm_year := (n : Int) - 1900 } := by
  have hx := extractNum_year n h c hc rest
  cases hs : fmtNumber 1 (n : Int) ++ c :: rest with
  | nil => simp at hs
  | cons a l =>
    rw [hs] at hx
    simp [getTimeLoop, getField, hx]

theorem fmtNumber_two_append_ne_nil (n : Nat) (h : n < 100) (rest : List Char) :
    ∃ l, fmtNumber 2 (n : Int) ++ rest = digitChar (n / 10) :: l := by
  rw [fmtNumber_two n h]
  exact ⟨digitChar (n % 10) :: rest, rfl⟩

theorem getTimeLoop_mon (f : List Char) (n : Nat) (h1 : 1 ≤ n) (h2 : n ≤ 12) (c : Char)
    (rest : List Char) (tm : Tm) :
    getTimeLoop ('%' :: 'm' :: f) (fmtNumber 2 (n : Int) ++ c :: rest) tm
      = getTimeLoop f (c :: rest) { tm with tm_mon := (n : Int) - 1 } := by
  have hx := extractNum_two 1 12 n (by omega) (by omega) (by omega) (c :: rest)
  obtain ⟨l, hl⟩ := fmtNumber_two_append_ne_nil n (by omega) (c :: rest)
  rw [hl] at hx ⊢
  simp [getTimeLoop, getField, hx]

theorem getTimeLoop_mday (f : List Char) (n : Nat) (h1 : 1 ≤ n) (h2 : n ≤ 31) (c : Char)
    (rest : List Char) (tm : Tm) :
    getTimeLoop ('%' :: 'd' :: f) (fmtNumber 2 (n : Int) ++ c :: rest) tm
      = getTimeLoop f (c :: rest) { tm with tm_mday := (n : Int) } := by
  have hx := extractNum_two 1 31 n (by omega) (by omega) (by omega) (c :: rest)
  obtain ⟨l, hl⟩ := fmtNumber_two_append_ne_nil n (by omega) (c :: rest)
  rw [hl] at hx ⊢
  simp [getTimeLoop, getField, hx, isSpace_digitChar (n / 10) (by omega)]

theorem getTimeLoop_hour (f : List Char) (n : Nat) (h2 : n ≤ 23) (c : Char)
    (rest : List Char) (tm : Tm) :
    getTimeLoop ('%' :: 'H' :: f) (fmtNumber 2 (n : Int) ++ c :: rest) tm
      = getTimeLoop f (c :: rest) { tm with tm_hour := (n : Int) } := by
  have hx := extractNum_two 0 23 n (by omega) (by omega) (by omega) (c :: rest)
  obtain ⟨l, hl⟩ := fmtNumber_two_append_ne_nil n (by omega) (c :: rest)
  rw [hl] at hx ⊢
  simp [getTimeLoop, getField, hx]

theorem getTimeLoop_min (f : List Char) (n : Nat) (h2 : n ≤ 59) (c : Char)
    (rest : List Char) (tm : Tm) :
    getTimeLoop ('%' :: 'M' :: f) (fmtNumber 2 (n : Int) ++ c :: rest) tm
      = getTimeLoop f (c :: rest) { tm with tm_min := (n : Int) } := by
  have hx := extractNum_two 0 59 n (by omega) (by omega) (by omega) (c :: rest)
  obtain ⟨l, hl⟩ := fmtNumber_two_append_ne_nil n (by omega) (c :: rest)
  rw [hl] at hx ⊢
  simp [getTimeLoop, getField, hx]

theorem getTimeLoop_sec (f : List Char) (n : Nat) (h2 : n ≤ 60) (c : Char)
    (rest : List Char) (tm : Tm) :
    getTimeLoop ('%' :: 'S' :: f) (fmtNumber 2 (n : Int) ++ c :: rest) tm
      = getTimeLoop f (c :: rest) { tm with tm_sec := (n : Int) } := by
  have hx := extractNum_two 0 60 n (by omega) (by omega) (by omega) (c :: rest)
  obtain ⟨l, hl⟩ := fmtNumber_two_append_ne_nil n (by omega) (c :: rest)
  rw [hl] at hx ⊢
  simp [getTimeLoop, getField, hx]

theorem getTime_of_nonspace (fmt : List Char) (c : Char) (l : List Char)
    (hc : isSpace c = false) :
    getTime fmt (c :: l) = getTimeLoop fmt (c :: l) Tm.zero := by
  simp [getTime, List.dropWhile, hc]

/-- Parsing what `put_time` wrote: for a broken-down time whose fields are in their calendar
ranges and whose year is in 0..9999, `get_time` over the layout recovers every field and
raises no failure flag. -/
theorem getTime_putTime (tm : Tm) (hy0 : 0 ≤ tm.tm_year + 1900) (hy1 : tm.tm_year + 1900 ≤ 9999)
    (hmo0 : 0 ≤ tm.tm_mon) (hmo1 : tm.tm_mon ≤ 11) (hd0 : 1 ≤ tm.tm_mday)
    (hd1 : tm.tm_mday ≤ 31) (hh0 : 0 ≤ tm.tm_hour) (hh1 : tm.tm_hour ≤ 23)
    (hmi0 : 0 ≤ tm.tm_min) (hmi1 : tm.tm_min ≤ 59) (hs0 : 0 ≤ tm.tm_sec) (hs1 : tm.tm_sec ≤ 59)
    (hdst : tm.tm_isdst = 0) :
    getTime isoLayout (putTime tm isoLayout) = { tm := tm, failbit := false } := by
  obtain ⟨yr, hyr⟩ := Int.eq_ofNat_of_zero_le hy0
  obtain ⟨mo, hmo⟩ := Int.eq_ofNat_of_zero_le (show 0 ≤ tm.tm_mon + 1 by omega)
  obtain ⟨dd, hdd⟩ := Int.eq_ofNat_of_zero_le (show 0 ≤ tm.tm_mday by omega)
  obtain ⟨hh, hhh⟩ := Int.eq_ofNat_of_zero_le hh0
  obtain ⟨mi, hmi⟩ := Int.eq_ofNat_of_zero_le hmi0
  obtain ⟨ss, hss⟩ := Int.eq_ofNat_of_zero_le hs0
  rw [putTime_isoLayout, hyr, hmo, hdd, hhh, hmi, hss]
  have hfirst : ∃ c l, isSpace c = false ∧
      fmtNumber 1 (yr : Int) ++ '-' :: (fmtNumber 2 (mo : Int) ++ '-' ::
          (fmtNumber 2 (dd : Int) ++ 'T' :: (fmtNumber 2 (hh : Int) ++ ':' ::
            (fmtNumber 2 (mi : Int) ++ ':' :: (fmtNumber 2 (ss : Int) ++ ['Z'])))))
        = c :: l := by
    rw [fmtNumber_one]
    have hne := natDigits_ne_nil yr
    have hdig := natDigits_isDigit yr
    cases hl : natDigits yr with
    | nil => exact absurd hl hne
    | cons c cs =>
      refine ⟨c, _, ?_, rfl⟩
      have hc : isDigit c = true := hdig c (by simp [hl])
      simp only [isDigit, Bool.and_eq_true, decide_eq_true_eq] at hc
      simp [isSpace]
      omega
  obtain ⟨c, l, hc, hl⟩ := hfirst
  rw [hl, getTime_of_nonspace _ c l hc, ← hl]
  have hlay : isoLayout = '%' :: 'Y' :: '-' :: '%' :: 'm' :: '-' :: '%' :: 'd' :: 'T' :: '%' ::
      'H' :: ':' :: '%' :: 'M' :: ':' :: '%' :: 'S' :: ['Z'] := rfl
  rw [hlay, getTimeLoop_year _ yr (by omega) '-' (by decide)]
  have lit1 : ∀ (f s : List Char) (t : Tm), getTimeLoop ('-' :: f) ('-' :: s) t
      = getTimeLoop f s t := by
    intro f s t
    simp [getTimeLoop]
  have lit2 : ∀ (f s : List Char) (t : Tm), getTimeLoop ('T' :: f) ('T' :: s) t
      = getTimeLoop f s t := by
    intro f s t
    simp [getTimeLoop]
  have lit3 : ∀ (f s : List Char) (t : Tm), getTimeLoop (':' :: f) (':' :: s) t
      = getTimeLoop f s t := by
    intro f s t
    simp [getTimeLoop]
  have lit4 : ∀ (t : Tm), getTimeLoop ['Z'] ['Z'] t = { tm := t, failbit := false } := by
    intro t
    simp [getTimeLoop]
  rw [lit1, getTimeLoop_mon _ mo (by omega) (by omega), lit1,
    getTimeLoop_mday _ dd (by omega) (by omega), lit2, getTimeLoop_hour _ hh (by omega), lit3,
    getTimeLoop_min _ mi (by omega), lit3]
  have hlast : ∀ (t : Tm), getTimeLoop ['%', 'S', 'Z'] (fmtNumber 2 (ss : Int) ++ ['Z']) t
      = { tm := { t with tm_sec := (ss : Int) }, failbit := false } := by
    intro t
    rw [getTimeLoop_sec ['Z'] ss (by omega) 'Z' [] t, lit4]
  rw [hlast]
  cases tm with
  | mk s0 m0 h0 d0 mo0 y0 dst0 =>
    simp only [Tm.zero] at *
    simp only [GetTimeResult.mk.injEq, Tm.mk.injEq, and_true]
    refine ⟨?_, ?_, ?_, ?_, ?_, ?_, ?_⟩ <;> omega

/-- Supporting fact for C2: the round trip of a whole-second instant whose UTC year is in
0..9999, in a process whose local zone is `tz` seconds east of Greenwich. The Iso8601 string
is parsed without failure into the same broken-down time, and `mktime` turns it into the
second shifted by the zone offset: the round trip is exact exactly in a UTC process, for an
instant that fits the 64-bit tick count. -/
theorem roundtrip_iso8601_up_to_zone (tps : Int) (htps : 0 < tps) (tz s : Int)
    (hy0 : 0 ≤ (gmtime s).tm_year + 1900) (hy1 : (gmtime s).tm_year + 1900 ≤ 9999) :
    getTime isoLayout (serializeTimePoint tps (s * tps) DateFormat.Iso8601).data
      = { tm := gmtime s, failbit := false } ∧
    parseSeconds tz (serializeTimePoint tps (s * tps) DateFormat.Iso8601) = s - tz ∧
    parseBound tps tz (serializeTimePoint tps (s * tps) DateFormat.Iso8601)
      = from_time_t tps (s - tz) ∧
    (InInt64 (s * tps) →
      parseBound tps 0 (serializeTimePoint tps (s * tps) DateFormat.Iso8601) = s * tps) := by
  have hs : to_time_t tps (s * tps) = s := durationCastSeconds_mul tps htps s
  have hser : (serializeTimePoint tps (s * tps) DateFormat.Iso8601).data
      = putTime (gmtime s) isoLayout := by
    simp [serializeTimePoint, hs]
  obtain ⟨h1, h2, h3, h4, h5, h6, h7, h8, h9, h10, h11⟩ := gmtime_ranges s
  have hget := getTime_putTime (gmtime s) hy0 hy1 h9 h10 h7 h8 h5 h6 h3 h4 h1 h2 h11
  have hq : ∀ z : Int,
      parseSeconds z (serializeTimePoint tps (s * tps) DateFormat.Iso8601) = s - z := by
    intro z
    simp only [parseSeconds, hser, hget, mktime_gmtime]
  have hp : ∀ z : Int,
      parseBound tps z (serializeTimePoint tps (s * tps) DateFormat.Iso8601)
        = from_time_t tps (s - z) := by
    intro z
    simp only [parseBound, hser, hget, mktime_gmtime]
  refine ⟨?_, hq tz, hp tz, ?_⟩
  · rw [hser]
    exact hget
  · intro hfit
    rw [hp 0]
    have e : s - 0 = s := by omega
    rw [e]
    exact wrap64_eq _ hfit

/-- Witness of the round trip: the second 1700000000 with nanosecond ticks, in a zone one
hour east. -/
theorem roundtrip_iso8601_up_to_zone_witness :
    parseSeconds 3600 (serializeTimePoint nanoTicks (1700000000 * nanoTicks)
      DateFormat.Iso8601) = 1700000000 - 3600 :=
  (roundtrip_iso8601_up_to_zone nanoTicks (by decide) 3600 1700000000 (by decide)
    (by decide)).2.1

/-! ### Calendar years -/

theorem yearStart_step (y : Int) : daysFromCivil y 1 1 + 365 ≤ daysFromCivil (y + 1) 1 1 := by
  simp only [daysFromCivil]
  have h1 : (1 : Int) ≤ 2 := by decide
  have h2 : ¬ ((2 : Int) < 1) := by decide
  simp only [h1, h2, if_true, if_false]
  omega

theorem yearStart_mono (y1 y2 : Int) (h : y1 ≤ y2) :
    daysFromCivil y1 1 1 ≤ daysFromCivil y2 1 1 := by
  obtain ⟨k, hk⟩ := Int.le.dest h
  subst hk
  induction k with
  | zero => simp
  | succ n ih =>
    have hstep := yearStart_step (y1 + (n : Int))
    have ih2 := ih (by omega)
    have e : y1 + ((n + 1 : Nat) : Int) = y1 + (n : Int) + 1 := by
      push_cast
      ring
    rw [e]
    omega

theorem within_year (y m d : Int) (hm0 : 1 ≤ m) (hm1 : m ≤ 12) (hd0 : 1 ≤ d) (hd1 : d ≤ 31) :
    daysFromCivil y 1 1 ≤ daysFromCivil y m d ∧
    daysFromCivil y m d < daysFromCivil (y + 1) 1 1 := by
  have hc : m = 1 ∨ m = 2 ∨ m = 3 ∨ m = 4 ∨ m = 5 ∨ m = 6 ∨ m = 7 ∨ m = 8 ∨ m = 9 ∨ m = 10
      ∨ m = 11 ∨ m = 12 := by omega
  rcases hc with h | h | h | h | h | h | h | h | h | h | h | h <;> subst h <;>
    simp only [daysFromCivil] <;> norm_num <;> omega

/-- The calendar year of a day number, from the day numbers of the first days of years. -/
theorem year_of_day (y z : Int) :
    (daysFromCivil y 1 1 ≤ z → y ≤ (civilFromDays z).1) ∧
    (z < daysFromCivil (y + 1) 1 1 → (civilFromDays z).1 ≤ y) := by
  obtain ⟨hm0, hm1, hd0, hd1, hrt⟩ := civilFromDays_spec z
  obtain ⟨hlo, hhi⟩ := within_year (civilFromDays z).1 (civilFromDays z).2.1
    (civilFromDays z).2.2 hm0 hm1 hd0 hd1
  rw [hrt] at hlo hhi
  constructor
  · intro h
    by_contra hc
    have hmono := yearStart_mono ((civilFromDays z).1 + 1) y (by omega)
    omega
  · intro h
    by_contra hc
    have hmono := yearStart_mono (y + 1) (civilFromDays z).1 (by omega)
    omega

/-- The `tm_year` that `birthdateByYear` stores: the unsigned difference cast to `int` is the
plain difference as long as it fits 31 bits. -/
theorem toInt32_year (y : Nat) (h : (y : Int) < 2147485548) :
    toInt32 (uint32 ((y : Int) - 1900)) = (y : Int) - 1900 := by
  simp only [toInt32, uint32]
  split_ifs <;> omega

/-- The interval of `birthdateByYear` in seconds: from the first second of `minYear` to the
last second of `maxYear`, both read in the local zone. -/
theorem birthdateByYearBounds_eq (tps tz : Int) (minYear maxYear : Nat)
    (h1 : (minYear : Int) < 2147485548) (h2 : (maxYear : Int) < 2147485548) :
    birthdateByYearBounds tps tz minYear maxYear
      = (from_time_t tps (daysFromCivil minYear 1 1 * 86400 - tz),
         from_time_t tps (daysFromCivil ((maxYear : Int) + 1) 1 1 * 86400 - 1 - tz)) := by
  have e1 : daysFromCivil maxYear 12 1 + (31 - 1) + 1 = daysFromCivil ((maxYear : Int) + 1) 1 1 := by
    simp only [daysFromCivil]
    norm_num
    omega
  have e2 : ((maxYear : Int) - 1900 + 1900 + 11 / 12) = maxYear := by omega
  have e3 : ((minYear : Int) - 1900 + 1900 + 0 / 12) = minYear := by omega
  have e4 : (0 : Int) % 12 + 1 = 1 := by decide
  have e5 : (11 : Int) % 12 + 1 = 12 := by decide
  simp only [birthdateByYearBounds, mktime, timegm, toInt32_year minYear h1,
    toInt32_year maxYear h2, e2, e3, e4, e5]
  refine Prod.ext ?_ ?_
  · show from_time_t tps _ = from_time_t tps _
    congr 1
    omega
  · show from_time_t tps _ = from_time_t tps _
    congr 1
    omega

theorem yearStart_step_le (y : Int) : daysFromCivil (y + 1) 1 1 ≤ daysFromCivil y 1 1 + 366 := by
  simp only [daysFromCivil]
  have h1 : (1 : Int) ≤ 2 := by decide
  have h2 : ¬ ((2 : Int) < 1) := by decide
  simp only [h1, h2, if_true, if_false]
  omega

/-- A span of `y2 - y1` calendar years has at most 366 days per year. -/
theorem yearStart_span (y1 y2 : Int) (h : y1 ≤ y2) :
    daysFromCivil y2 1 1 ≤ daysFromCivil y1 1 1 + 366 * (y2 - y1) := by
  obtain ⟨k, hk⟩ := Int.le.dest h
  subst hk
  induction k with
  | zero => simp
  | succ n ih =>
    have hstep := yearStart_step_le (y1 + (n : Int))
    have ih2 := ih (by omega)
    have e : y1 + ((n + 1 : Nat) : Int) = y1 + (n : Int) + 1 := by
      push_cast
      ring
    rw [e]
    omega

/-- The years whose bounds `birthdateByYear` can represent with nanosecond ticks: from 1678
to 2261, at most 291 calendar years at a time, in a zone at most one day away from
Greenwich. Both bounds and their difference fit the 64-bit tick count. -/
theorem yearBounds_fit (tz : Int) (minYear maxYear : Nat) (hle : minYear ≤ maxYear)
    (hlo : 1678 ≤ minYear) (hhi : maxYear ≤ 2261) (hspan : maxYear ≤ minYear + 290)
    (htz0 : -86400 ≤ tz) (htz1 : tz ≤ 86400) :
    InInt64 ((daysFromCivil minYear 1 1 * 86400 - tz) * nanoTicks) ∧
    InInt64 ((daysFromCivil ((maxYear : Int) + 1) 1 1 * 86400 - 1 - tz) * nanoTicks) ∧
    (daysFromCivil ((maxYear : Int) + 1) 1 1 * 86400 - 1 - tz
      - (daysFromCivil minYear 1 1 * 86400 - tz)) * nanoTicks < 9223372036854775808 := by
  have hle2 : (minYear : Int) ≤ (maxYear : Int) := by exact_mod_cast hle
  have hlo2 : (1678 : Int) ≤ (minYear : Int) := by exact_mod_cast hlo
  have hhi2 : (maxYear : Int) ≤ 2261 := by exact_mod_cast hhi
  have hspan2 : (maxYear : Int) ≤ (minYear : Int) + 290 := by exact_mod_cast hspan
  have c1 : daysFromCivil 1678 1 1 = -106650 := by decide
  have c2 : daysFromCivil 2262 1 1 = 106651 := by decide
  have m1 := yearStart_mono 1678 minYear hlo2
  have m2 := yearStart_mono minYear ((maxYear : Int) + 1) (by omega)
  have m3 := yearStart_mono ((maxYear : Int) + 1) 2262 (by omega)
  have m4 := yearStart_span minYear ((maxYear : Int) + 1) (by omega)
  rw [c1] at m1
  rw [c2] at m3
  generalize daysFromCivil (minYear : Int) 1 1 = d0 at m1 m2 m4 ⊢
  generalize daysFromCivil ((maxYear : Int) + 1) 1 1 = d1 at m2 m3 m4 ⊢
  unfold InInt64 nanoTicks
  omega

/-- The sampler on the interval of `birthdateByYear`, for bounds that fit the 64-bit tick
count together with their difference and a draw `r` of the range the random source is asked
for: the bound handed to the source is the number of seconds from January 1st 00:00:00 of
`minYear` to December 31st 23:59:59 of `maxYear`, minus one, and the result is the
whole-second instant `r` seconds after the lower bound. -/
theorem birthdateByYear_of_draw {ε : Type} (tps : Int) (htps : 0 < tps) (tz : Int)
    (integer : Int → Except ε Int) (minYear maxYear : Nat) (r : Int) (fmt : DateFormat)
    (hle : minYear ≤ maxYear) (hmax : (maxYear : Int) < 2147485548)
    (hfa : InInt64 ((daysFromCivil minYear 1 1 * 86400 - tz) * tps))
    (hfb : InInt64 ((daysFromCivil ((maxYear : Int) + 1) 1 1 * 86400 - 1 - tz) * tps))
    (hd : (daysFromCivil ((maxYear : Int) + 1) 1 1 * 86400 - 1 - tz
      - (daysFromCivil minYear 1 1 * 86400 - tz)) * tps < 9223372036854775808)
    (hr : integer (daysFromCivil ((maxYear : Int) + 1) 1 1 * 86400 - 1 - tz
      - (daysFromCivil minYear 1 1 * 86400 - tz) - 1) = Except.ok r)
    (hr0 : 0 ≤ r)
    (hr1 : r ≤ daysFromCivil ((maxYear : Int) + 1) 1 1 * 86400 - 1 - tz
      - (daysFromCivil minYear 1 1 * 86400 - tz) - 1) :
    birthdateByYearBounds tps tz minYear maxYear
      = ((daysFromCivil minYear 1 1 * 86400 - tz) * tps,
         (daysFromCivil ((maxYear : Int) + 1) 1 1 * 86400 - 1 - tz) * tps) ∧
    randomDateWithinRange tps integer (birthdateByYearBounds tps tz minYear maxYear).1
        (birthdateByYearBounds tps tz minYear maxYear).2
      = Except.ok ((daysFromCivil minYear 1 1 * 86400 - tz + r) * tps) ∧
    birthdateByYear tps tz integer minYear maxYear fmt
      = Except.ok (serializeTimePoint tps
          ((daysFromCivil minYear 1 1 * 86400 - tz + r) * tps) fmt) ∧
    to_time_t tps ((daysFromCivil minYear 1 1 * 86400 - tz + r) * tps)
      = daysFromCivil minYear 1 1 * 86400 - tz + r := by
  have hle2 : (minYear : Int) ≤ (maxYear : Int) := by exact_mod_cast hle
  have hb := birthdateByYearBounds_eq tps tz minYear maxYear (by omega) hmax
  have hmono := yearStart_mono minYear maxYear hle2
  have hstep := yearStart_step maxYear
  obtain ⟨e1, e2, h1, h2, h3⟩ := sample_seconds_of_draw tps htps integer
    (daysFromCivil minYear 1 1 * 86400 - tz)
    (daysFromCivil ((maxYear : Int) + 1) 1 1 * 86400 - 1 - tz) r fmt (by omega) hfa hfb hd
    hr hr0 hr1
  refine ⟨?_, ?_, ?_, h3⟩
  · rw [hb, e1, e2]
  · rw [hb]
    exact h1
  · unfold birthdateByYear
    rw [hb]
    exact h2

/-- Supporting fact for C5, with nanosecond ticks: for `1678 <= minYear <= maxYear <= 2261`
at most 290 years apart and a random source that respects its bounds, `birthdateByYear`
returns the serialization of a whole-second instant `s` such that the calendar year of
`s + tz`, the local time, lies in `[minYear, maxYear]`. In a UTC process (`tz = 0`) this is
the UTC year of the result; in any other zone the UTC year can leave the range. -/
theorem birthdateByYear_local_year_in_range {ε : Type} (tz : Int)
    (integer : Int → Except ε Int) (hint : InclusiveBounds integer) (minYear maxYear : Nat)
    (fmt : DateFormat) (hle : minYear ≤ maxYear) (hlo : 1678 ≤ minYear)
    (hhi : maxYear ≤ 2261) (hspan : maxYear ≤ minYear + 290)
    (htz0 : -86400 ≤ tz) (htz1 : tz ≤ 86400) :
    ∃ s : Int,
      randomDateWithinRange nanoTicks integer
        (birthdateByYearBounds nanoTicks tz minYear maxYear).1
        (birthdateByYearBounds nanoTicks tz minYear maxYear).2 = Except.ok (s * nanoTicks) ∧
      birthdateByYear nanoTicks tz integer minYear maxYear fmt
        = Except.ok (serializeTimePoint nanoTicks (s * nanoTicks) fmt) ∧
      to_time_t nanoTicks (s * nanoTicks) = s ∧
      daysFromCivil minYear 1 1 * 86400 - tz ≤ s ∧
      s < daysFromCivil ((maxYear : Int) + 1) 1 1 * 86400 - 1 - tz ∧
      (minYear : Int) ≤ (gmtime (s + tz)).tm_year + 1900 ∧
      (gmtime (s + tz)).tm_year + 1900 ≤ (maxYear : Int) := by
  have hle2 : (minYear : Int) ≤ (maxYear : Int) := by exact_mod_cast hle
  have hhi2 : (maxYear : Int) ≤ 2261 := by exact_mod_cast hhi
  obtain ⟨hfa, hfb, hd⟩ := yearBounds_fit tz minYear maxYear hle hlo hhi hspan htz0 htz1
  have hmono := yearStart_mono minYear maxYear hle2
  have hstep := yearStart_step maxYear
  obtain ⟨r, hr, hr0, hr1⟩ := hint (daysFromCivil ((maxYear : Int) + 1) 1 1 * 86400 - 1 - tz
      - (daysFromCivil minYear 1 1 * 86400 - tz) - 1) (by omega)
  obtain ⟨_, h1, h2, h3⟩ := birthdateByYear_of_draw nanoTicks (by decide) tz integer minYear
    maxYear r fmt hle (by omega) hfa hfb hd hr hr0 hr1
  obtain ⟨hy1, hy2⟩ := year_of_day minYear ((daysFromCivil minYear 1 1 * 86400 - tz + r + tz) / 86400)
  obtain ⟨_, hy3⟩ := year_of_day maxYear ((daysFromCivil minYear 1 1 * 86400 - tz + r + tz) / 86400)
  refine ⟨daysFromCivil minYear 1 1 * 86400 - tz + r, h1, h2, h3, by omega, by omega, ?_, ?_⟩
  · have := hy1 (by omega)
    simp only [gmtime]
    omega
  · have := hy3 (by omega)
    simp only [gmtime]
    omega

/-- Witness of the supporting fact for C5: the year 2000 in a UTC process, draw 0. -/
theorem birthdateByYear_local_year_in_range_witness :
    ∃ s : Int,
      randomDateWithinRange nanoTicks (drawZero : Int → Except Unit Int)
        (birthdateByYearBounds nanoTicks 0 2000 2000).1
        (birthdateByYearBounds nanoTicks 0 2000 2000).2 = Except.ok (s * nanoTicks) ∧
      birthdateByYear nanoTicks 0 (drawZero : Int → Except Unit Int) 2000 2000
          DateFormat.Iso8601
        = Except.ok (serializeTimePoint nanoTicks (s * nanoTicks) DateFormat.Iso8601) ∧
      to_time_t nanoTicks (s * nanoTicks) = s ∧
      daysFromCivil ((2000 : Nat) : Int) 1 1 * 86400 - 0 ≤ s ∧
      s < daysFromCivil (((2000 : Nat) : Int) + 1) 1 1 * 86400 - 1 - 0 ∧
      ((2000 : Nat) : Int) ≤ (gmtime (s + 0)).tm_year + 1900 ∧
      (gmtime (s + 0)).tm_year + 1900 ≤ ((2000 : Nat) : Int) :=
  birthdateByYear_local_year_in_range 0 drawZero inclusiveBounds_drawZero
    2000 2000 DateFormat.Iso8601 (by decide) (by decide) (by decide) (by decide) (by decide)
    (by decide)

/-! ### The unbounded sampler and the calendar accessors -/

theorem uniformInRange_disMin : UniformInRange disMin := by
  intro a b h
  exact ⟨le_refl a, h⟩

theorem uniformInRange_disMax : UniformInRange disMax := by
  intro a b h
  exact ⟨h, le_refl b⟩

theorem inclusiveRange_rangeMin {ε : Type} :
    InclusiveRange (rangeMin : Int → Int → Except ε Int) := by
  intro lo hi h
  exact ⟨lo, rfl, le_refl lo, h⟩

theorem inclusiveRange_rangeMax {ε : Type} :
    InclusiveRange (rangeMax : Int → Int → Except ε Int) := by
  intro lo hi h
  exact ⟨hi, rfl, h, le_refl hi⟩

/-- C12: for every non-negative clock reading `now` (in whole seconds) and every value the
generator may draw from `[0, now + total]`, `anytime(Timestamp)` returns the decimal string
of an integer `t` with `0 <= t <= now + 3600*24*365*200 = now + 6307200000`. The floor is the
epoch and not `now`: the draw of the lower bound returns "0" whatever the clock reads. The
upper bound is inclusive: the draw of the upper bound returns `now + 6307200000`. -/
theorem C12_anytime_timestamp_range (tps : Int) (dis : Int → Int → Int)
    (hdis : UniformInRange dis) (clock : Nat → Int)
    (hnow : 0 ≤ durationCastSeconds tps (clock 0)) :
    (3600 * 24 * 365 * 200 : Int) = 6307200000 ∧
    (∃ t : Int, anytime tps dis clock DateFormat.Timestamp = String.mk (decimal t) ∧
      readInt (anytime tps dis clock DateFormat.Timestamp).data = some t ∧
      0 ≤ t ∧ t ≤ durationCastSeconds tps (clock 0) + 6307200000) ∧
    anytime tps disMin clock DateFormat.Timestamp = "0" ∧
    anytime tps disMax clock DateFormat.Timestamp
      = String.mk (decimal (durationCastSeconds tps (clock 0) + 6307200000)) := by
  have hany : ∀ d : Int → Int → Int, anytime tps d clock DateFormat.Timestamp
      = String.mk (decimal (d 0 (durationCastSeconds tps (clock 0) + 6307200000))) := by
    intro d
    simp [anytime]
  refine ⟨by decide, ?_, ?_, ?_⟩
  · obtain ⟨h0, h1⟩ := hdis 0 (durationCastSeconds tps (clock 0) + 6307200000) (by omega)
    refine ⟨dis 0 (durationCastSeconds tps (clock 0) + 6307200000), hany dis, ?_, h0, h1⟩
    rw [hany dis]
    exact readInt_decimal _
  · rw [hany disMin]
    rfl
  · rw [hany disMax]
    rfl

/-- Witness of C12: millisecond ticks, the clock at 1700000000.123 s, the draw of the upper
bound. -/
theorem C12_anytime_timestamp_range_witness :
    UniformInRange disMax ∧ 0 ≤ durationCastSeconds 1000 (clockTwo 1700000000123 0 0) ∧
    anytime 1000 disMax (clockTwo 1700000000123 0) DateFormat.Timestamp
      = String.mk (decimal (durationCastSeconds 1000 (clockTwo 1700000000123 0 0) + 6307200000)) ∧
    anytime 1000 disMax (clockTwo 1700000000123 0) DateFormat.Timestamp = "8007200000" :=
  ⟨uniformInRange_disMax, by decide,
    (C12_anytime_timestamp_range 1000 disMax uniformInRange_disMax (clockTwo 1700000000123 0)
      (by decide)).2.2.2, rfl⟩

/-- C13: for every random source that respects its inclusive-bounds interface, `year()`
returns a value in [1950, 2050], `month()` in [1, 12], `hour()` in [0, 23], `minute()` and
`second()` in [0, 59], `dayOfMonth()` in [1, 31] and `dayOfWeek()` in [1, 7]. -/
theorem C13_accessors_in_range {ε : Type} (integerRange : Int → Int → Except ε Int)
    (hrange : InclusiveRange integerRange) :
    (∃ v : Int, year integerRange = Except.ok v ∧ 1950 ≤ v ∧ v ≤ 2050) ∧
    (∃ v : Int, month integerRange = Except.ok v ∧ 1 ≤ v ∧ v ≤ 12) ∧
    (∃ v : Int, hour integerRange = Except.ok v ∧ 0 ≤ v ∧ v ≤ 23) ∧
    (∃ v : Int, minute integerRange = Except.ok v ∧ 0 ≤ v ∧ v ≤ 59) ∧
    (∃ v : Int, second integerRange = Except.ok v ∧ 0 ≤ v ∧ v ≤ 59) ∧
    (∃ v : Int, dayOfMonth integerRange = Except.ok v ∧ 1 ≤ v ∧ v ≤ 31) ∧
    (∃ v : Int, dayOfWeek integerRange = Except.ok v ∧ 1 ≤ v ∧ v ≤ 7) :=
  ⟨hrange 1950 2050 (by decide), hrange 1 12 (by decide), hrange 0 23 (by decide),
    hrange 0 59 (by decide), hrange 0 59 (by decide), hrange 1 31 (by decide),
    hrange 1 7 (by decide)⟩

/-- Witness of C13: the source that draws its upper bound. -/
theorem C13_accessors_in_range_witness :
    InclusiveRange (rangeMax : Int → Int → Except Unit Int) ∧
    (∃ v : Int, year (rangeMax : Int → Int → Except Unit Int) = Except.ok v
      ∧ 1950 ≤ v ∧ v ≤ 2050) ∧
    year (rangeMax : Int → Int → Except Unit Int) = Except.ok 2050 ∧
    dayOfWeek (rangeMin : Int → Int → Except Unit Int) = Except.ok 1 :=
  ⟨inclusiveRange_rangeMax, (C13_accessors_in_range rangeMax inclusiveRange_rangeMax).1,
    rfl, rfl⟩

/-- C14: for every random source that respects its interface, `time()` returns a string of
exactly five characters `HH:MM`: the two decimal digits of the value drawn by `hour()` (0 to
23), a colon, and the two decimal digits of the value drawn by `minute()` (0 to 59), each
padded with a zero on the left. -/
theorem C14_time_is_HH_MM {ε : Type} (integerRange : Int → Int → Except ε Int)
    (hrange : InclusiveRange integerRange) :
    ∃ hh mm : Nat,
      hour integerRange = Except.ok (hh : Int) ∧ hh ≤ 23 ∧
      minute integerRange = Except.ok (mm : Int) ∧ mm ≤ 59 ∧
      time integerRange = Except.ok (String.mk
        [digitChar (hh / 10), digitChar (hh % 10), ':', digitChar (mm / 10),
          digitChar (mm % 10)]) ∧
      (∀ s : String, time integerRange = Except.ok s → s.data.length = 5) ∧
      isDigit (digitChar (hh / 10)) = true ∧ isDigit (digitChar (hh % 10)) = true ∧
      isDigit (digitChar (mm / 10)) = true ∧ isDigit (digitChar (mm % 10)) = true := by
  obtain ⟨h, hh1, hh2, hh3⟩ := hrange 0 23 (by decide)
  obtain ⟨m, hm1, hm2, hm3⟩ := hrange 0 59 (by decide)
  obtain ⟨hn, hhn⟩ := Int.eq_ofNat_of_zero_le hh2
  obtain ⟨mn, hmn⟩ := Int.eq_ofNat_of_zero_le hm2
  subst hhn
  subst hmn
  have htime : time integerRange = Except.ok (String.mk
      [digitChar (hn / 10), digitChar (hn % 10), ':', digitChar (mn / 10),
        digitChar (mn % 10)]) := by
    simp only [time, hour, minute, hh1, hm1, Except.bind, Except.map, formatTime]
    rw [fmtNumber_two hn (by omega), fmtNumber_two mn (by omega)]
    rfl
  refine ⟨hn, mn, hh1, by omega, hm1, by omega, htime, ?_, isDigit_digitChar _ (by omega),
    isDigit_digitChar _ (by omega), isDigit_digitChar _ (by omega),
    isDigit_digitChar _ (by omega)⟩
  intro s hs
  rw [htime] at hs
  injection hs with hs
  rw [← hs]
  rfl

/-- Witness of C14: the source that draws its upper bound gives "23:59". -/
theorem C14_time_is_HH_MM_witness :
    InclusiveRange (rangeMax : Int → Int → Except Unit Int) ∧
    (∃ hh mm : Nat,
      hour (rangeMax : Int → Int → Except Unit Int) = Except.ok (hh : Int) ∧ hh ≤ 23 ∧
      minute (rangeMax : Int → Int → Except Unit Int) = Except.ok (mm : Int) ∧ mm ≤ 59 ∧
      time (rangeMax : Int → Int → Except Unit Int) = Except.ok (String.mk
        [digitChar (hh / 10), digitChar (hh % 10), ':', digitChar (mm / 10),
          digitChar (mm % 10)]) ∧
      (∀ s : String, time (rangeMax : Int → Int → Except Unit Int) = Except.ok s
        → s.data.length = 5) ∧
      isDigit (digitChar (hh / 10)) = true ∧ isDigit (digitChar (hh % 10)) = true ∧
      isDigit (digitChar (mm / 10)) = true ∧ isDigit (digitChar (mm % 10)) = true) ∧
    time (rangeMax : Int → Int → Except Unit Int) = Except.ok "23:59" :=
  ⟨inclusiveRange_rangeMax, C14_time_is_HH_MM rangeMax inclusiveRange_rangeMax, rfl⟩

/-! ### The 32-bit hour offsets -/

theorem yearHours_uint32 (n : Nat) :
    uint32 (numberOfHoursInDay * numberOfDaysInYear * (n : Int)) = uint32 (8760 * (n : Int)) := by
  have h : numberOfHoursInDay * numberOfDaysInYear * (n : Int) = 8760 * (n : Int) := by
    simp [numberOfHoursInDay, numberOfDaysInYear]
  rw [h]

theorem dayHours_uint32 (n : Nat) :
    uint32 (numberOfHoursInDay * (n : Int)) = uint32 (24 * (n : Int)) := by
  have h : numberOfHoursInDay * (n : Int) = 24 * (n : Int) := by
    simp [numberOfHoursInDay]
  rw [h]

/-- The forward builders as one call of the random source: for a clock at or after the
epoch and an offset of `h >= 0` hours whose end fits the 64-bit tick count, the bound handed
to the source is `h * 3600 - 1` and the result is `now + 1h` plus the drawn seconds. -/
theorem forward_eq {ε : Type} (tps : Int) (htps : 0 < tps) (integer : Int → Except ε Int)
    (c h : Int) (fmt : DateFormat) (hc : 0 ≤ c) (hh : 0 ≤ h)
    (hfit : c + (h + 1) * 3600 * tps < 9223372036854775808) :
    betweenDate tps integer (addTicks c (hours tps 1))
        (addTicks (addTicks c (hours tps 1)) (hours tps h)) fmt
      = (integer (h * 3600 - 1)).map
          (fun r => serializeTimePoint tps (addTicks (c + 3600 * tps) (seconds tps r)) fmt) := by
  obtain ⟨e1, e2, i1, i2, hX⟩ := forward_bounds tps c h htps hc hh hfit
  have hd : c + 3600 * tps + h * 3600 * tps - (c + 3600 * tps) = (h * 3600) * tps := by ring
  have hdd : InInt64 (c + 3600 * tps + h * 3600 * tps - (c + 3600 * tps)) := by
    unfold InInt64 at *
    omega
  rw [e2, e1, betweenDate_eq_of_fit tps integer _ _ fmt hdd, hd,
    durationCastSeconds_mul tps htps]

/-- The backward builders as one call of the random source, when both reads of the clock
return the same instant at or after the epoch and the offset of `h >= 0` hours fits the
64-bit tick count: the bound handed to the source is `(h - 1) * 3600 - 1` and the result is
`now - h hours` plus the drawn seconds. -/
theorem backward_eq {ε : Type} (tps : Int) (htps : 0 < tps) (integer : Int → Except ε Int)
    (c h : Int) (fmt : DateFormat) (hc : 0 ≤ c) (hh : 0 ≤ h)
    (hfit : c + (h + 1) * 3600 * tps < 9223372036854775808) :
    betweenDate tps integer (subTicks c (hours tps h)) (subTicks c (hours tps 1)) fmt
      = (integer ((h - 1) * 3600 - 1)).map
          (fun r => serializeTimePoint tps (addTicks (c - h * 3600 * tps) (seconds tps r))
            fmt) := by
  have hX : 0 ≤ h * 3600 * tps := Int.mul_nonneg (by omega) (by omega)
  have e : (h + 1) * 3600 * tps = h * 3600 * tps + 3600 * tps := by ring
  have e0 : (1 : Int) * 3600 * tps = 3600 * tps := by ring
  rw [e] at hfit
  obtain ⟨e1, i1⟩ := backward_bound tps c h htps hc (by omega) hh (by omega)
  obtain ⟨e2, i2⟩ := backward_bound tps c 1 htps hc (by omega) (by omega) (by omega)
  have hd : c - 1 * 3600 * tps - (c - h * 3600 * tps) = ((h - 1) * 3600) * tps := by ring
  have hdd : InInt64 (c - 1 * 3600 * tps - (c - h * 3600 * tps)) := by
    unfold InInt64 at *
    omega
  rw [e1, e2, betweenDate_eq_of_fit tps integer _ _ fmt hdd, hd,
    durationCastSeconds_mul tps htps]

/-- C15 (as amended): the hour offsets are computed in 32-bit unsigned arithmetic. For every
`years` and every clock reading `now` at or after the epoch such that `now + 1h` plus
`(8760 * years) mod 2^32` hours fits the 64-bit tick count, the interval `futureDate` hands
to the sampler starts at `now + 1h` and has a length of `(8760 * years) mod 2^32` hours: the
random source is called with that number of seconds minus one, and with a source that
respects its bounds and a non-zero offset the sampled instant, and the second that is
printed, lie within that many hours of `now + 1h` and after `now`. The length is `years * 365` days exactly when `8760 * years < 2^32`. The same
holds for `soonDate` with `(24 * days) mod 2^32`. For `years = 490294`, where
`8760 * years = 2^32 + 8144`, the length is 8144 hours, far short of `years * 365` days. -/
theorem C15_hour_offset_wraps_at_32_bits {ε : Type} (tps : Int) (htps : 0 < tps)
    (integer : Int → Except ε Int) (hint : InclusiveBounds integer) (clock : Nat → Int)
    (n : Nat) (fmt : DateFormat) (h0 : 0 ≤ clock 0) :
    (clock 0 + (uint32 (8760 * (n : Int)) + 1) * 3600 * tps < 9223372036854775808 →
      futureDateBounds tps clock n
        = (clock 0 + 3600 * tps,
           clock 0 + 3600 * tps + uint32 (8760 * (n : Int)) * 3600 * tps) ∧
      futureDate tps integer clock n fmt
        = (integer (uint32 (8760 * (n : Int)) * 3600 - 1)).map
            (fun r => serializeTimePoint tps
              (addTicks (clock 0 + 3600 * tps) (seconds tps r)) fmt) ∧
      (uint32 (8760 * (n : Int)) ≠ 0 →
        ∃ x : Int, futureDate tps integer clock n fmt
            = Except.ok (serializeTimePoint tps x fmt) ∧
          clock 0 + 3600 * tps ≤ x ∧
          x < clock 0 + 3600 * tps + uint32 (8760 * (n : Int)) * 3600 * tps ∧
          clock 0 < to_time_t tps x * tps ∧
          to_time_t tps x * tps
            < clock 0 + 3600 * tps + uint32 (8760 * (n : Int)) * 3600 * tps)) ∧
    (uint32 (8760 * (n : Int)) * 3600 = (n : Int) * 31536000
      ↔ 8760 * (n : Int) < 4294967296) ∧
    (clock 0 + (uint32 (24 * (n : Int)) + 1) * 3600 * tps < 9223372036854775808 →
      soonDateBounds tps clock n
        = (clock 0 + 3600 * tps,
           clock 0 + 3600 * tps + uint32 (24 * (n : Int)) * 3600 * tps) ∧
      soonDate tps integer clock n fmt
        = (integer (uint32 (24 * (n : Int)) * 3600 - 1)).map
            (fun r => serializeTimePoint tps
              (addTicks (clock 0 + 3600 * tps) (seconds tps r)) fmt) ∧
      (uint32 (24 * (n : Int)) ≠ 0 →
        ∃ x : Int, soonDate tps integer clock n fmt
            = Except.ok (serializeTimePoint tps x fmt) ∧
          clock 0 + 3600 * tps ≤ x ∧
          x < clock 0 + 3600 * tps + uint32 (24 * (n : Int)) * 3600 * tps ∧
          clock 0 < to_time_t tps x * tps ∧
          to_time_t tps x * tps
            < clock 0 + 3600 * tps + uint32 (24 * (n : Int)) * 3600 * tps)) ∧
    (uint32 (24 * (n : Int)) * 3600 = (n : Int) * 86400 ↔ 24 * (n : Int) < 4294967296) ∧
    ((8760 : Int) * 490294 = 4294967296 + 8144 ∧
      uint32 (8760 * ((490294 : Nat) : Int)) = 8144 ∧
      (8144 : Int) * 3600 < ((490294 : Nat) : Int) * 31536000) := by
  have hu1 : 0 ≤ uint32 (8760 * (n : Int)) := Int.emod_nonneg _ (by decide)
  have hu2 : 0 ≤ uint32 (24 * (n : Int)) := Int.emod_nonneg _ (by decide)
  refine ⟨?_, ?_, ?_, ?_, by decide, by decide, by decide⟩
  · intro hfit
    obtain ⟨e1, e2, _, _, _⟩ := forward_bounds tps (clock 0) (uint32 (8760 * (n : Int))) htps
      h0 hu1 hfit
    have hb : futureDateBounds tps clock n
        = (addTicks (clock 0) (hours tps 1),
           addTicks (addTicks (clock 0) (hours tps 1))
            (hours tps (uint32 (8760 * (n : Int))))) := by
      simp only [futureDateBounds, yearHours_uint32]
    refine ⟨?_, ?_, ?_⟩
    · rw [hb, e2, e1]
    · unfold futureDate
      rw [hb]
      exact forward_eq tps htps integer (clock 0) _ fmt h0 hu1 hfit
    · intro hne
      obtain ⟨x, _, h2, h3, h4, _, h6, h7⟩ := sample_forward tps htps integer hint (clock 0)
        (uint32 (8760 * (n : Int))) fmt h0 (by omega) hfit
      refine ⟨x, ?_, h3, by omega, h6, by omega⟩
      unfold futureDate
      rw [hb]
      exact h2
  · unfold uint32
    omega
  · intro hfit
    obtain ⟨e1, e2, _, _, _⟩ := forward_bounds tps (clock 0) (uint32 (24 * (n : Int))) htps
      h0 hu2 hfit
    have hb : soonDateBounds tps clock n
        = (addTicks (clock 0) (hours tps 1),
           addTicks (addTicks (clock 0) (hours tps 1))
            (hours tps (uint32 (24 * (n : Int))))) := by
      simp only [soonDateBounds, dayHours_uint32]
    refine ⟨?_, ?_, ?_⟩
    · rw [hb, e2, e1]
    · unfold soonDate
      rw [hb]
      exact forward_eq tps htps integer (clock 0) _ fmt h0 hu2 hfit
    · intro hne
      obtain ⟨x, _, h2, h3, h4, _, h6, h7⟩ := sample_forward tps htps integer hint (clock 0)
        (uint32 (24 * (n : Int))) fmt h0 (by omega) hfit
      refine ⟨x, ?_, h3, by omega, h6, by omega⟩
      unfold soonDate
      rw [hb]
      exact h2
  · unfold uint32
    omega

/-- Witness of C15 (as amended): nanosecond ticks, the clock at 1700000000.123456789 s, the
source drawing its upper bound, 490294 years: the bound handed to the source is
`8144 * 3600 - 1` seconds and the result is one second before `now + 1h + 8144h`. -/
theorem C15_hour_offset_wraps_at_32_bits_witness :
    (0 : Int) < nanoTicks ∧ InclusiveBounds (drawMax : Int → Except Unit Int) ∧
    0 ≤ clockTwo 1700000000123456789 0 0 ∧
    clockTwo 1700000000123456789 0 0
      + (uint32 (8760 * ((490294 : Nat) : Int)) + 1) * 3600 * nanoTicks
      < 9223372036854775808 ∧
    futureDate nanoTicks (drawMax : Int → Except Unit Int) (clockTwo 1700000000123456789 0)
        490294 DateFormat.Timestamp
      = ((drawMax : Int → Except Unit Int)
          (uint32 (8760 * ((490294 : Nat) : Int)) * 3600 - 1)).map
          (fun r => serializeTimePoint nanoTicks
            (addTicks (clockTwo 1700000000123456789 0 0 + 3600 * nanoTicks)
              (seconds nanoTicks r)) DateFormat.Timestamp) ∧
    uint32 (8760 * ((490294 : Nat) : Int)) * 3600 - 1 = 29318399 ∧
    futureDate nanoTicks (drawMax : Int → Except Unit Int) (clockTwo 1700000000123456789 0)
      490294 DateFormat.Timestamp = Except.ok "1729321999" :=
  ⟨by decide, inclusiveBounds_drawMax, by decide, by decide,
    ((C15_hour_offset_wraps_at_32_bits nanoTicks (by decide)
      (drawMax : Int → Except Unit Int) inclusiveBounds_drawMax
      (clockTwo 1700000000123456789 0) 490294 DateFormat.Timestamp (by decide)).1
      (by decide)).2.1, by decide, rfl⟩

/-- C15, counterexample to the claim as stated (for every `years`), with nanosecond ticks
and the clock at 1700000000.123456789 s. For `years = 293` the hour offset is 2566680, below
the 32-bit wrap, but 2566680 hours do not fit the 64-bit nanosecond count: the upper end
wraps below the lower end, the interval handed to the sampler does not have the length of
2566680 hours (9240048000 seconds), and the random source is called with the bound
-9206696074. The same happens to `soonDate` from 106752 days on. -/
theorem C15_counterexample :
    uint32 (8760 * ((293 : Nat) : Int)) = 2566680 ∧ (2566680 : Int) * 3600 = 9240048000 ∧
    futureDateBounds nanoTicks (clockTwo 1700000000123456789 0) 293
      = (1700003600123456789, -7506692473586094827) ∧
    (∀ integer : Int → Except Unit Int,
      futureDate nanoTicks integer (clockTwo 1700000000123456789 0) 293 DateFormat.Timestamp
        = (integer (-9206696074)).map
            (fun r => serializeTimePoint nanoTicks
              (addTicks 1700003600123456789 (seconds nanoTicks r)) DateFormat.Timestamp)) ∧
    uint32 (24 * ((106752 : Nat) : Int)) = 2562048 ∧ (2562048 : Int) * 3600 = 9223372800 ∧
    (∀ integer : Int → Except Unit Int,
      soonDate nanoTicks integer (clockTwo 1700000000123456789 0) 106752 DateFormat.Timestamp
        = (integer (-9223371274)).map
            (fun r => serializeTimePoint nanoTicks
              (addTicks 1700003600123456789 (seconds nanoTicks r)) DateFormat.Timestamp)) := by
  refine ⟨by decide, by decide, by decide, ?_, by decide, by decide, ?_⟩
  · intro integer
    have hb : futureDateBounds nanoTicks (clockTwo 1700000000123456789 0) 293
        = (1700003600123456789, -7506692473586094827) := by decide
    have hs : durationCastSeconds nanoTicks
        (subTicks (-7506692473586094827) 1700003600123456789) - 1 = -9206696074 := by decide
    unfold futureDate
    rw [hb, betweenDate_eq, hs]
  · intro integer
    have hb : soonDateBounds nanoTicks (clockTwo 1700000000123456789 0) 106752
        = (1700003600123456789, -7523367673586094827) := by decide
    have hs : durationCastSeconds nanoTicks
        (subTicks (-7523367673586094827) 1700003600123456789) - 1 = -9223371274 := by decide
    unfold soonDate
    rw [hb, betweenDate_eq, hs]

theorem uint32_mod8 (m : Int) : 0 ≤ uint32 (8 * m) ∧ uint32 (8 * m) % 8 = 0 := by
  constructor
  · exact Int.emod_nonneg _ (by decide)
  · unfold uint32
    rw [Int.emod_emod_of_dvd _ (by decide)]
    omega

/-- The four builders for one hour offset `h` that is a multiple of 8 (as
`(8760 * years) mod 2^32` and `(24 * days) mod 2^32` are), a single clock reading at or after
the epoch, and an upper end `now + 1h + h hours` that fits the 64-bit tick count. The
forward interval hands the random source the bound `h * 3600 - 1`, the backward interval
the bound `(h - 1) * 3600 - 1`; the intervals have `from < to`, and the bounds are
non-negative, exactly when `h` is not zero. -/
theorem builders_of_offset {ε : Type} (tps : Int) (htps : 0 < tps)
    (integer : Int → Except ε Int) (c h : Int) (fmt : DateFormat) (hc : 0 ≤ c)
    (hh : 0 ≤ h) (h8 : h % 8 = 0)
    (hfit : c + (h + 1) * 3600 * tps < 9223372036854775808) :
    betweenDate tps integer (addTicks c (hours tps 1))
        (addTicks (addTicks c (hours tps 1)) (hours tps h)) fmt
      = (integer (h * 3600 - 1)).map
          (fun r => serializeTimePoint tps (addTicks (c + 3600 * tps) (seconds tps r)) fmt) ∧
    betweenDate tps integer (subTicks c (hours tps h)) (subTicks c (hours tps 1)) fmt
      = (integer ((h - 1) * 3600 - 1)).map
          (fun r => serializeTimePoint tps (addTicks (c - h * 3600 * tps) (seconds tps r))
            fmt) ∧
    (addTicks c (hours tps 1) < addTicks (addTicks c (hours tps 1)) (hours tps h) ↔ h ≠ 0) ∧
    (subTicks c (hours tps h) < subTicks c (hours tps 1) ↔ h ≠ 0) ∧
    (0 ≤ h * 3600 - 1 ↔ h ≠ 0) ∧ (0 ≤ (h - 1) * 3600 - 1 ↔ h ≠ 0) := by
  obtain ⟨e1, e2, _, _, hX⟩ := forward_bounds tps c h htps hc hh hfit
  have e : (h + 1) * 3600 * tps = h * 3600 * tps + 3600 * tps := by ring
  have e0 : (1 : Int) * 3600 * tps = 3600 * tps := by ring
  have hfit2 := hfit
  rw [e] at hfit2
  obtain ⟨e3, _⟩ := backward_bound tps c h htps hc (by omega) hh (by omega)
  obtain ⟨e4, _⟩ := backward_bound tps c 1 htps hc (by omega) (by omega) (by omega)
  have hcase : h = 0 ∨ 8 ≤ h := by omega
  have hpos : 8 ≤ h → 8 * (3600 * tps) ≤ h * 3600 * tps := by
    intro h8le
    have := Int.mul_le_mul_of_nonneg_right h8le (show 0 ≤ 3600 * tps by omega)
    have e5 : h * (3600 * tps) = h * 3600 * tps := by ring
    omega
  refine ⟨forward_eq tps htps integer c h fmt hc hh hfit,
    backward_eq tps htps integer c h fmt hc hh hfit, ?_, ?_, by omega, by omega⟩
  · rw [e2, e1]
    rcases hcase with hz | hge
    · subst hz
      simp
    · have := hpos hge
      constructor
      · intro _
        omega
      · intro _
        omega
  · rw [e3, e4]
    rcases hcase with hz | hge
    · subst hz
      simp
      omega
    · have := hpos hge
      constructor
      · intro _
        omega
      · intro _
        omega

/-- C16 (as amended): with a single clock reading `now` at or after the epoch and below the
64-bit overflow (`now + 1h` plus the hour offset fits the tick count), the precondition
`L >= 1` of the sampler holds for `futureDate`, `pastDate`, `soonDate` and `recentDate`
exactly when the 32-bit hour offset they compute is not zero: `futureDate` and `soonDate`
call the random source with the offset in seconds minus one, `pastDate` and `recentDate`
with the offset minus one hour, in seconds, minus one; the interval has `from < to` and the
bound is non-negative exactly when the offset is not zero. For every argument `n >= 1` below
the 32-bit wrap the offset is not zero. For the argument 0, `futureDate` and `soonDate` call
`integer(-1)`, and `pastDate` and `recentDate` call `integer(-3601)`. -/
theorem C16_precondition_iff_nonzero_offset {ε : Type} (tps : Int) (htps : 0 < tps)
    (integer : Int → Except ε Int) (clock : Nat → Int) (n : Nat) (fmt : DateFormat)
    (h0 : 0 ≤ clock 0) (h1 : clock 1 = clock 0) :
    (clock 0 + (uint32 (8760 * (n : Int)) + 1) * 3600 * tps < 9223372036854775808 →
      futureDate tps integer clock n fmt
        = (integer (uint32 (8760 * (n : Int)) * 3600 - 1)).map
            (fun r => serializeTimePoint tps
              (addTicks (clock 0 + 3600 * tps) (seconds tps r)) fmt) ∧
      pastDate tps integer clock n fmt
        = (integer ((uint32 (8760 * (n : Int)) - 1) * 3600 - 1)).map
            (fun r => serializeTimePoint tps
              (addTicks (clock 0 - uint32 (8760 * (n : Int)) * 3600 * tps) (seconds tps r))
              fmt) ∧
      ((futureDateBounds tps clock n).1 < (futureDateBounds tps clock n).2
        ↔ uint32 (8760 * (n : Int)) ≠ 0) ∧
      ((pastDateBounds tps clock n).1 < (pastDateBounds tps clock n).2
        ↔ uint32 (8760 * (n : Int)) ≠ 0) ∧
      (0 ≤ uint32 (8760 * (n : Int)) * 3600 - 1 ↔ uint32 (8760 * (n : Int)) ≠ 0) ∧
      (0 ≤ (uint32 (8760 * (n : Int)) - 1) * 3600 - 1 ↔ uint32 (8760 * (n : Int)) ≠ 0)) ∧
    (clock 0 + (uint32 (24 * (n : Int)) + 1) * 3600 * tps < 9223372036854775808 →
      soonDate tps integer clock n fmt
        = (integer (uint32 (24 * (n : Int)) * 3600 - 1)).map
            (fun r => serializeTimePoint tps
              (addTicks (clock 0 + 3600 * tps) (seconds tps r)) fmt) ∧
      recentDate tps integer clock n fmt
        = (integer ((uint32 (24 * (n : Int)) - 1) * 3600 - 1)).map
            (fun r => serializeTimePoint tps
              (addTicks (clock 0 - uint32 (24 * (n : Int)) * 3600 * tps) (seconds tps r))
              fmt) ∧
      ((soonDateBounds tps clock n).1 < (soonDateBounds tps clock n).2
        ↔ uint32 (24 * (n : Int)) ≠ 0) ∧
      ((recentDateBounds tps clock n).1 < (recentDateBounds tps clock n).2
        ↔ uint32 (24 * (n : Int)) ≠ 0) ∧
      (0 ≤ uint32 (24 * (n : Int)) * 3600 - 1 ↔ uint32 (24 * (n : Int)) ≠ 0) ∧
      (0 ≤ (uint32 (24 * (n : Int)) - 1) * 3600 - 1 ↔ uint32 (24 * (n : Int)) ≠ 0)) ∧
    (1 ≤ n → 8760 * (n : Int) < 4294967296 →
      uint32 (8760 * (n : Int)) = 8760 * (n : Int) ∧ uint32 (8760 * (n : Int)) ≠ 0) ∧
    (1 ≤ n → 24 * (n : Int) < 4294967296 →
      uint32 (24 * (n : Int)) = 24 * (n : Int) ∧ uint32 (24 * (n : Int)) ≠ 0) ∧
    (n = 0 →
      uint32 (8760 * (n : Int)) * 3600 - 1 = -1 ∧
      uint32 (24 * (n : Int)) * 3600 - 1 = -1 ∧
      (uint32 (8760 * (n : Int)) - 1) * 3600 - 1 = -3601 ∧
      (uint32 (24 * (n : Int)) - 1) * 3600 - 1 = -3601) := by
  have ey : 8760 * (n : Int) = 8 * (1095 * (n : Int)) := by ring
  have ed : 24 * (n : Int) = 8 * (3 * (n : Int)) := by ring
  obtain ⟨hy0, hy8⟩ := uint32_mod8 (1095 * (n : Int))
  obtain ⟨hd0, hd8⟩ := uint32_mod8 (3 * (n : Int))
  rw [← ey] at hy0 hy8
  rw [← ed] at hd0 hd8
  refine ⟨?_, ?_, ?_, ?_, ?_⟩
  · intro hfit
    have hbf : futureDateBounds tps clock n
        = (addTicks (clock 0) (hours tps 1),
           addTicks (addTicks (clock 0) (hours tps 1))
            (hours tps (uint32 (8760 * (n : Int))))) := by
      simp only [futureDateBounds, yearHours_uint32]
    have hbp : pastDateBounds tps clock n
        = (subTicks (clock 0) (hours tps (uint32 (8760 * (n : Int)))),
           subTicks (clock 0) (hours tps 1)) := by
      simp only [pastDateBounds, yearHours_uint32, h1]
    obtain ⟨q1, q2, q3, q4, q5, q6⟩ := builders_of_offset tps htps integer (clock 0)
      (uint32 (8760 * (n : Int))) fmt h0 hy0 hy8 hfit
    refine ⟨?_, ?_, ?_, ?_, q5, q6⟩
    · unfold futureDate
      rw [hbf]
      exact q1
    · unfold pastDate
      rw [hbp]
      exact q2
    · rw [hbf]
      exact q3
    · rw [hbp]
      exact q4
  · intro hfit
    have hbf : soonDateBounds tps clock n
        = (addTicks (clock 0) (hours tps 1),
           addTicks (addTicks (clock 0) (hours tps 1))
            (hours tps (uint32 (24 * (n : Int))))) := by
      simp only [soonDateBounds, dayHours_uint32]
    have hbp : recentDateBounds tps clock n
        = (subTicks (clock 0) (hours tps (uint32 (24 * (n : Int)))),
           subTicks (clock 0) (hours tps 1)) := by
      simp only [recentDateBounds, dayHours_uint32, h1]
    obtain ⟨q1, q2, q3, q4, q5, q6⟩ := builders_of_offset tps htps integer (clock 0)
      (uint32 (24 * (n : Int))) fmt h0 hd0 hd8 hfit
    refine ⟨?_, ?_, ?_, ?_, q5, q6⟩
    · unfold soonDate
      rw [hbf]
      exact q1
    · unfold recentDate
      rw [hbp]
      exact q2
    · rw [hbf]
      exact q3
    · rw [hbp]
      exact q4
  · intro hn hw
    have hn2 : (1 : Int) ≤ (n : Int) := by exact_mod_cast hn
    have hu := uint32_of_lt (8760 * (n : Int)) (by omega) hw
    rw [hu]
    exact ⟨rfl, by omega⟩
  · intro hn hw
    have hn2 : (1 : Int) ≤ (n : Int) := by exact_mod_cast hn
    have hu := uint32_of_lt (24 * (n : Int)) (by omega) hw
    rw [hu]
    exact ⟨rfl, by omega⟩
  · intro hz
    subst hz
    decide

/-- Witness of C16 (as amended): nanosecond ticks, both reads of the clock at
1700000000.123456789 s, one year: the source is asked for a value of `[0, 31535999]` by
`futureDate` and of `[0, 31532399]` by `pastDate`. With the argument 0 and a source that
rejects a negative bound both calls fail. -/
theorem C16_precondition_iff_nonzero_offset_witness :
    (0 : Int) < nanoTicks ∧ 0 ≤ clockTwo 1700000000123456789 1700000000123456789 0 ∧
    clockTwo 1700000000123456789 1700000000123456789 1
      = clockTwo 1700000000123456789 1700000000123456789 0 ∧
    clockTwo 1700000000123456789 1700000000123456789 0
      + (uint32 (8760 * ((1 : Nat) : Int)) + 1) * 3600 * nanoTicks < 9223372036854775808 ∧
    futureDate nanoTicks drawGuarded (clockTwo 1700000000123456789 1700000000123456789) 1
        DateFormat.Timestamp
      = (drawGuarded (uint32 (8760 * ((1 : Nat) : Int)) * 3600 - 1)).map
          (fun r => serializeTimePoint nanoTicks
            (addTicks (clockTwo 1700000000123456789 1700000000123456789 0
              + 3600 * nanoTicks) (seconds nanoTicks r)) DateFormat.Timestamp) ∧
    uint32 (8760 * ((1 : Nat) : Int)) * 3600 - 1 = 31535999 ∧
    (uint32 (8760 * ((1 : Nat) : Int)) - 1) * 3600 - 1 = 31532399 ∧
    futureDate nanoTicks drawGuarded (clockTwo 1700000000123456789 1700000000123456789) 1
      DateFormat.Timestamp = Except.ok "1700003600" ∧
    pastDate nanoTicks drawGuarded (clockTwo 1700000000123456789 1700000000123456789) 1
      DateFormat.Timestamp = Except.ok "1668464000" ∧
    futureDate nanoTicks drawGuarded (clockTwo 1700000000123456789 1700000000123456789) 0
      DateFormat.Timestamp = Except.error () ∧
    pastDate nanoTicks drawGuarded (clockTwo 1700000000123456789 1700000000123456789) 0
      DateFormat.Timestamp = Except.error () :=
  ⟨by decide, by decide, by decide, by decide,
    ((C16_precondition_iff_nonzero_offset nanoTicks (by decide) drawGuarded
      (clockTwo 1700000000123456789 1700000000123456789) 1 DateFormat.Timestamp
      (by decide) (by decide)).1 (by decide)).1,
    by decide, by decide, rfl, rfl, rfl, rfl⟩

/-- C16, counterexample to the claim as stated (exactly when the hour offset is non-zero,
for every argument below the overflow threshold of the offset), with nanosecond ticks and a
single clock reading of 1700000000.123456789 s. For `years = 293` the hour offset is
2566680: it is below the 32-bit wrap and it is not zero, yet 2566680 hours do not fit the
64-bit nanosecond count, the tick arithmetic wraps, the interval of `futureDate` has
`from > to`, and `futureDate` and `pastDate` call the random source with the negative
bounds -9206696074 and -9206699674. -/
theorem C16_counterexample :
    uint32 (8760 * ((293 : Nat) : Int)) = 2566680 ∧
    8760 * ((293 : Nat) : Int) < 4294967296 ∧
    futureDateBounds nanoTicks (clockTwo 1700000000123456789 1700000000123456789) 293
      = (1700003600123456789, -7506692473586094827) ∧
    ¬ ((1700003600123456789 : Int) < -7506692473586094827) ∧
    pastDateBounds nanoTicks (clockTwo 1700000000123456789 1700000000123456789) 293
      = (-7540047999876543211, 1699996400123456789) ∧
    (∀ integer : Int → Except Unit Int,
      futureDate nanoTicks integer (clockTwo 1700000000123456789 1700000000123456789) 293
          DateFormat.Timestamp
        = (integer (-9206696074)).map
            (fun r => serializeTimePoint nanoTicks
              (addTicks 1700003600123456789 (seconds nanoTicks r)) DateFormat.Timestamp)) ∧
    (∀ integer : Int → Except Unit Int,
      pastDate nanoTicks integer (clockTwo 1700000000123456789 1700000000123456789) 293
          DateFormat.Timestamp
        = (integer (-9206699674)).map
            (fun r => serializeTimePoint nanoTicks
              (addTicks (-7540047999876543211) (seconds nanoTicks r))
              DateFormat.Timestamp)) := by
  refine ⟨by decide, by decide, by decide, by decide, by decide, ?_, ?_⟩
  · intro integer
    have hb : futureDateBounds nanoTicks
        (clockTwo 1700000000123456789 1700000000123456789) 293
        = (1700003600123456789, -7506692473586094827) := by decide
    have hs : durationCastSeconds nanoTicks
        (subTicks (-7506692473586094827) 1700003600123456789) - 1 = -9206696074 := by decide
    unfold futureDate
    rw [hb, betweenDate_eq, hs]
  · intro integer
    have hb : pastDateBounds nanoTicks
        (clockTwo 1700000000123456789 1700000000123456789) 293
        = (-7540047999876543211, 1699996400123456789) := by decide
    have hs : durationCastSeconds nanoTicks
        (subTicks 1699996400123456789 (-7540047999876543211)) - 1 = -9206699674 := by decide
    unfold pastDate
    rw [hb, betweenDate_eq, hs]

/-- Supporting fact for C16: the argument 0 with two reads of the clock. When the second
read is 40 ns after the first, `pastDate(0)` and `recentDate(0)` call the random source with
-3600, not -3601: the interval is -3600 s + 40 ns long and the cast to seconds truncates it
toward zero, to -3599. -/
theorem pastDate_zero_two_reads :
    (∀ integer : Int → Except Unit Int,
      pastDate nanoTicks integer (clockTwo 1700000000123456789 1700000000123456829) 0
          DateFormat.Timestamp
        = (integer (-3600)).map
            (fun r => serializeTimePoint nanoTicks
              (addTicks 1700000000123456789 (seconds nanoTicks r)) DateFormat.Timestamp)) ∧
    (∀ integer : Int → Except Unit Int,
      recentDate nanoTicks integer (clockTwo 1700000000123456789 1700000000123456829) 0
          DateFormat.Timestamp
        = (integer (-3600)).map
            (fun r => serializeTimePoint nanoTicks
              (addTicks 1700000000123456789 (seconds nanoTicks r))
              DateFormat.Timestamp)) := by
  refine ⟨?_, ?_⟩
  · intro integer
    have hb : pastDateBounds nanoTicks
        (clockTwo 1700000000123456789 1700000000123456829) 0
        = (1700000000123456789, 1699996400123456829) := by decide
    have hs : durationCastSeconds nanoTicks
        (subTicks 1699996400123456829 1700000000123456789) - 1 = -3600 := by decide
    unfold pastDate
    rw [hb, betweenDate_eq, hs]
  · intro integer
    have hb : recentDateBounds nanoTicks
        (clockTwo 1700000000123456789 1700000000123456829) 0
        = (1700000000123456789, 1699996400123456829) := by decide
    have hs : durationCastSeconds nanoTicks
        (subTicks 1699996400123456829 1700000000123456789) - 1 = -3600 := by decide
    unfold recentDate
    rw [hb, betweenDate_eq, hs]

/-! ### The Iso8601 layout -/

/-- The Iso8601 string of a broken-down time whose fields are in their calendar ranges and
whose year has four digits. -/
theorem putTime_four_digit_year (tm : Tm) (yr mo dd hh mi ss : Nat)
    (hyr : tm.tm_year + 1900 = (yr : Int)) (hmo : tm.tm_mon + 1 = (mo : Int))
    (hdd : tm.tm_mday = (dd : Int)) (hhh : tm.tm_hour = (hh : Int))
    (hmi : tm.tm_min = (mi : Int)) (hss : tm.tm_sec = (ss : Int))
    (hy0 : 1000 ≤ yr) (hy1 : yr ≤ 9999) (hmo1 : mo < 100) (hdd1 : dd < 100) (hhh1 : hh < 100)
    (hmi1 : mi < 100) (hss1 : ss < 100) :
    putTime tm isoLayout
      = [digitChar (yr / 1000), digitChar (yr / 100 % 10), digitChar (yr / 10 % 10),
          digitChar (yr % 10), '-', digitChar (mo / 10), digitChar (mo % 10), '-',
          digitChar (dd / 10), digitChar (dd % 10), 'T', digitChar (hh / 10),
          digitChar (hh % 10), ':', digitChar (mi / 10), digitChar (mi % 10), ':',
          digitChar (ss / 10), digitChar (ss % 10), 'Z'] := by
  have hdig : natDigits yr = [digitChar (yr / 1000), digitChar (yr / 100 % 10),
      digitChar (yr / 10 % 10), digitChar (yr % 10)] := by
    rcases natDigits_cases yr hy1 with ⟨_, h⟩ | ⟨_, _, h⟩ | ⟨_, _, h⟩ | ⟨e, _⟩
    · omega
    · omega
    · omega
    · exact e
  rw [putTime_isoLayout, hyr, hmo, hdd, hhh, hmi, hss, fmtNumber_one, hdig,
    fmtNumber_two mo hmo1, fmtNumber_two dd hdd1, fmtNumber_two hh hhh1,
    fmtNumber_two mi hmi1, fmtNumber_two ss hss1]
  rfl

/-- The Iso8601 string of an instant whose UTC year has four digits: exactly 20 characters
in the layout `YYYY-MM-DDTHH:MM:SSZ`, with decimal digits in every other position. -/
theorem iso8601_layout_of_four_digit_year (tps x : Int)
    (hy0 : 1000 ≤ (gmtime (to_time_t tps x)).tm_year + 1900)
    (hy1 : (gmtime (to_time_t tps x)).tm_year + 1900 ≤ 9999) :
    ∃ yr mo dd hh mi ss : Nat,
      (gmtime (to_time_t tps x)).tm_year + 1900 = (yr : Int) ∧
      (gmtime (to_time_t tps x)).tm_mon + 1 = (mo : Int) ∧
      (gmtime (to_time_t tps x)).tm_mday = (dd : Int) ∧
      (gmtime (to_time_t tps x)).tm_hour = (hh : Int) ∧
      (gmtime (to_time_t tps x)).tm_min = (mi : Int) ∧
      (gmtime (to_time_t tps x)).tm_sec = (ss : Int) ∧
      1000 ≤ yr ∧ yr ≤ 9999 ∧ 1 ≤ mo ∧ mo ≤ 12 ∧ 1 ≤ dd ∧ dd ≤ 31 ∧ hh ≤ 23 ∧ mi ≤ 59 ∧
      ss ≤ 59 ∧
      serializeTimePoint tps x DateFormat.Iso8601 = String.mk
        [digitChar (yr / 1000), digitChar (yr / 100 % 10), digitChar (yr / 10 % 10),
          digitChar (yr % 10), '-', digitChar (mo / 10), digitChar (mo % 10), '-',
          digitChar (dd / 10), digitChar (dd % 10), 'T', digitChar (hh / 10),
          digitChar (hh % 10), ':', digitChar (mi / 10), digitChar (mi % 10), ':',
          digitChar (ss / 10), digitChar (ss % 10), 'Z'] ∧
      (serializeTimePoint tps x DateFormat.Iso8601).data.length = 20 ∧
      (∀ i : Nat, i < 20 → i ≠ 4 → i ≠ 7 → i ≠ 10 → i ≠ 13 → i ≠ 16 → i ≠ 19 →
        ∃ c : Char, (serializeTimePoint tps x DateFormat.Iso8601).data.get? i = some c ∧
          isDigit c = true) := by
  obtain ⟨h1, h2, h3, h4, h5, h6, h7, h8, h9, h10, _⟩ := gmtime_ranges (to_time_t tps x)
  obtain ⟨yr, hyr⟩ := Int.eq_ofNat_of_zero_le
    (show 0 ≤ (gmtime (to_time_t tps x)).tm_year + 1900 by omega)
  obtain ⟨mo, hmo⟩ := Int.eq_ofNat_of_zero_le
    (show 0 ≤ (gmtime (to_time_t tps x)).tm_mon + 1 by omega)
  obtain ⟨dd, hdd⟩ := Int.eq_ofNat_of_zero_le
    (show 0 ≤ (gmtime (to_time_t tps x)).tm_mday by omega)
  obtain ⟨hh, hhh⟩ := Int.eq_ofNat_of_zero_le h5
  obtain ⟨mi, hmi⟩ := Int.eq_ofNat_of_zero_le h3
  obtain ⟨ss, hss⟩ := Int.eq_ofNat_of_zero_le h1
  have hput := putTime_four_digit_year (gmtime (to_time_t tps x)) yr mo dd hh mi ss hyr hmo hdd
    hhh hmi hss (by omega) (by omega) (by omega) (by omega) (by omega) (by omega) (by omega)
  have hser : serializeTimePoint tps x DateFormat.Iso8601
      = String.mk (putTime (gmtime (to_time_t tps x)) isoLayout) := by
    simp [serializeTimePoint]
  rw [hput] at hser
  refine ⟨yr, mo, dd, hh, mi, ss, hyr, hmo, hdd, hhh, hmi, hss, by omega, by omega, by omega,
    by omega, by omega, by omega, by omega, by omega, by omega, hser, ?_, ?_⟩
  · rw [hser]
    rfl
  · intro i hi n4 n7 n10 n13 n16 n19
    rw [hser]
    have hd : ∀ k : Nat, isDigit (digitChar (k % 10)) = true := fun k =>
      isDigit_digitChar (k % 10) (Nat.mod_lt k (by decide))
    have hd1 : isDigit (digitChar (yr / 1000)) = true := isDigit_digitChar _ (by omega)
    have hd2 : isDigit (digitChar (mo / 10)) = true := isDigit_digitChar _ (by omega)
    have hd3 : isDigit (digitChar (dd / 10)) = true := isDigit_digitChar _ (by omega)
    have hd4 : isDigit (digitChar (hh / 10)) = true := isDigit_digitChar _ (by omega)
    have hd5 : isDigit (digitChar (mi / 10)) = true := isDigit_digitChar _ (by omega)
    have hd6 : isDigit (digitChar (ss / 10)) = true := isDigit_digitChar _ (by omega)
    interval_cases i <;> simp_all

/-- The UTC year of an instant that the 64-bit nanosecond tick count can hold lies between
1677 and 2262. -/
theorem year_of_nanosecond_instant (x : Int) (hx : InInt64 x) :
    1677 ≤ (gmtime (to_time_t nanoTicks x)).tm_year + 1900 ∧
    (gmtime (to_time_t nanoTicks x)).tm_year + 1900 ≤ 2262 := by
  obtain ⟨n1, n2⟩ := to_time_t_near nanoTicks x (by decide)
  have c1 : daysFromCivil 1677 1 1 = -107015 := by decide
  have c2 : daysFromCivil (2262 + 1) 1 1 = 107016 := by decide
  have hy1 := (year_of_day 1677 (to_time_t nanoTicks x / 86400)).1
  have hy2 := (year_of_day 2262 (to_time_t nanoTicks x / 86400)).2
  rw [c1] at hy1
  rw [c2] at hy2
  unfold InInt64 at hx
  simp only [gmtime]
  generalize to_time_t nanoTicks x = t at n1 n2 hy1 hy2 ⊢
  have e : nanoTicks = 1000000000 := rfl
  rw [e] at n1 n2
  have h1 := hy1 (by omega)
  have h2 := hy2 (by omega)
  omega

/-- C11: for every instant `x` that the clock of the program can hold (a 64-bit count of
nanoseconds), the UTC year lies in 1677..2262, within 0000-9999, and
`serializeTimePoint(x, Iso8601)` is exactly 20 characters long in the layout
`YYYY-MM-DDTHH:MM:SSZ`: '-' at indexes 4 and 7, 'T' at 10, ':' at 13 and 16, 'Z' at 19 and
decimal digits everywhere else, the fields being the UTC year, the month (01-12), the day
(01-31), the hour (00-23), the minute and the second (00-59) of `x`, each padded with
zeros. -/
theorem C11_iso8601_layout (x : Int) (hx : InInt64 x) :
    0 ≤ (gmtime (to_time_t nanoTicks x)).tm_year + 1900 ∧
    (gmtime (to_time_t nanoTicks x)).tm_year + 1900 ≤ 9999 ∧
    ∃ yr mo dd hh mi ss : Nat,
      (gmtime (to_time_t nanoTicks x)).tm_year + 1900 = (yr : Int) ∧
      (gmtime (to_time_t nanoTicks x)).tm_mon + 1 = (mo : Int) ∧
      (gmtime (to_time_t nanoTicks x)).tm_mday = (dd : Int) ∧
      (gmtime (to_time_t nanoTicks x)).tm_hour = (hh : Int) ∧
      (gmtime (to_time_t nanoTicks x)).tm_min = (mi : Int) ∧
      (gmtime (to_time_t nanoTicks x)).tm_sec = (ss : Int) ∧
      1677 ≤ yr ∧ yr ≤ 2262 ∧ 1 ≤ mo ∧ mo ≤ 12 ∧ 1 ≤ dd ∧ dd ≤ 31 ∧ hh ≤ 23 ∧ mi ≤ 59 ∧
      ss ≤ 59 ∧
      serializeTimePoint nanoTicks x DateFormat.Iso8601 = String.mk
        [digitChar (yr / 1000), digitChar (yr / 100 % 10), digitChar (yr / 10 % 10),
          digitChar (yr % 10), '-', digitChar (mo / 10), digitChar (mo % 10), '-',
          digitChar (dd / 10), digitChar (dd % 10), 'T', digitChar (hh / 10),
          digitChar (hh % 10), ':', digitChar (mi / 10), digitChar (mi % 10), ':',
          digitChar (ss / 10), digitChar (ss % 10), 'Z'] ∧
      (serializeTimePoint nanoTicks x DateFormat.Iso8601).data.length = 20 ∧
      (serializeTimePoint nanoTicks x DateFormat.Iso8601).data.get? 4 = some '-' ∧
      (serializeTimePoint nanoTicks x DateFormat.Iso8601).data.get? 7 = some '-' ∧
      (serializeTimePoint nanoTicks x DateFormat.Iso8601).data.get? 10 = some 'T' ∧
      (serializeTimePoint nanoTicks x DateFormat.Iso8601).data.get? 13 = some ':' ∧
      (serializeTimePoint nanoTicks x DateFormat.Iso8601).data.get? 16 = some ':' ∧
      (serializeTimePoint nanoTicks x DateFormat.Iso8601).data.get? 19 = some 'Z' ∧
      (∀ i : Nat, i < 20 → i ≠ 4 → i ≠ 7 → i ≠ 10 → i ≠ 13 → i ≠ 16 → i ≠ 19 →
        ∃ c : Char,
          (serializeTimePoint nanoTicks x DateFormat.Iso8601).data.get? i = some c ∧
          isDigit c = true) := by
  obtain ⟨y0, y1⟩ := year_of_nanosecond_instant x hx
  obtain ⟨yr, mo, dd, hh, mi, ss, hyr, hmo, hdd, hhh, hmi, hss, _, _, b1, b2, b3, b4, b5, b6,
    b7, hser, hlen, hdig⟩ := iso8601_layout_of_four_digit_year nanoTicks x (by omega) (by omega)
  refine ⟨by omega, by omega, yr, mo, dd, hh, mi, ss, hyr, hmo, hdd, hhh, hmi, hss, by omega,
    by omega, b1, b2, b3, b4, b5, b6, b7, hser, hlen, ?_, ?_, ?_, ?_, ?_, ?_, hdig⟩ <;>
  · rw [hser]
    rfl

/-- Witness of C11: the instant 1700000000.123456789 s, written "2023-11-14T22:13:20Z". -/
theorem C11_iso8601_layout_witness :
    InInt64 1700000000123456789 ∧
    serializeTimePoint nanoTicks 1700000000123456789 DateFormat.Iso8601
      = "2023-11-14T22:13:20Z" ∧
    (0 ≤ (gmtime (to_time_t nanoTicks 1700000000123456789)).tm_year + 1900 ∧
    (gmtime (to_time_t nanoTicks 1700000000123456789)).tm_year + 1900 ≤ 9999 ∧
    ∃ yr mo dd hh mi ss : Nat,
      (gmtime (to_time_t nanoTicks 1700000000123456789)).tm_year + 1900 = (yr : Int) ∧
      (gmtime (to_time_t nanoTicks 1700000000123456789)).tm_mon + 1 = (mo : Int) ∧
      (gmtime (to_time_t nanoTicks 1700000000123456789)).tm_mday = (dd : Int) ∧
      (gmtime (to_time_t nanoTicks 1700000000123456789)).tm_hour = (hh : Int) ∧
      (gmtime (to_time_t nanoTicks 1700000000123456789)).tm_min = (mi : Int) ∧
      (gmtime (to_time_t nanoTicks 1700000000123456789)).tm_sec = (ss : Int) ∧
      1677 ≤ yr ∧ yr ≤ 2262 ∧ 1 ≤ mo ∧ mo ≤ 12 ∧ 1 ≤ dd ∧ dd ≤ 31 ∧ hh ≤ 23 ∧ mi ≤ 59 ∧
      ss ≤ 59 ∧
      serializeTimePoint nanoTicks 1700000000123456789 DateFormat.Iso8601 = String.mk
        [digitChar (yr / 1000), digitChar (yr / 100 % 10), digitChar (yr / 10 % 10),
          digitChar (yr % 10), '-', digitChar (mo / 10), digitChar (mo % 10), '-',
          digitChar (dd / 10), digitChar (dd % 10), 'T', digitChar (hh / 10),
          digitChar (hh % 10), ':', digitChar (mi / 10), digitChar (mi % 10), ':',
          digitChar (ss / 10), digitChar (ss % 10), 'Z'] ∧
      (serializeTimePoint nanoTicks 1700000000123456789 DateFormat.Iso8601).data.length = 20 ∧
      (serializeTimePoint nanoTicks 1700000000123456789 DateFormat.Iso8601).data.get? 4 = some '-' ∧
      (serializeTimePoint nanoTicks 1700000000123456789 DateFormat.Iso8601).data.get? 7 = some '-' ∧
      (serializeTimePoint nanoTicks 1700000000123456789 DateFormat.Iso8601).data.get? 10 = some 'T' ∧
      (serializeTimePoint nanoTicks 1700000000123456789 DateFormat.Iso8601).data.get? 13 = some ':' ∧
      (serializeTimePoint nanoTicks 1700000000123456789 DateFormat.Iso8601).data.get? 16 = some ':' ∧
      (serializeTimePoint nanoTicks 1700000000123456789 DateFormat.Iso8601).data.get? 19 = some 'Z' ∧
      (∀ i : Nat, i < 20 → i ≠ 4 → i ≠ 7 → i ≠ 10 → i ≠ 13 → i ≠ 16 → i ≠ 19 →
        ∃ c : Char,
          (serializeTimePoint nanoTicks 1700000000123456789 DateFormat.Iso8601).data.get? i = some c ∧
          isDigit c = true)) :=
  ⟨by decide, rfl, C11_iso8601_layout 1700000000123456789 (by decide)⟩

/-! ### The bounds of `birthdateByYear` -/

/-- The instant `mktime` gives to the second `s` of 23:59 on December 31st of year `y`. -/
theorem mktime_yearEnd (tz y s : Int) :
    mktime tz { tm_year := y - 1900, tm_mon := 11, tm_mday := 31, tm_hour := 23, tm_min := 59,
                tm_sec := s, tm_isdst := -1 }
      = daysFromCivil (y + 1) 1 1 * 86400 - 60 + s - tz := by
  have e1 : daysFromCivil y 12 1 + (31 - 1) + 1 = daysFromCivil (y + 1) 1 1 := by
    simp only [daysFromCivil]
    norm_num
    omega
  have e2 : (y - 1900 + 1900 + 11 / 12) = y := by omega
  have e5 : (11 : Int) % 12 + 1 = 12 := by decide
  simp only [mktime, timegm, e2, e5]
  omega

/-- The instant `mktime` gives to the first second of year `y`. -/
theorem mktime_yearStart (tz y : Int) :
    mktime tz { tm_year := y - 1900, tm_mon := 0, tm_mday := 1, tm_hour := 0, tm_min := 0,
                tm_sec := 0, tm_isdst := -1 }
      = daysFromCivil y 1 1 * 86400 - tz := by
  have e3 : (y - 1900 + 1900 + 0 / 12) = y := by omega
  have e4 : (0 : Int) % 12 + 1 = 1 := by decide
  simp only [mktime, timegm, e3, e4]
  omega

/-- C17 (as amended): with nanosecond ticks, for every `1678 <= minYear <= maxYear <= 2261`
at most 290 years apart (the years whose bounds and interval fit the 64-bit tick count), in
a zone at most one day away from Greenwich, and every random source that respects its
bounds, `birthdateByYear` samples the half-open interval from January 1st 00:00:00 of
`minYear` to December 31st 23:59:59 of `maxYear` (local time): the result is never the upper
bound, the latest instant it can be is December 31st 23:59:58 of `maxYear`, returned for the
largest draw, and the earliest, January 1st 00:00:00 of `minYear`, is returned when the draw
is 0. -/
theorem C17_birthdateByYear_never_upper_bound {ε : Type} (tz : Int)
    (integer : Int → Except ε Int) (hint : InclusiveBounds integer)
    (minYear maxYear : Nat) (fmt : DateFormat) (hle : minYear ≤ maxYear)
    (hlo : 1678 ≤ minYear) (hhi : maxYear ≤ 2261) (hspan : maxYear ≤ minYear + 290)
    (htz0 : -86400 ≤ tz) (htz1 : tz ≤ 86400) :
    (birthdateByYearBounds nanoTicks tz minYear maxYear).1
      = mktime tz
          { tm_year := (minYear : Int) - 1900, tm_mon := 0, tm_mday := 1, tm_hour := 0,
            tm_min := 0, tm_sec := 0, tm_isdst := -1 } * nanoTicks ∧
    (birthdateByYearBounds nanoTicks tz minYear maxYear).2
      = mktime tz
          { tm_year := (maxYear : Int) - 1900, tm_mon := 11, tm_mday := 31, tm_hour := 23,
            tm_min := 59, tm_sec := 59, tm_isdst := -1 } * nanoTicks ∧
    (∃ s : Int,
      randomDateWithinRange nanoTicks integer
        (birthdateByYearBounds nanoTicks tz minYear maxYear).1
        (birthdateByYearBounds nanoTicks tz minYear maxYear).2 = Except.ok (s * nanoTicks) ∧
      birthdateByYear nanoTicks tz integer minYear maxYear fmt
        = Except.ok (serializeTimePoint nanoTicks (s * nanoTicks) fmt) ∧
      to_time_t nanoTicks (s * nanoTicks) = s ∧
      mktime tz
          { tm_year := (minYear : Int) - 1900, tm_mon := 0, tm_mday := 1, tm_hour := 0,
            tm_min := 0, tm_sec := 0, tm_isdst := -1 } ≤ s ∧
      s < mktime tz
          { tm_year := (maxYear : Int) - 1900, tm_mon := 11, tm_mday := 31, tm_hour := 23,
            tm_min := 59, tm_sec := 59, tm_isdst := -1 } ∧
      s ≠ mktime tz
          { tm_year := (maxYear : Int) - 1900, tm_mon := 11, tm_mday := 31, tm_hour := 23,
            tm_min := 59, tm_sec := 59, tm_isdst := -1 } ∧
      s ≤ mktime tz
          { tm_year := (maxYear : Int) - 1900, tm_mon := 11, tm_mday := 31, tm_hour := 23,
            tm_min := 59, tm_sec := 58, tm_isdst := -1 }) ∧
    birthdateByYear nanoTicks tz (drawMax : Int → Except ε Int) minYear maxYear fmt
      = Except.ok (serializeTimePoint nanoTicks
          (mktime tz
          { tm_year := (maxYear : Int) - 1900, tm_mon := 11, tm_mday := 31, tm_hour := 23,
            tm_min := 59, tm_sec := 58, tm_isdst := -1 } * nanoTicks) fmt) ∧
    (∀ source : Int → Except ε Int,
      source (mktime tz
          { tm_year := (maxYear : Int) - 1900, tm_mon := 11, tm_mday := 31, tm_hour := 23,
            tm_min := 59, tm_sec := 59, tm_isdst := -1 }
        - mktime tz
          { tm_year := (minYear : Int) - 1900, tm_mon := 0, tm_mday := 1, tm_hour := 0,
            tm_min := 0, tm_sec := 0, tm_isdst := -1 } - 1) = Except.ok 0 →
      birthdateByYear nanoTicks tz source minYear maxYear fmt
        = Except.ok (serializeTimePoint nanoTicks
          (mktime tz
          { tm_year := (minYear : Int) - 1900, tm_mon := 0, tm_mday := 1, tm_hour := 0,
            tm_min := 0, tm_sec := 0, tm_isdst := -1 } * nanoTicks) fmt)) := by
  have hle2 : (minYear : Int) ≤ (maxYear : Int) := by exact_mod_cast hle
  have hhi2 : (maxYear : Int) ≤ 2261 := by exact_mod_cast hhi
  obtain ⟨hfa, hfb, hd⟩ := yearBounds_fit tz minYear maxYear hle hlo hhi hspan htz0 htz1
  have hmono := yearStart_mono minYear maxYear hle2
  have hstep := yearStart_step maxYear
  have ms := mktime_yearStart tz (minYear : Int)
  have me59 : mktime tz
          { tm_year := (maxYear : Int) - 1900, tm_mon := 11, tm_mday := 31, tm_hour := 23,
            tm_min := 59, tm_sec := 59, tm_isdst := -1 }
      = daysFromCivil ((maxYear : Int) + 1) 1 1 * 86400 - 1 - tz := by
    rw [mktime_yearEnd]
    omega
  have me58 : mktime tz
          { tm_year := (maxYear : Int) - 1900, tm_mon := 11, tm_mday := 31, tm_hour := 23,
            tm_min := 59, tm_sec := 58, tm_isdst := -1 }
      = daysFromCivil ((maxYear : Int) + 1) 1 1 * 86400 - 1 - tz - 1 := by
    rw [mktime_yearEnd]
    omega
  rw [ms, me59, me58]
  have hpos : 0 ≤ daysFromCivil ((maxYear : Int) + 1) 1 1 * 86400 - 1 - tz
      - (daysFromCivil minYear 1 1 * 86400 - tz) - 1 := by omega
  obtain ⟨r, hr, hr0, hr1⟩ := hint (daysFromCivil ((maxYear : Int) + 1) 1 1 * 86400 - 1 - tz
      - (daysFromCivil minYear 1 1 * 86400 - tz) - 1) hpos
  obtain ⟨hb, h1, h2, h3⟩ := birthdateByYear_of_draw nanoTicks (by decide) tz integer minYear
    maxYear r fmt hle (by omega) hfa hfb hd hr hr0 hr1
  obtain ⟨_, _, m2, _⟩ := birthdateByYear_of_draw nanoTicks (by decide) tz
    (drawMax : Int → Except ε Int) minYear maxYear
    (daysFromCivil ((maxYear : Int) + 1) 1 1 * 86400 - 1 - tz
      - (daysFromCivil minYear 1 1 * 86400 - tz) - 1) fmt hle (by omega) hfa hfb hd rfl hpos
    (le_refl _)
  refine ⟨by rw [hb], by rw [hb], ?_, ?_, ?_⟩
  · exact ⟨daysFromCivil minYear 1 1 * 86400 - tz + r, h1, h2, h3, by omega, by omega,
      by omega, by omega⟩
  · rw [m2]
    congr 3
    omega
  · intro source hs
    obtain ⟨_, _, z2, _⟩ := birthdateByYear_of_draw nanoTicks (by decide) tz source minYear
      maxYear 0 fmt hle (by omega) hfa hfb hd hs (le_refl 0) hpos
    rw [z2]
    congr 3
    omega

/-- Witness of C17 (as amended): the year 2000 in a UTC process with nanosecond ticks: the
largest draw gives 2000-12-31T23:59:58Z and the draw 0 gives 2000-01-01T00:00:00Z. -/
theorem C17_birthdateByYear_never_upper_bound_witness :
    InclusiveBounds (drawMax : Int → Except Unit Int) ∧ 2000 ≤ 2000 ∧ 1678 ≤ 2000 ∧
    2000 ≤ 2261 ∧ 2000 ≤ 2000 + 290 ∧ (-86400 : Int) ≤ 0 ∧ (0 : Int) ≤ 86400 ∧
    birthdateByYear nanoTicks 0 (drawMax : Int → Except Unit Int) 2000 2000
        DateFormat.Iso8601
      = Except.ok (serializeTimePoint nanoTicks
          (mktime 0
          { tm_year := ((2000 : Nat) : Int) - 1900, tm_mon := 11, tm_mday := 31, tm_hour := 23,
            tm_min := 59, tm_sec := 58, tm_isdst := -1 } * nanoTicks) DateFormat.Iso8601) ∧
    birthdateByYear nanoTicks 0 (drawMax : Int → Except Unit Int) 2000 2000 DateFormat.Iso8601
      = Except.ok "2000-12-31T23:59:58Z" ∧
    birthdateByYear nanoTicks 0 (drawZero : Int → Except Unit Int) 2000 2000
      DateFormat.Iso8601 = Except.ok "2000-01-01T00:00:00Z" :=
  ⟨inclusiveBounds_drawMax, by decide, by decide, by decide, by decide, by decide, by decide,
    (C17_birthdateByYear_never_upper_bound 0 (drawMax : Int → Except Unit Int)
      inclusiveBounds_drawMax 2000 2000 DateFormat.Iso8601 (by decide) (by decide)
      (by decide) (by decide) (by decide) (by decide)).2.2.2.1,
    rfl, rfl⟩

/-- C17, counterexample to the claim as stated (every `minYear <= maxYear`), with nanosecond
ticks in a UTC process. For the year 1600, January 1st 00:00:00 is the second -11676096000,
which the 64-bit nanosecond count cannot hold: `from_time_t` wraps both bounds into the
year 2184. The interval still has the length of the year, the random source is asked for a
value of `[0, 31622398]`, and the draw 0 returns 2184-07-20T23:34:33Z, not January 1st of
`minYear`. For `maxYear = 2^31 + 1900` the difference `maxYear - 1900` does not fit the
`int` field `tm_year` and the upper bound wraps as well: the source is asked for a value of
`[0, 1986456535]` and the largest draw returns the second 2933141335, in the year 2062,
which is not December 31st 23:59:58 of `maxYear`. For the years 1678 to 2261 both bounds fit
but their difference does not, and the random source is called with the negative bound
-17537675. -/
theorem C17_counterexample :
    InclusiveBounds (drawZero : Int → Except Unit Int) ∧
    InclusiveBounds (drawMax : Int → Except Unit Int) ∧
    mktime 0
        { tm_year := ((1600 : Nat) : Int) - 1900, tm_mon := 0, tm_mday := 1, tm_hour := 0,
          tm_min := 0, tm_sec := 0, tm_isdst := -1 } = -11676096000 ∧
    ¬ InInt64 (-11676096000 * nanoTicks) ∧
    birthdateByYearBounds nanoTicks 0 1600 1600
      = (6770648073709551616, 6802270472709551616) ∧
    durationCastSeconds nanoTicks
      (subTicks (birthdateByYearBounds nanoTicks 0 1600 1600).2
        (birthdateByYearBounds nanoTicks 0 1600 1600).1) - 1 = 31622398 ∧
    birthdateByYear nanoTicks 0 (drawZero : Int → Except Unit Int) 1600 1600
      DateFormat.Iso8601 = Except.ok "2184-07-20T23:34:33Z" ∧
    (2000 : Nat) ≤ 2147485548 ∧
    toInt32 (uint32 (((2147485548 : Nat) : Int) - 1900)) = -2147483648 ∧
    birthdateByYearBounds nanoTicks 0 2000 2147485548
      = (946684800000000000, 2933141336995870208) ∧
    durationCastSeconds nanoTicks
      (subTicks (birthdateByYearBounds nanoTicks 0 2000 2147485548).2
        (birthdateByYearBounds nanoTicks 0 2000 2147485548).1) - 1 = 1986456535 ∧
    birthdateByYear nanoTicks 0 (drawMax : Int → Except Unit Int) 2000 2147485548
      DateFormat.Timestamp = Except.ok "2933141335" ∧
    birthdateByYear nanoTicks 0 (drawMax : Int → Except Unit Int) 2000 2147485548
      DateFormat.Iso8601 = Except.ok "2062-12-12T09:28:55Z" ∧
    birthdateByYearBounds nanoTicks 0 1678 2261
      = (-9214560000000000000, 9214646399000000000) ∧
    durationCastSeconds nanoTicks
      (subTicks (birthdateByYearBounds nanoTicks 0 1678 2261).2
        (birthdateByYearBounds nanoTicks 0 1678 2261).1) - 1 = -17537675 :=
  ⟨inclusiveBounds_drawZero, inclusiveBounds_drawMax, by decide, by decide, by decide,
    by decide, rfl, by decide, by decide, by decide, by decide, rfl, rfl, by decide,
    by decide⟩

end faker.date
